import Mathlib

/-!
OSL `wide.h`: lane masks, wide storage and masked accessors.

A shallow embedding of `src/include/OSL/wide.h`.

Conventions of the embedding.

* `unsigned int` values are natural numbers below `2 ^ 32`; every result of an
  unsigned operation is reduced with `% 4294967296`.
* An `int` used as a lane index or shift count is a natural number.  A negative
  shift count, a shift count of 32 or more and an array index outside the array
  are undefined behaviour in the source.  An array access outside the array is
  `none` in the embedding; the theorems only shift by less than 32.
* An `int` that is not a lane index or shift count is an integer; the product
  of two `int` is reduced to 32 bits with `toInt32`.
* A C array `T a[n]` is a `CArray T n`; reading and writing it with a run-time
  index returns an `Option`.
* A method that mutates `*this` returns the new object.
* A reference or pointer into the memory behind a `void *` is the pair of that
  pointer and an index; the memory is a list of instances, passed to the
  operations that read or write through the reference.
* A debug assertion `DASSERT` that fails is `none`.
-/

namespace OSL

/-! ## Definitions -/

/-- The constant `static constexpr int SimdLaneCount = 16;`. -/
def SimdLaneCount : Nat := 16

/-- Conversion of an arithmetic result to `unsigned int`. -/
def toUInt32 (n : Nat) : Nat := n % 4294967296

/-- Conversion of an arithmetic result to `int`: the value of its low 32 bits in
two's complement.  Overflow of a signed operation is undefined behaviour in the
source; the embedding gives the operation the value the machine computes. -/
def toInt32 (z : Int) : Int := (z + 2147483648) % 4294967296 - 2147483648

/-- The expression `1<<lane`, read as an `unsigned int` (as it is wherever the
source combines it with `m_value`).  Meaningful for `lane < 32`. -/
def shl1 (lane : Nat) : Nat := toUInt32 (1 <<< lane)

/-- The expression `~v` on an `unsigned int`. -/
def bitNot32 (v : Nat) : Nat := 4294967295 - toUInt32 v

/-- The expression `(0xFFFFFFFF >> (32-WidthT))`.  Meaningful for
`1 ≤ WidthT ≤ 32` (the source has `static_assert(sizeof(value_type)*8 >= WidthT)`). -/
def fullMask (WidthT : Nat) : Nat := 0xFFFFFFFF >>> (32 - WidthT)

/-- The class `Lane`: a wrapper identifying a single lane index. -/
structure Lane where
  m_index : Nat
deriving DecidableEq, Repr

/-- The method `Lane::value`. -/
def Lane.value (l : Lane) : Nat := l.m_index

/-- The class `WideMask<WidthT>`: its only member is `value_type m_value`, an
`unsigned int`. -/
@[ext]
structure WideMask (WidthT : Nat) where
  m_value : Nat
  m_value_lt : m_value < 4294967296
deriving DecidableEq

namespace WideMask

variable {WidthT : Nat}

/-- Builds a mask object from the `unsigned int` result of an expression. -/
def ofUInt32 (n : Nat) : WideMask WidthT :=
  ⟨toUInt32 n, Nat.mod_lt n (by decide)⟩

/-- The constructor `WideMask(Lane lane) : m_value(1<<lane.value())`. -/
def fromLane (lane : Lane) : WideMask WidthT :=
  ofUInt32 (shl1 lane.value)

/-- The constructor `WideMask(bool all_on_or_off)`. -/
def fromBool (all_on_or_off : Bool) : WideMask WidthT :=
  ofUInt32 (if all_on_or_off then fullMask WidthT else 0)

/-- The constructor `WideMask(value_type value_) : m_value(value_)`. -/
def fromValue (value_ : Nat) : WideMask WidthT :=
  ofUInt32 value_

/-- The constructor `WideMask(int value_) : m_value(static_cast<value_type>(value_))`. -/
def fromInt (value_ : Int) : WideMask WidthT :=
  ofUInt32 (value_ % 4294967296).toNat

/-- The method `value()`. -/
def value (m : WideMask WidthT) : Nat := m.m_value

/-- The loop of `count()`: `for (count = 0; m != 0; ++count) m &= m-1;`. -/
def countLoop (m count : Nat) : Nat :=
  if m = 0 then count else countLoop (m &&& (m - 1)) (count + 1)
termination_by m
decreasing_by
  have h1 : m &&& (m - 1) ≤ m - 1 := Nat.and_le_right
  omega

/-- The method `count()`: number of active bits. -/
def count (m : WideMask WidthT) : Nat := countLoop m.m_value 0

/-- The method `invert()`. -/
def invert (m : WideMask WidthT) : WideMask WidthT :=
  ofUInt32 (bitNot32 m.m_value &&& fullMask WidthT)

/-- The method `invert(const WideMask &mask)`. -/
def invertIn (m mask : WideMask WidthT) : WideMask WidthT :=
  ofUInt32 (mask.m_value &&& (bitNot32 m.m_value &&& fullMask WidthT))

/-- The tester `operator[](int lane)`. -/
def subscript (m : WideMask WidthT) (lane : Nat) : Bool :=
  (m.m_value &&& shl1 lane) == shl1 lane

/-- The tester `is_on(int lane)`. -/
def is_on (m : WideMask WidthT) (lane : Nat) : Bool :=
  (m.m_value &&& shl1 lane) == shl1 lane

/-- The tester `is_off(int lane)`. -/
def is_off (m : WideMask WidthT) (lane : Nat) : Bool :=
  (m.m_value &&& shl1 lane) == 0

/-- The tester `all_on()`. -/
def all_on (m : WideMask WidthT) : Bool :=
  decide (m.m_value ≥ fullMask WidthT)

/-- The tester `all_off()`. -/
def all_off (m : WideMask WidthT) : Bool :=
  m.m_value == 0

/-- The tester `any_on()`. -/
def any_on (m : WideMask WidthT) : Bool :=
  m.m_value != 0

/-- The tester `any_off()`. -/
def any_off (m : WideMask WidthT) : Bool :=
  decide (m.m_value < fullMask WidthT)

/-- The tester `any_off(const WideMask &mask)`. -/
def any_off_in (m mask : WideMask WidthT) : Bool :=
  m.m_value != (m.m_value &&& mask.m_value)

/-- The setter `set(int lane, bool flag)`. -/
def set (m : WideMask WidthT) (lane : Nat) (flag : Bool) : WideMask WidthT :=
  if flag then ofUInt32 (m.m_value ||| shl1 lane)
  else ofUInt32 (m.m_value &&& bitNot32 (shl1 lane))

/-- The setter `set_on(int lane)`. -/
def set_on (m : WideMask WidthT) (lane : Nat) : WideMask WidthT :=
  ofUInt32 (m.m_value ||| shl1 lane)

/-- The setter `set_all_on()`. -/
def set_all_on (_m : WideMask WidthT) : WideMask WidthT :=
  ofUInt32 (fullMask WidthT)

/-- The setter `set_off(int lane)`. -/
def set_off (m : WideMask WidthT) (lane : Nat) : WideMask WidthT :=
  ofUInt32 (m.m_value &&& bitNot32 (shl1 lane))

/-- The setter `set_all_off()`. -/
def set_all_off (_m : WideMask WidthT) : WideMask WidthT :=
  ofUInt32 0

/-- The operator `&=`; the result is the new value of `*this`. -/
def andAssign (m other : WideMask WidthT) : WideMask WidthT :=
  ofUInt32 (m.m_value &&& other.m_value)

/-- The operator `|=`; the result is the new value of `*this`. -/
def orAssign (m other : WideMask WidthT) : WideMask WidthT :=
  ofUInt32 (m.m_value ||| other.m_value)

/-- The operator `&`, which calls `WideMask(m_value&other.m_value)`. -/
def and (m other : WideMask WidthT) : WideMask WidthT :=
  fromValue (m.m_value &&& other.m_value)

/-- The operator `|`, which calls `WideMask(m_value|other.m_value)`. -/
def or (m other : WideMask WidthT) : WideMask WidthT :=
  fromValue (m.m_value ||| other.m_value)

/-- The operator `~`, which calls `invert()`. -/
def not (m : WideMask WidthT) : WideMask WidthT :=
  m.invert

/-- The width invariant of the specification: no bit at a position `≥ WidthT`
is set. -/
def inWidth (m : WideMask WidthT) : Prop :=
  ∀ k, WidthT ≤ k → m.m_value.testBit k = false

end WideMask

/-- The typedef `Mask`, `WideMask<SimdLaneCount>`. -/
abbrev Mask : Type := WideMask SimdLaneCount

/-- Number of set bits among the `n` low bits of `v`. -/
def popcount : Nat → Nat → Nat
  | 0, _ => 0
  | n + 1, v => v % 2 + popcount n (v / 2)

/-! ### Element types -/

/-- The builtin type `float`.  Wide storage only stores and copies float
values, so a float is represented by its 32-bit pattern and two floats are
equal when they are the same pattern. -/
structure float where
  bits : Nat
deriving DecidableEq, Repr

/-- The builtin type `int`. -/
abbrev int : Type := Int

/-- The typedef `TransformationPtr` (`const void *`): an address. -/
structure TransformationPtr where
  addr : Nat
deriving DecidableEq, Repr

/-- Modelled from the spec: the interned string handle `ustring`, whose class is
declared outside `wide.h`; two handles are equal exactly when they intern the
same characters. -/
structure ustring where
  chars : String
deriving DecidableEq, Repr

/-- Modelled from the spec: the 2-component vector `Vec2` (`Imath::Vec2<Float>`),
declared outside `wide.h`, with components `x`, `y`. -/
structure Vec2 where
  x : float
  y : float
deriving DecidableEq, Repr

/-- Modelled from the spec: the 3-component vector `Vec3` (`Imath::Vec3<Float>`),
declared outside `wide.h`, with components `x`, `y`, `z`. -/
structure Vec3 where
  x : float
  y : float
  z : float
deriving DecidableEq, Repr

/-- The typedef `Vec4` (`Imath::Vec4<Float>`), with components `x`, `y`, `z`,
`w`. -/
structure Vec4 where
  x : float
  y : float
  z : float
  w : float
deriving DecidableEq, Repr

/-- Modelled from the spec: the 3-component color `Color3` (`Imath::Color3<Float>`),
declared outside `wide.h`, a type distinct from `Vec3` with components `x`, `y`,
`z`. -/
structure Color3 where
  x : float
  y : float
  z : float
deriving DecidableEq, Repr

/-- Modelled from the spec: the 4×4 matrix `Matrix44` (`Imath::Matrix44<Float>`),
declared outside `wide.h`.  The field `xrc` is the entry `x[r][c]`; the
constructor takes the sixteen entries in row-major order, as the 16-argument
constructor used by `Wide<Matrix44>::get` does. -/
structure Matrix44 where
  x00 : float
  x01 : float
  x02 : float
  x03 : float
  x10 : float
  x11 : float
  x12 : float
  x13 : float
  x20 : float
  x21 : float
  x22 : float
  x23 : float
  x30 : float
  x31 : float
  x32 : float
  x33 : float
deriving DecidableEq, Repr

/-- Modelled from the spec: the dual number `Dual2<T>`, declared outside
`wide.h`: a value and two partial derivatives, read by `val()`, `dx()`, `dy()`
and built by `Dual2(val, dx, dy)`. -/
structure Dual2 (T : Type) where
  val : T
  dx : T
  dy : T
deriving DecidableEq, Repr

/-! ### C arrays and the lane loop -/

/-- A C array `T a[n]`. -/
structure CArray (T : Type) (n : Nat) where
  cell : Fin n → T

namespace CArray

variable {T : Type} {n : Nat}

/-- The array with `a[i]` replaced by `v`, for an index inside the array. -/
def update (a : CArray T n) (i : Fin n) (v : T) : CArray T n :=
  ⟨Function.update a.cell i v⟩

/-- The read `a[i]`; outside the array it is undefined behaviour in the source
and `none` here. -/
def read (a : CArray T n) (i : Nat) : Option T :=
  if h : i < n then some (a.cell ⟨i, h⟩) else none

/-- The write `a[i] = v`; outside the array it is undefined behaviour in the
source and `none` here. -/
def write (a : CArray T n) (i : Nat) (v : T) : Option (CArray T n) :=
  if h : i < n then some (a.update ⟨i, h⟩ v) else none

/-- The array holding `v` in every cell. -/
def replicate (v : T) : CArray T n := ⟨fun _ => v⟩

end CArray

/-- The loop `for(int i = 0; i < WidthT; ++i) body`, threading the object the
body mutates. -/
def forLanes {S : Type} (WidthT : Nat) (body : Nat → S → Option S) (s : S) : Option S :=
  (List.range WidthT).foldlM (fun acc i => body i acc) s

/-! ### Wide storage -/

/-- The struct `WideBuiltin<BuiltinT, WidthT>`, with member
`value_type data[WidthT]`. -/
structure WideBuiltin (BuiltinT : Type) (WidthT : Nat) where
  data : CArray BuiltinT WidthT

namespace WideBuiltin

variable {BuiltinT : Type} {WidthT : Nat}

/-- The method `set(int index, value_type value)`. -/
def set (s : WideBuiltin BuiltinT WidthT) (index : Nat) (value : BuiltinT) :
    Option (WideBuiltin BuiltinT WidthT) := do
  let data ← s.data.write index value
  pure ⟨data⟩

/-- The method `get(int index)`. -/
def get (s : WideBuiltin BuiltinT WidthT) (index : Nat) : Option BuiltinT :=
  s.data.read index

/-- The method `set_all(value_type value)`. -/
def set_all (s : WideBuiltin BuiltinT WidthT) (value : BuiltinT) :
    Option (WideBuiltin BuiltinT WidthT) :=
  forLanes WidthT (fun i acc => do
    let data ← acc.data.write i value
    pure ⟨data⟩) s

/-- The method `blendin(WideMask<WidthT> mask, const WideBuiltin & other)`. -/
def blendin (s : WideBuiltin BuiltinT WidthT) (mask : WideMask WidthT)
    (other : WideBuiltin BuiltinT WidthT) : Option (WideBuiltin BuiltinT WidthT) :=
  forLanes WidthT (fun i acc =>
    if mask.subscript i then do
      let v ← other.get i
      let data ← acc.data.write i v
      pure ⟨data⟩
    else pure acc) s

/-- The method `blendin(WideMask<WidthT> mask, value_type value)`. -/
def blendinValue (s : WideBuiltin BuiltinT WidthT) (mask : WideMask WidthT)
    (value : BuiltinT) : Option (WideBuiltin BuiltinT WidthT) :=
  forLanes WidthT (fun i acc =>
    if mask.subscript i then do
      let data ← acc.data.write i value
      pure ⟨data⟩
    else pure acc) s

end WideBuiltin

/-- The specialization `Wide<Vec4, WidthT>`, with one `float` array per
component. -/
structure WideVec4 (WidthT : Nat) where
  x : CArray float WidthT
  y : CArray float WidthT
  z : CArray float WidthT
  w : CArray float WidthT

namespace WideVec4

variable {WidthT : Nat}

/-- The method `set(int index, const Vec4 & value)`. -/
def set (s : WideVec4 WidthT) (index : Nat) (value : Vec4) : Option (WideVec4 WidthT) := do
  let x ← s.x.write index value.x
  let y ← s.y.write index value.y
  let z ← s.z.write index value.z
  let w ← s.w.write index value.w
  pure ⟨x, y, z, w⟩

/-- The method `blendin(WideMask<WidthT> mask, const value_type & value)`. -/
def blendinValue (s : WideVec4 WidthT) (mask : WideMask WidthT) (value : Vec4) :
    Option (WideVec4 WidthT) :=
  forLanes WidthT (fun i acc =>
    if mask.subscript i then do
      let x ← acc.x.write i value.x
      let y ← acc.y.write i value.y
      let z ← acc.z.write i value.z
      let w ← acc.w.write i value.w
      pure ⟨x, y, z, w⟩
    else pure acc) s

/-- The method `get(int index)`. -/
def get (s : WideVec4 WidthT) (index : Nat) : Option Vec4 := do
  let x ← s.x.read index
  let y ← s.y.read index
  let z ← s.z.read index
  let w ← s.w.read index
  pure ⟨x, y, z, w⟩

end WideVec4

/-- The specialization `Wide<Vec3, WidthT>`, with one `float` array per
component. -/
structure WideVec3 (WidthT : Nat) where
  x : CArray float WidthT
  y : CArray float WidthT
  z : CArray float WidthT

namespace WideVec3

variable {WidthT : Nat}

/-- The method `set(int index, const Vec3 & value)`. -/
def set (s : WideVec3 WidthT) (index : Nat) (value : Vec3) : Option (WideVec3 WidthT) := do
  let x ← s.x.write index value.x
  let y ← s.y.write index value.y
  let z ← s.z.write index value.z
  pure ⟨x, y, z⟩

/-- The method `blendin(WideMask<WidthT> mask, const value_type & value)`. -/
def blendinValue (s : WideVec3 WidthT) (mask : WideMask WidthT) (value : Vec3) :
    Option (WideVec3 WidthT) :=
  forLanes WidthT (fun i acc =>
    if mask.subscript i then do
      let x ← acc.x.write i value.x
      let y ← acc.y.write i value.y
      let z ← acc.z.write i value.z
      pure ⟨x, y, z⟩
    else pure acc) s

/-- The method `get(int index)`. -/
def get (s : WideVec3 WidthT) (index : Nat) : Option Vec3 := do
  let x ← s.x.read index
  let y ← s.y.read index
  let z ← s.z.read index
  pure ⟨x, y, z⟩

end WideVec3

/-- The specialization `Wide<Vec2, WidthT>`, with one `float` array per
component. -/
structure WideVec2 (WidthT : Nat) where
  x : CArray float WidthT
  y : CArray float WidthT

namespace WideVec2

variable {WidthT : Nat}

/-- The method `set(int index, const Vec2 & value)`. -/
def set (s : WideVec2 WidthT) (index : Nat) (value : Vec2) : Option (WideVec2 WidthT) := do
  let x ← s.x.write index value.x
  let y ← s.y.write index value.y
  pure ⟨x, y⟩

/-- The method `blendin(WideMask<WidthT> mask, const value_type & value)`. -/
def blendinValue (s : WideVec2 WidthT) (mask : WideMask WidthT) (value : Vec2) :
    Option (WideVec2 WidthT) :=
  forLanes WidthT (fun i acc =>
    if mask.subscript i then do
      let x ← acc.x.write i value.x
      let y ← acc.y.write i value.y
      pure ⟨x, y⟩
    else pure acc) s

/-- The method `get(int index)`. -/
def get (s : WideVec2 WidthT) (index : Nat) : Option Vec2 := do
  let x ← s.x.read index
  let y ← s.y.read index
  pure ⟨x, y⟩

end WideVec2

/-- The specialization `Wide<Color3, WidthT>`, with one `float` array per
component. -/
structure WideColor3 (WidthT : Nat) where
  x : CArray float WidthT
  y : CArray float WidthT
  z : CArray float WidthT

namespace WideColor3

variable {WidthT : Nat}

/-- The method `set(int index, const Color3 & value)`. -/
def set (s : WideColor3 WidthT) (index : Nat) (value : Color3) : Option (WideColor3 WidthT) := do
  let x ← s.x.write index value.x
  let y ← s.y.write index value.y
  let z ← s.z.write index value.z
  pure ⟨x, y, z⟩

/-- The method `blendin(WideMask<WidthT> mask, const value_type & value)`. -/
def blendinValue (s : WideColor3 WidthT) (mask : WideMask WidthT) (value : Color3) :
    Option (WideColor3 WidthT) :=
  forLanes WidthT (fun i acc =>
    if mask.subscript i then do
      let x ← acc.x.write i value.x
      let y ← acc.y.write i value.y
      let z ← acc.z.write i value.z
      pure ⟨x, y, z⟩
    else pure acc) s

/-- The method `get(int index)`. -/
def get (s : WideColor3 WidthT) (index : Nat) : Option Color3 := do
  let x ← s.x.read index
  let y ← s.y.read index
  let z ← s.z.read index
  pure ⟨x, y, z⟩

end WideColor3

/-- The specialization `Wide<Matrix44, WidthT>`, with member
`Wide<float, WidthT> x[4][4]`; the field `xrc` is `x[r][c]`. -/
structure WideMatrix44 (WidthT : Nat) where
  x00 : WideBuiltin float WidthT
  x01 : WideBuiltin float WidthT
  x02 : WideBuiltin float WidthT
  x03 : WideBuiltin float WidthT
  x10 : WideBuiltin float WidthT
  x11 : WideBuiltin float WidthT
  x12 : WideBuiltin float WidthT
  x13 : WideBuiltin float WidthT
  x20 : WideBuiltin float WidthT
  x21 : WideBuiltin float WidthT
  x22 : WideBuiltin float WidthT
  x23 : WideBuiltin float WidthT
  x30 : WideBuiltin float WidthT
  x31 : WideBuiltin float WidthT
  x32 : WideBuiltin float WidthT
  x33 : WideBuiltin float WidthT

namespace WideMatrix44

variable {WidthT : Nat}

/-- The method `set(int index, const Matrix44 & value)`. -/
def set (s : WideMatrix44 WidthT) (index : Nat) (value : Matrix44) :
    Option (WideMatrix44 WidthT) :=
  match s.x00.set index value.x00 with
  | none => none
  | some x00 =>
  match s.x01.set index value.x01 with
  | none => none
  | some x01 =>
  match s.x02.set index value.x02 with
  | none => none
  | some x02 =>
  match s.x03.set index value.x03 with
  | none => none
  | some x03 =>
  match s.x10.set index value.x10 with
  | none => none
  | some x10 =>
  match s.x11.set index value.x11 with
  | none => none
  | some x11 =>
  match s.x12.set index value.x12 with
  | none => none
  | some x12 =>
  match s.x13.set index value.x13 with
  | none => none
  | some x13 =>
  match s.x20.set index value.x20 with
  | none => none
  | some x20 =>
  match s.x21.set index value.x21 with
  | none => none
  | some x21 =>
  match s.x22.set index value.x22 with
  | none => none
  | some x22 =>
  match s.x23.set index value.x23 with
  | none => none
  | some x23 =>
  match s.x30.set index value.x30 with
  | none => none
  | some x30 =>
  match s.x31.set index value.x31 with
  | none => none
  | some x31 =>
  match s.x32.set index value.x32 with
  | none => none
  | some x32 =>
  match s.x33.set index value.x33 with
  | none => none
  | some x33 =>
  some ⟨x00, x01, x02, x03, x10, x11, x12, x13,
    x20, x21, x22, x23, x30, x31, x32, x33⟩

/-- The method `blendin(WideMask<WidthT> mask, const value_type & value)`. -/
def blendinValue (s : WideMatrix44 WidthT) (mask : WideMask WidthT) (value : Matrix44) :
    Option (WideMatrix44 WidthT) :=
  forLanes WidthT (fun i acc =>
    if mask.subscript i then
      match acc.x00.set i value.x00 with
      | none => none
      | some x00 =>
      match acc.x01.set i value.x01 with
      | none => none
      | some x01 =>
      match acc.x02.set i value.x02 with
      | none => none
      | some x02 =>
      match acc.x03.set i value.x03 with
      | none => none
      | some x03 =>
      match acc.x10.set i value.x10 with
      | none => none
      | some x10 =>
      match acc.x11.set i value.x11 with
      | none => none
      | some x11 =>
      match acc.x12.set i value.x12 with
      | none => none
      | some x12 =>
      match acc.x13.set i value.x13 with
      | none => none
      | some x13 =>
      match acc.x20.set i value.x20 with
      | none => none
      | some x20 =>
      match acc.x21.set i value.x21 with
      | none => none
      | some x21 =>
      match acc.x22.set i value.x22 with
      | none => none
      | some x22 =>
      match acc.x23.set i value.x23 with
      | none => none
      | some x23 =>
      match acc.x30.set i value.x30 with
      | none => none
      | some x30 =>
      match acc.x31.set i value.x31 with
      | none => none
      | some x31 =>
      match acc.x32.set i value.x32 with
      | none => none
      | some x32 =>
      match acc.x33.set i value.x33 with
      | none => none
      | some x33 =>
      some ⟨x00, x01, x02, x03, x10, x11, x12, x13,
        x20, x21, x22, x23, x30, x31, x32, x33⟩
    else some acc) s

/-- The method `get(int index)`. -/
def get (s : WideMatrix44 WidthT) (index : Nat) : Option Matrix44 :=
  match s.x00.get index with
  | none => none
  | some x00 =>
  match s.x01.get index with
  | none => none
  | some x01 =>
  match s.x02.get index with
  | none => none
  | some x02 =>
  match s.x03.get index with
  | none => none
  | some x03 =>
  match s.x10.get index with
  | none => none
  | some x10 =>
  match s.x11.get index with
  | none => none
  | some x11 =>
  match s.x12.get index with
  | none => none
  | some x12 =>
  match s.x13.get index with
  | none => none
  | some x13 =>
  match s.x20.get index with
  | none => none
  | some x20 =>
  match s.x21.get index with
  | none => none
  | some x21 =>
  match s.x22.get index with
  | none => none
  | some x22 =>
  match s.x23.get index with
  | none => none
  | some x23 =>
  match s.x30.get index with
  | none => none
  | some x30 =>
  match s.x31.get index with
  | none => none
  | some x31 =>
  match s.x32.get index with
  | none => none
  | some x32 =>
  match s.x33.get index with
  | none => none
  | some x33 =>
  some ⟨x00, x01, x02, x03, x10, x11, x12, x13,
    x20, x21, x22, x23, x30, x31, x32, x33⟩

end WideMatrix44

/-- The specialization `Wide<ustring, WidthT>`, with member `ustring str[WidthT]`. -/
structure WideUstring (WidthT : Nat) where
  str : CArray ustring WidthT

namespace WideUstring

variable {WidthT : Nat}

/-- The method `set(int index, const ustring& value)`. -/
def set (s : WideUstring WidthT) (index : Nat) (value : ustring) :
    Option (WideUstring WidthT) := do
  let str ← s.str.write index value
  pure ⟨str⟩

/-- The method `get(int index)`. -/
def get (s : WideUstring WidthT) (index : Nat) : Option ustring :=
  s.str.read index

end WideUstring

/-- The specialization `Wide<Dual2<float>, WidthT>`, with members
`float x[WidthT]`, `float dx[WidthT]`, `float dy[WidthT]`. -/
structure WideDual2Float (WidthT : Nat) where
  x : CArray float WidthT
  dx : CArray float WidthT
  dy : CArray float WidthT

namespace WideDual2Float

variable {WidthT : Nat}

/-- The method `set(int index, const value_type & value)`. -/
def set (s : WideDual2Float WidthT) (index : Nat) (value : Dual2 float) :
    Option (WideDual2Float WidthT) := do
  let x ← s.x.write index value.val
  let dx ← s.dx.write index value.dx
  let dy ← s.dy.write index value.dy
  pure ⟨x, dx, dy⟩

/-- The method `get(int index)`. -/
def get (s : WideDual2Float WidthT) (index : Nat) : Option (Dual2 float) := do
  let x ← s.x.read index
  let dx ← s.dx.read index
  let dy ← s.dy.read index
  pure ⟨x, dx, dy⟩

end WideDual2Float

/-- The specialization `Wide<Dual2<Vec3>, WidthT>`.  Its members are declared
`Wide<Vec3> x; Wide<Vec3> dx; Wide<Vec3> dy;`, and `Wide<Vec3>` is
`Wide<Vec3, SimdLaneCount>` by the default template argument, so each holds
`SimdLaneCount` lanes whatever `WidthT` is. -/
structure WideDual2Vec3 (WidthT : Nat) where
  x : WideVec3 SimdLaneCount
  dx : WideVec3 SimdLaneCount
  dy : WideVec3 SimdLaneCount

namespace WideDual2Vec3

variable {WidthT : Nat}

/-- The method `set(int index, const value_type & value)`. -/
def set (s : WideDual2Vec3 WidthT) (index : Nat) (value : Dual2 Vec3) :
    Option (WideDual2Vec3 WidthT) := do
  let x ← s.x.set index value.val
  let dx ← s.dx.set index value.dx
  let dy ← s.dy.set index value.dy
  pure ⟨x, dx, dy⟩

/-- The method `get(int index)`. -/
def get (s : WideDual2Vec3 WidthT) (index : Nat) : Option (Dual2 Vec3) := do
  let x ← s.x.get index
  let dx ← s.dx.get index
  let dy ← s.dy.get index
  pure ⟨x, dx, dy⟩

end WideDual2Vec3


/-! ### The template `Wide` and the masked accessor -/

/-- The template `template <typename DataT, int WidthT> struct Wide; // undefined`:
each specialization for a logical type `DataT` provides the storage struct and
its `set` and `get`. -/
class WideSpecialization (DataT : Type) where
  Storage : Nat → Type
  set : {WidthT : Nat} → Storage WidthT → Nat → DataT → Option (Storage WidthT)
  get : {WidthT : Nat} → Storage WidthT → Nat → Option DataT

/-- The type `Wide<DataT, WidthT>`. -/
abbrev Wide (DataT : Type) [WideSpecialization DataT] (WidthT : Nat) : Type :=
  WideSpecialization.Storage DataT WidthT

/-- The specialization `Wide<float, WidthT> : public WideBuiltin<float, WidthT>`. -/
instance instWideFloat : WideSpecialization float :=
  ⟨WideBuiltin float, WideBuiltin.set, WideBuiltin.get⟩

/-- The specialization `Wide<int, WidthT> : public WideBuiltin<int, WidthT>`. -/
instance instWideInt : WideSpecialization int :=
  ⟨WideBuiltin int, WideBuiltin.set, WideBuiltin.get⟩

/-- The specialization
`Wide<TransformationPtr, WidthT> : public WideBuiltin<TransformationPtr, WidthT>`. -/
instance instWideTransformationPtr : WideSpecialization TransformationPtr :=
  ⟨WideBuiltin TransformationPtr, WideBuiltin.set, WideBuiltin.get⟩

/-- The specialization `Wide<Vec4, WidthT>`. -/
instance instWideVec4 : WideSpecialization Vec4 :=
  ⟨WideVec4, WideVec4.set, WideVec4.get⟩

/-- The specialization `Wide<Vec3, WidthT>`. -/
instance instWideVec3 : WideSpecialization Vec3 :=
  ⟨WideVec3, WideVec3.set, WideVec3.get⟩

/-- The specialization `Wide<Vec2, WidthT>`. -/
instance instWideVec2 : WideSpecialization Vec2 :=
  ⟨WideVec2, WideVec2.set, WideVec2.get⟩

/-- The specialization `Wide<Color3, WidthT>`. -/
instance instWideColor3 : WideSpecialization Color3 :=
  ⟨WideColor3, WideColor3.set, WideColor3.get⟩

/-- The specialization `Wide<Matrix44, WidthT>`. -/
instance instWideMatrix44 : WideSpecialization Matrix44 :=
  ⟨WideMatrix44, WideMatrix44.set, WideMatrix44.get⟩

/-- The specialization `Wide<ustring, WidthT>`. -/
instance instWideUstring : WideSpecialization ustring :=
  ⟨WideUstring, WideUstring.set, WideUstring.get⟩

/-- The specialization `Wide<Dual2<float>, WidthT>`. -/
instance instWideDual2Float : WideSpecialization (Dual2 float) :=
  ⟨WideDual2Float, WideDual2Float.set, WideDual2Float.get⟩

/-- The specialization `Wide<Dual2<Vec3>, WidthT>`. -/
instance instWideDual2Vec3 : WideSpecialization (Dual2 Vec3) :=
  ⟨WideDual2Vec3, WideDual2Vec3.set, WideDual2Vec3.get⟩

/-- The struct `MaskedLaneProxy<DataT, WidthT>`.  The member `m_ref_wide_data`
is a reference to the storage: here it is the current content of the storage,
and a method that writes through the reference returns the new content.
The member `m_mask` is a `const Mask &`, a mask of `SimdLaneCount` lanes
whatever `WidthT` is. -/
structure MaskedLaneProxy (DataT : Type) [WideSpecialization DataT] (WidthT : Nat) where
  m_ref_wide_data : Wide DataT WidthT
  m_mask : Mask
  m_index : Nat

namespace MaskedLaneProxy

variable {DataT : Type} [WideSpecialization DataT] {WidthT : Nat}

/-- The conversion `operator DataT const ()`. -/
def toData (p : MaskedLaneProxy DataT WidthT) : Option DataT :=
  WideSpecialization.get p.m_ref_wide_data p.m_index

/-- The assignment `operator = (const DataT & value)`; the result is the content
of the referenced storage after the assignment. -/
def assign (p : MaskedLaneProxy DataT WidthT) (value : DataT) : Option (Wide DataT WidthT) :=
  if p.m_mask.subscript p.m_index then
    WideSpecialization.set p.m_ref_wide_data p.m_index value
  else
    some p.m_ref_wide_data

/-- The method `is_on()`. -/
def is_on (p : MaskedLaneProxy DataT WidthT) : Bool :=
  p.m_mask.is_on p.m_index

/-- The method `is_off()`. -/
def is_off (p : MaskedLaneProxy DataT WidthT) : Bool :=
  p.m_mask.is_off p.m_index

/-- The method `get()`. -/
def get (p : MaskedLaneProxy DataT WidthT) : Option DataT :=
  WideSpecialization.get p.m_ref_wide_data p.m_index

end MaskedLaneProxy

/-- The struct `MaskedAccessor<DataT, WidthT>`, built by
`MaskedAccessor(Wide<DataT, WidthT> & ref_wide_data, Mask mask)`. -/
structure MaskedAccessor (DataT : Type) [WideSpecialization DataT] (WidthT : Nat) where
  m_ref_wide_data : Wide DataT WidthT
  m_mask : Mask

namespace MaskedAccessor

variable {DataT : Type} [WideSpecialization DataT] {WidthT : Nat}

/-- The operator `operator[](int index)`:
`return Proxy(m_ref_wide_data, m_mask, index);`. -/
def subscript (a : MaskedAccessor DataT WidthT) (index : Nat) :
    MaskedLaneProxy DataT WidthT :=
  ⟨a.m_ref_wide_data, a.m_mask, index⟩

end MaskedAccessor


/-! ### Properties stated by the specification -/

/-- Round trip on a storage of logical type `DataT` declared with `WidthT` lanes:
for every lane `i < WidthT`, `set(i, v)` succeeds and `get(i)` then returns `v`
(equal as a whole value, hence in every component). -/
def RoundTrip (DataT : Type) [WideSpecialization DataT] (WidthT : Nat) : Prop :=
  ∀ (s : Wide DataT WidthT) (i : Nat) (v : DataT), i < WidthT →
    ∃ r, WideSpecialization.set s i v = some r ∧ WideSpecialization.get r i = some v

/-- Single-lane write: for lanes `i, j < WidthT` with `j ≠ i`, `set(i, v)` succeeds
and leaves `get(j)` unchanged. -/
def SingleLaneWrite (DataT : Type) [WideSpecialization DataT] (WidthT : Nat) : Prop :=
  ∀ (s : Wide DataT WidthT) (i j : Nat) (v : DataT), i < WidthT → j < WidthT → j ≠ i →
    ∃ r, WideSpecialization.set s i v = some r ∧
      WideSpecialization.get r j = WideSpecialization.get s j

/-- Blend of a single value: `blendin(m, v)` succeeds, and afterwards every lane
`i < WidthT` that is on in `m` reads `v` and every lane that is off in `m` reads
what it read before the call. -/
def BlendsValue {S V : Type} (WidthT : Nat) (blendin : S → WideMask WidthT → V → Option S)
    (get : S → Nat → Option V) : Prop :=
  ∀ (s : S) (m : WideMask WidthT) (v : V),
    ∃ r, blendin s m v = some r ∧
      ∀ i, i < WidthT →
        (m.is_on i = true → get r i = some v) ∧
        (m.is_off i = true → get r i = get s i)

/-- Masked write through the lane-`l` proxy of a masked accessor over a storage
declared with `WidthT` lanes: when lane `l` is off in the mask the assignment
leaves the whole storage as it was; when lane `l` is on, the assignment succeeds,
lane `l` then reads `v` and every other lane reads what it read before. -/
def MaskedWrite (DataT : Type) [WideSpecialization DataT] (WidthT : Nat) : Prop :=
  ∀ (s : Wide DataT WidthT) (m : Mask) (l : Nat) (v : DataT), l < WidthT →
    (m.is_off l = true →
      ((MaskedAccessor.mk s m).subscript l).assign v = some s) ∧
    (m.is_on l = true →
      ∃ r, ((MaskedAccessor.mk s m).subscript l).assign v = some r ∧
        WideSpecialization.get r l = some v ∧
        ∀ j, j ≠ l → WideSpecialization.get r j = WideSpecialization.get s j)

/-! ### Sample objects -/

/-- The storage built by `WideBuiltin(const value_type & uniformValue)`: every
lane holds `uniformValue`. -/
def WideBuiltin.uniform {BuiltinT : Type} {WidthT : Nat} (uniformValue : BuiltinT) :
    WideBuiltin BuiltinT WidthT :=
  ⟨CArray.replicate uniformValue⟩

/-- A `Wide<Vec3>` whose lanes all hold the vector with bit patterns 0. -/
def WideVec3.zero {WidthT : Nat} : WideVec3 WidthT :=
  ⟨CArray.replicate ⟨0⟩, CArray.replicate ⟨0⟩, CArray.replicate ⟨0⟩⟩

/-- A `Wide<Dual2<Vec3>>` whose lanes all hold bit patterns 0. -/
def WideDual2Vec3.zero {WidthT : Nat} : WideDual2Vec3 WidthT :=
  ⟨WideVec3.zero, WideVec3.zero, WideVec3.zero⟩


/-! ### The dynamic type descriptor and `WideTraits` -/

/-- Modelled from the spec: the base scalar kind of a `TypeDesc`, declared
outside `wide.h`.  `FLOAT`, `INT` and `STRING` are the constants the source
names; `OTHER` stands for every other base kind. -/
inductive TypeDesc.BASETYPE where
  | FLOAT
  | INT
  | STRING
  | OTHER
deriving DecidableEq, Repr

/-- Modelled from the spec: the aggregate shape of a `TypeDesc`, declared
outside `wide.h`.  `SCALAR`, `VEC2`, `VEC3`, `MATRIX33` and `MATRIX44` are the
constants the source names; `OTHER` stands for every other shape. -/
inductive TypeDesc.AGGREGATE where
  | SCALAR
  | VEC2
  | VEC3
  | MATRIX33
  | MATRIX44
  | OTHER
deriving DecidableEq, Repr

/-- Modelled from the spec: the semantic tag of a `TypeDesc`, declared outside
`wide.h`: plain, `COLOR` (the one constant the source names), or any other
tag. -/
inductive TypeDesc.VECSEMANTICS where
  | PLAIN
  | COLOR
  | OTHER
deriving DecidableEq, Repr

/-- Modelled from the spec: the dynamic type descriptor `TypeDesc`, declared
outside `wide.h`: base scalar kind, aggregate shape, semantic tag and array
length, where array length 0 means not an array and a positive array length is
the length of a fixed or unbounded array. -/
structure TypeDesc where
  basetype : TypeDesc.BASETYPE
  aggregate : TypeDesc.AGGREGATE
  vecsemantics : TypeDesc.VECSEMANTICS
  arraylen : Nat
deriving DecidableEq, Repr

/-- The logical types for which the source specializes `WideTraits`: `float`,
`int`, `char *`, `ustring`, `Vec3`, `Vec2`, `Color3`, `Matrix33`, `Matrix44`. -/
inductive ElemType where
  | float
  | int
  | charPtr
  | ustring
  | Vec3
  | Vec2
  | Color3
  | Matrix33
  | Matrix44
deriving DecidableEq, Repr

/-- The functions `WideTraits<DataT>::matches(const TypeDesc &type_desc)`, one
case per specialization. -/
def WideTraits.matches : ElemType → TypeDesc → Bool
  | .float, type_desc =>
    type_desc.basetype == TypeDesc.BASETYPE.FLOAT &&
      type_desc.aggregate == TypeDesc.AGGREGATE.SCALAR
  | .int, type_desc =>
    type_desc.basetype == TypeDesc.BASETYPE.INT &&
      type_desc.aggregate == TypeDesc.AGGREGATE.SCALAR
  | .charPtr, type_desc =>
    type_desc.basetype == TypeDesc.BASETYPE.STRING &&
      type_desc.aggregate == TypeDesc.AGGREGATE.SCALAR
  | .ustring, type_desc =>
    type_desc.basetype == TypeDesc.BASETYPE.STRING &&
      type_desc.aggregate == TypeDesc.AGGREGATE.SCALAR
  | .Vec3, type_desc =>
    type_desc.basetype == TypeDesc.BASETYPE.FLOAT &&
      type_desc.aggregate == TypeDesc.AGGREGATE.VEC3
  | .Vec2, type_desc =>
    type_desc.basetype == TypeDesc.BASETYPE.FLOAT &&
      type_desc.aggregate == TypeDesc.AGGREGATE.VEC2
  | .Color3, type_desc =>
    type_desc.basetype == TypeDesc.BASETYPE.FLOAT &&
      type_desc.aggregate == TypeDesc.AGGREGATE.VEC3 &&
      type_desc.vecsemantics == TypeDesc.VECSEMANTICS.COLOR
  | .Matrix33, type_desc =>
    type_desc.basetype == TypeDesc.BASETYPE.FLOAT &&
      type_desc.aggregate == TypeDesc.AGGREGATE.MATRIX33
  | .Matrix44, type_desc =>
    type_desc.basetype == TypeDesc.BASETYPE.FLOAT &&
      type_desc.aggregate == TypeDesc.AGGREGATE.MATRIX44

/-- A static type `DataT` nominated by a caller of `is<DataT>()`: a logical type
`E`, or an array of one.  As `std::extent` reports it, the extent of the
unbounded array `E[]` is 0 and the extent of `E[N]` is `N`. -/
inductive StaticType where
  | plain (E : ElemType)
  | array (E : ElemType) (extent : Nat)
deriving DecidableEq, Repr

/-- The trait `std::is_array<DataT>`. -/
def StaticType.is_array : StaticType → Bool
  | .plain _ => false
  | .array _ _ => true

/-- The trait `std::extent<DataT>::value`: 0 for a type that is not an array and
for an unbounded array. -/
def StaticType.extent : StaticType → Nat
  | .plain _ => 0
  | .array _ extent => extent

/-- The trait `std::remove_all_extents<DataT>::type`. -/
def StaticType.remove_all_extents : StaticType → ElemType
  | .plain E => E
  | .array E _ => E

/-! ### References into type-erased memory -/

/-- A pointer or reference to a wide-storage instance inside the memory that a
type-erased pointer `void *ptr` addresses:
`reinterpret_cast<Wide<DataT, WidthT> *>(ptr)[index]`.  The logical type is
fixed by whoever dereferences it. -/
structure WideRef where
  ptr : Nat
  index : Int
deriving DecidableEq, Repr

/-- Pointer arithmetic `ref[k]`: the instance `k` places after `ref`. -/
def WideRef.offset (ref : WideRef) (k : Int) : WideRef :=
  ⟨ref.ptr, ref.index + k⟩

/-- Modelled from the spec: `pointer[p]` for the pointer typed as a pointer to
arrays of `ArrayLenT` instances, as in `reinterpret_cast<DataT *>(m_ptr)[DerivIndexT]`
for an array type `DataT`: the first instance of the array number `p`, which is
the instance number `ArrayLenT * p`.  Pointer arithmetic is not reduced to 32
bits. -/
def WideRef.ofArrayPointer (ptr ArrayLenT : Nat) (p : Int) : WideRef :=
  ⟨ptr, (ArrayLenT : Int) * p⟩

/-- The memory a type-erased pointer addresses, seen as consecutive instances of
`Wide<DataT, WidthT>`: element `k` of the list is `ptr[k]`. -/
abbrev WideBlock (DataT : Type) [WideSpecialization DataT] (WidthT : Nat) : Type :=
  List (Wide DataT WidthT)

namespace WideBlock

variable {DataT : Type} [WideSpecialization DataT] {WidthT : Nat}

/-- Reads the instance a reference designates; `none` outside the block. -/
def read (block : WideBlock DataT WidthT) (ref : WideRef) : Option (Wide DataT WidthT) :=
  if 0 ≤ ref.index then block.get? ref.index.toNat else none

/-- Replaces the instance a reference designates; `none` outside the block. -/
def write (block : WideBlock DataT WidthT) (ref : WideRef) (s : Wide DataT WidthT) :
    Option (WideBlock DataT WidthT) :=
  if 0 ≤ ref.index ∧ ref.index.toNat < block.length then
    some (block.set ref.index.toNat s)
  else none

end WideBlock

/-- A `MaskedLaneProxy<DataT, WidthT>` whose member `m_ref_wide_data` is a
reference into type-erased memory. -/
structure MaskedLaneProxyRef (WidthT : Nat) where
  m_ref_wide_data : WideRef
  m_mask : Mask
  m_index : Nat
deriving DecidableEq

namespace MaskedLaneProxyRef

variable {WidthT : Nat}

/-- The proxy over the current content of the referenced instance. -/
def deref {DataT : Type} [WideSpecialization DataT] (p : MaskedLaneProxyRef WidthT)
    (block : WideBlock DataT WidthT) : Option (MaskedLaneProxy DataT WidthT) :=
  match block.read p.m_ref_wide_data with
  | none => none
  | some s => some ⟨s, p.m_mask, p.m_index⟩

/-- The assignment `operator = (const DataT & value)` through the reference; the
result is the memory after the assignment. -/
def assign {DataT : Type} [WideSpecialization DataT] (p : MaskedLaneProxyRef WidthT)
    (block : WideBlock DataT WidthT) (value : DataT) : Option (WideBlock DataT WidthT) :=
  match p.deref block with
  | none => none
  | some proxy =>
    match proxy.assign value with
    | none => none
    | some s => block.write p.m_ref_wide_data s

end MaskedLaneProxyRef

/-- A `MaskedAccessor<DataT, WidthT>` built by its constructor
`MaskedAccessor(void *ptr_wide_data, Mask mask, int derivIndex=0)`. -/
structure MaskedAccessorRef (WidthT : Nat) where
  m_ref_wide_data : WideRef
  m_mask : Mask
deriving DecidableEq

namespace MaskedAccessorRef

variable {WidthT : Nat}

/-- The constructor `MaskedAccessor(void *ptr_wide_data, Mask mask, int derivIndex)`:
`m_ref_wide_data(reinterpret_cast<Wide<DataT, WidthT> *>(ptr_wide_data)[derivIndex])`. -/
def fromPtr (ptr_wide_data : Nat) (mask : Mask) (derivIndex : Int) :
    MaskedAccessorRef WidthT :=
  ⟨⟨ptr_wide_data, derivIndex⟩, mask⟩

/-- The operator `operator[](int index)`. -/
def subscript (a : MaskedAccessorRef WidthT) (index : Nat) : MaskedLaneProxyRef WidthT :=
  ⟨a.m_ref_wide_data, a.m_mask, index⟩

end MaskedAccessorRef

/-- The struct `MaskedArrayLaneProxy<DataT, ArrayLenT, WidthT>`. -/
structure MaskedArrayLaneProxy (ArrayLenT WidthT : Nat) where
  m_array_of_wide_data : WideRef
  m_mask : Mask
  m_index : Nat
deriving DecidableEq

namespace MaskedArrayLaneProxy

variable {ArrayLenT WidthT : Nat}

/-- The operator `operator[](int array_index)`:
`return MaskedLaneProxy<DataT, WidthT>(m_array_of_wide_data[array_index], m_mask, m_index);`. -/
def subscript (p : MaskedArrayLaneProxy ArrayLenT WidthT) (array_index : Int) :
    MaskedLaneProxyRef WidthT :=
  ⟨p.m_array_of_wide_data.offset array_index, p.m_mask, p.m_index⟩

end MaskedArrayLaneProxy

/-- The struct `MaskedUnboundedArrayLaneProxy<DataT, WidthT>`. -/
structure MaskedUnboundedArrayLaneProxy (WidthT : Nat) where
  m_array_of_wide_data : WideRef
  m_array_length : Int
  m_mask : Mask
  m_index : Nat
deriving DecidableEq

namespace MaskedUnboundedArrayLaneProxy

variable {WidthT : Nat}

/-- The method `length()`. -/
def length (p : MaskedUnboundedArrayLaneProxy WidthT) : Int := p.m_array_length

/-- The operator `operator[](int array_index)`, with
`DASSERT(array_index < m_array_length)` as failure. -/
def subscript (p : MaskedUnboundedArrayLaneProxy WidthT) (array_index : Int) :
    Option (MaskedLaneProxyRef WidthT) :=
  if array_index < p.m_array_length then
    some ⟨p.m_array_of_wide_data.offset array_index, p.m_mask, p.m_index⟩
  else none

end MaskedUnboundedArrayLaneProxy

/-- The struct `MaskedArrayAccessor<DataT, ArrayLenT, WidthT>`. -/
structure MaskedArrayAccessor (ArrayLenT WidthT : Nat) where
  m_array_of_wide_data : WideRef
  m_mask : Mask
deriving DecidableEq

namespace MaskedArrayAccessor

variable {ArrayLenT WidthT : Nat}

/-- The constructor `MaskedArrayAccessor(void *ptr_wide_data, int derivIndex, Mask mask)`:
`m_array_of_wide_data(&reinterpret_cast<Wide<DataT, WidthT> *>(ptr_wide_data)[ArrayLenT*derivIndex])`.
The product `ArrayLenT*derivIndex` is a product of two `int`. -/
def fromPtr (ptr_wide_data : Nat) (derivIndex : Int) (mask : Mask) :
    MaskedArrayAccessor ArrayLenT WidthT :=
  ⟨⟨ptr_wide_data, toInt32 ((ArrayLenT : Int) * derivIndex)⟩, mask⟩

/-- The operator `operator[](int index)`. -/
def subscript (a : MaskedArrayAccessor ArrayLenT WidthT) (index : Nat) :
    MaskedArrayLaneProxy ArrayLenT WidthT :=
  ⟨a.m_array_of_wide_data, a.m_mask, index⟩

end MaskedArrayAccessor

/-- The struct `MaskedUnboundArrayAccessor<DataT, WidthT>`. -/
structure MaskedUnboundArrayAccessor (WidthT : Nat) where
  m_array_of_wide_data : WideRef
  m_array_length : Int
  m_mask : Mask
deriving DecidableEq

namespace MaskedUnboundArrayAccessor

variable {WidthT : Nat}

/-- The constructor
`MaskedUnboundArrayAccessor(void *ptr_wide_data, int derivIndex, int array_length, Mask mask)`:
`m_array_of_wide_data(&reinterpret_cast<Wide<DataT, WidthT> *>(ptr_wide_data)[array_length*derivIndex])`.
The product `array_length*derivIndex` is a product of two `int`. -/
def fromPtr (ptr_wide_data : Nat) (derivIndex : Int) (array_length : Int) (mask : Mask) :
    MaskedUnboundArrayAccessor WidthT :=
  ⟨⟨ptr_wide_data, toInt32 (array_length * derivIndex)⟩, array_length, mask⟩

/-- The operator `operator[](int index)`. -/
def subscript (a : MaskedUnboundArrayAccessor WidthT) (index : Nat) :
    MaskedUnboundedArrayLaneProxy WidthT :=
  ⟨a.m_array_of_wide_data, a.m_array_length, a.m_mask, index⟩

end MaskedUnboundArrayAccessor


/-! ### The type-erasure bridge: `MaskedData` and `DataRef` -/

/-- What `masked<DataT>()` and its siblings return, by the kind of `DataT`: a
`MaskedAccessor` for a type that is not an array, a `MaskedArrayAccessor` of
extent `std::extent<DataT>::value` for a fixed array, a
`MaskedUnboundArrayAccessor` for an unbounded array. -/
inductive MaskedResult (WidthT : Nat) where
  | accessor (a : MaskedAccessorRef WidthT)
  | arrayAccessor (ArrayLenT : Nat) (a : MaskedArrayAccessor ArrayLenT WidthT)
  | unboundArrayAccessor (a : MaskedUnboundArrayAccessor WidthT)

/-- The class `MaskedData<WidthT>`; the pointer `void *m_ptr` is an address. -/
structure MaskedData (WidthT : Nat) where
  m_ptr : Nat
  m_type : TypeDesc
  m_mask : Mask
  m_has_derivs : Bool
deriving DecidableEq

namespace MaskedData

variable {WidthT : Nat}

/-- The constructor `MaskedData(TypeDesc type, bool has_derivs, Mask mask, void *ptr)`. -/
def create (type : TypeDesc) (has_derivs : Bool) (mask : Mask) (ptr : Nat) :
    MaskedData WidthT :=
  ⟨ptr, type, mask, has_derivs⟩

/-- The method `ptr()`. -/
def ptr (v : MaskedData WidthT) : Nat := v.m_ptr

/-- The method `type()`. -/
def type (v : MaskedData WidthT) : TypeDesc := v.m_type

/-- The method `has_derivs()`. -/
def has_derivs (v : MaskedData WidthT) : Bool := v.m_has_derivs

/-- The method `mask()`. -/
def mask (v : MaskedData WidthT) : Mask := v.m_mask

/-- The method `valid()`: `m_ptr != nullptr`. -/
def valid (v : MaskedData WidthT) : Bool := v.m_ptr != 0

/-- The two overloads of `is_array_unbounded_selector<DataT>`, selected by the
tag `std::false_type` or `std::true_type`.  Its template argument is a logical
type, for which `WideTraits` is specialized; `std::extent<DataT>::value` is the
extent of that argument. -/
def is_array_unbounded_selector (v : MaskedData WidthT) (DataT : ElemType) : Bool → Bool
  | false =>
    (v.m_type.arraylen == (StaticType.plain DataT).extent) &&
      WideTraits.matches DataT v.m_type
  | true =>
    (v.m_type.arraylen != 0) && WideTraits.matches DataT v.m_type

/-- The two overloads of `is_array_selector<DataT>`, selected by the tag.  With
the tag `std::false_type` the type `DataT` is not an array and is its own
element type; with `std::true_type` the call is
`is_array_unbounded_selector<ElementType>(std::integral_constant<bool, (std::extent<DataT>::value == 0)>())`. -/
def is_array_selector (v : MaskedData WidthT) (DataT : StaticType) : Bool → Bool
  | false =>
    (v.m_type.arraylen == 0) && WideTraits.matches DataT.remove_all_extents v.m_type
  | true =>
    v.is_array_unbounded_selector DataT.remove_all_extents (DataT.extent == 0)

/-- The method `is<DataT>()`:
`return is_array_selector<DataT>(std::is_array<DataT>::type());`. -/
def is (v : MaskedData WidthT) (DataT : StaticType) : Bool :=
  v.is_array_selector DataT DataT.is_array

/-- The two overloads of `masked_array_impl<DataT, DerivIndexT>`, selected by
the tag "is unbounded array", with `DASSERT(is<DataT>())` as failure. -/
def masked_array_impl (v : MaskedData WidthT) (DataT : StaticType) (DerivIndexT : Int) :
    Bool → Option (MaskedResult WidthT)
  | true =>
    if v.is DataT then
      some (.unboundArrayAccessor
        (MaskedUnboundArrayAccessor.fromPtr v.m_ptr DerivIndexT v.m_type.arraylen v.m_mask))
    else none
  | false =>
    if v.is DataT then
      some (.arrayAccessor DataT.extent
        (MaskedArrayAccessor.fromPtr v.m_ptr DerivIndexT v.m_mask))
    else none

/-- The two overloads of `masked_impl<DataT, DerivIndexT>`, selected by the tag
"is array", with `DASSERT(is<DataT>())` as failure. -/
def masked_impl (v : MaskedData WidthT) (DataT : StaticType) (DerivIndexT : Int) :
    Bool → Option (MaskedResult WidthT)
  | false =>
    if v.is DataT then
      some (.accessor (MaskedAccessorRef.fromPtr v.m_ptr v.m_mask DerivIndexT))
    else none
  | true =>
    if v.is DataT then
      v.masked_array_impl DataT DerivIndexT (DataT.extent == 0)
    else none

/-- The method `masked<DataT>()`. -/
def masked (v : MaskedData WidthT) (DataT : StaticType) : Option (MaskedResult WidthT) :=
  v.masked_impl DataT 0 DataT.is_array

/-- The method `maskedDx<DataT>()`, with `DASSERT(has_derivs())` as failure. -/
def maskedDx (v : MaskedData WidthT) (DataT : StaticType) : Option (MaskedResult WidthT) :=
  if v.has_derivs then v.masked_impl DataT 1 DataT.is_array else none

/-- The method `maskedDy<DataT>()`, with `DASSERT(has_derivs())` as failure. -/
def maskedDy (v : MaskedData WidthT) (DataT : StaticType) : Option (MaskedResult WidthT) :=
  if v.has_derivs then v.masked_impl DataT 2 DataT.is_array else none

/-- The method `maskedDz<DataT>()`, with `DASSERT(has_derivs())` as failure. -/
def maskedDz (v : MaskedData WidthT) (DataT : StaticType) : Option (MaskedResult WidthT) :=
  if v.has_derivs then v.masked_impl DataT 3 DataT.is_array else none

end MaskedData

/-- A pointer or reference `DataT *` into the memory a type-erased pointer
addresses: `reinterpret_cast<DataT *>(ptr)[index]`. -/
structure DataPtr where
  ptr : Nat
  index : Int
deriving DecidableEq, Repr

/-- Pointer arithmetic `p[k]`. -/
def DataPtr.offset (p : DataPtr) (k : Int) : DataPtr :=
  ⟨p.ptr, p.index + k⟩

/-- The struct `RefProxy<DataT>`. -/
structure RefProxy where
  m_ref_data : DataPtr
deriving DecidableEq

/-- The struct `RefArrayProxy<DataT, ArrayLenT>`; its member is a reference to a
whole array `DataT[ArrayLenT]`. -/
structure RefArrayProxy (ArrayLenT : Nat) where
  m_ref_array_data : DataPtr
deriving DecidableEq

/-- The operator `RefArrayProxy::operator[](int array_index)`, with
`DASSERT(array_index >= 0 && array_index < ArrayLenT)` as failure; the result
designates element `array_index` of the referenced array. -/
def RefArrayProxy.subscript {ArrayLenT : Nat} (p : RefArrayProxy ArrayLenT)
    (array_index : Int) : Option (DataPtr × Int) :=
  if array_index ≥ 0 ∧ array_index < (ArrayLenT : Int) then
    some (p.m_ref_array_data, array_index)
  else none

/-- The struct `RefUnboundedArrayProxy<DataT>`. -/
structure RefUnboundedArrayProxy where
  m_array_data : DataPtr
  m_array_length : Int
deriving DecidableEq

namespace RefUnboundedArrayProxy

/-- The method `length()`. -/
def length (p : RefUnboundedArrayProxy) : Int := p.m_array_length

/-- The operator `operator[](int array_index)`, with
`DASSERT(array_index >= 0 && array_index < m_array_length)` as failure. -/
def subscript (p : RefUnboundedArrayProxy) (array_index : Int) : Option DataPtr :=
  if array_index ≥ 0 ∧ array_index < p.m_array_length then
    some (p.m_array_data.offset array_index)
  else none

end RefUnboundedArrayProxy

/-- What `ref<DataT>()` and its siblings return, by the kind of `DataT`. -/
inductive RefResult where
  | proxy (r : RefProxy)
  | arrayProxy (ArrayLenT : Nat) (r : RefArrayProxy ArrayLenT)
  | unboundedArrayProxy (r : RefUnboundedArrayProxy)

/-- The class `DataRef`. -/
structure DataRef where
  m_ptr : Nat
  m_type : TypeDesc
  m_has_derivs : Bool
deriving DecidableEq

namespace DataRef

/-- The constructor `DataRef(TypeDesc type, bool has_derivs, void *ptr)`. -/
def create (type : TypeDesc) (has_derivs : Bool) (ptr : Nat) : DataRef :=
  ⟨ptr, type, has_derivs⟩

/-- The method `has_derivs()`. -/
def has_derivs (v : DataRef) : Bool := v.m_has_derivs

/-- The two overloads of `DataRef::is_array_unbounded_selector<DataT>`. -/
def is_array_unbounded_selector (v : DataRef) (DataT : ElemType) : Bool → Bool
  | false =>
    (v.m_type.arraylen == (StaticType.plain DataT).extent) &&
      WideTraits.matches DataT v.m_type
  | true =>
    (v.m_type.arraylen != 0) && WideTraits.matches DataT v.m_type

/-- The two overloads of `DataRef::is_array_selector<DataT>`. -/
def is_array_selector (v : DataRef) (DataT : StaticType) : Bool → Bool
  | false =>
    (v.m_type.arraylen == 0) && WideTraits.matches DataT.remove_all_extents v.m_type
  | true =>
    v.is_array_unbounded_selector DataT.remove_all_extents (DataT.extent == 0)

/-- The method `DataRef::is<DataT>()`. -/
def is (v : DataRef) (DataT : StaticType) : Bool :=
  v.is_array_selector DataT DataT.is_array

/-- The two overloads of `ref_array_impl<DataT, DerivIndexT>`, selected by the
tag "is array unbounded", with `DASSERT(is<DataT>())` as failure. -/
def ref_array_impl (v : DataRef) (DataT : StaticType) (DerivIndexT : Int) :
    Bool → Option RefResult
  | false =>
    if v.is DataT then
      some (.arrayProxy DataT.extent ⟨⟨v.m_ptr, DerivIndexT⟩⟩)
    else none
  | true =>
    if v.is DataT then
      some (.unboundedArrayProxy
        ⟨⟨v.m_ptr, toInt32 (DerivIndexT * v.m_type.arraylen)⟩, v.m_type.arraylen⟩)
    else none

/-- The two overloads of `ref_impl<DataT, DerivIndexT>`, selected by the tag
"is array", with `DASSERT(is<DataT>())` as failure. -/
def ref_impl (v : DataRef) (DataT : StaticType) (DerivIndexT : Int) :
    Bool → Option RefResult
  | false =>
    if v.is DataT then some (.proxy ⟨⟨v.m_ptr, DerivIndexT⟩⟩) else none
  | true =>
    if v.is DataT then v.ref_array_impl DataT DerivIndexT (DataT.extent == 0) else none

/-- The method `ref<DataT>()`. -/
def ref (v : DataRef) (DataT : StaticType) : Option RefResult :=
  v.ref_impl DataT 0 DataT.is_array

/-- The method `refDx<DataT>()`, with `DASSERT(has_derivs())` as failure. -/
def refDx (v : DataRef) (DataT : StaticType) : Option RefResult :=
  if v.has_derivs then v.ref_impl DataT 1 DataT.is_array else none

/-- The method `refDy<DataT>()`, with `DASSERT(has_derivs())` as failure. -/
def refDy (v : DataRef) (DataT : StaticType) : Option RefResult :=
  if v.has_derivs then v.ref_impl DataT 2 DataT.is_array else none

/-- The method `refDz<DataT>()`, with `DASSERT(has_derivs())` as failure. -/
def refDz (v : DataRef) (DataT : StaticType) : Option RefResult :=
  if v.has_derivs then v.ref_impl DataT 3 DataT.is_array else none

end DataRef


/-! ### Static types named by the bridge-exactness property -/

/-- The logical types the bridge-exactness property names: float, int, string
(`ustring`), Vec2, Vec3, Color3, Matrix44. -/
def ElemType.tested : ElemType → Bool
  | .float => true
  | .int => true
  | .ustring => true
  | .Vec2 => true
  | .Vec3 => true
  | .Color3 => true
  | .Matrix44 => true
  | .charPtr => false
  | .Matrix33 => false

/-- The static types that are a tested logical type or the unbounded array of
one. -/
def StaticType.testedNotFixed : StaticType → Bool
  | .plain E => E.tested
  | .array E 0 => E.tested
  | .array _ (_ + 1) => false

/-- The descriptor of a plain 3-vector of floats with color semantics. -/
def TypeDesc.color3 : TypeDesc :=
  ⟨TypeDesc.BASETYPE.FLOAT, TypeDesc.AGGREGATE.VEC3, TypeDesc.VECSEMANTICS.COLOR, 0⟩

/-- The descriptor of a float scalar, or of an array of `arraylen` floats. -/
def TypeDesc.floatArray (arraylen : Nat) : TypeDesc :=
  ⟨TypeDesc.BASETYPE.FLOAT, TypeDesc.AGGREGATE.SCALAR, TypeDesc.VECSEMANTICS.PLAIN, arraylen⟩


/-! ### Unmasked proxies, the uniform view and the variadic constructor -/

/-- The struct `WideUniformProxy<DataT, WidthT>`; the reference member is the
current content of the storage, as for `MaskedLaneProxy`. -/
structure WideUniformProxy (DataT : Type) [WideSpecialization DataT] (WidthT : Nat) where
  m_ref_wide_data : Wide DataT WidthT

/-- The assignment `WideUniformProxy::operator = (const DataT & value)`, which
sets all data lanes to the value; the result is the content of the storage after
the loop. -/
def WideUniformProxy.assign {DataT : Type} [WideSpecialization DataT] {WidthT : Nat}
    (p : WideUniformProxy DataT WidthT) (value : DataT) : Option (Wide DataT WidthT) :=
  forLanes WidthT (fun i acc => WideSpecialization.set acc i value) p.m_ref_wide_data

/-- The free function `make_uniform(Wide<DataT, WidthT> &wide_data, const DataT &value)`. -/
def make_uniform {DataT : Type} [WideSpecialization DataT] {WidthT : Nat}
    (wide_data : Wide DataT WidthT) (value : DataT) : Option (Wide DataT WidthT) :=
  forLanes WidthT (fun i acc => WideSpecialization.set acc i value) wide_data

/-- The struct `LaneProxy<DataT, WidthT>`. -/
structure LaneProxy (DataT : Type) [WideSpecialization DataT] (WidthT : Nat) where
  m_ref_wide_data : Wide DataT WidthT
  m_index : Nat

namespace LaneProxy

variable {DataT : Type} [WideSpecialization DataT] {WidthT : Nat}

/-- The conversion `operator DataT const ()`. -/
def toData (p : LaneProxy DataT WidthT) : Option DataT :=
  WideSpecialization.get p.m_ref_wide_data p.m_index

/-- The method `get()`. -/
def get (p : LaneProxy DataT WidthT) : Option DataT :=
  WideSpecialization.get p.m_ref_wide_data p.m_index

/-- The assignment `operator = (const DataT & value)`. -/
def assign (p : LaneProxy DataT WidthT) (value : DataT) : Option (Wide DataT WidthT) :=
  WideSpecialization.set p.m_ref_wide_data p.m_index value

/-- The method `uniform()`: `return WideUniformProxy<DataT, WidthT>(m_ref_wide_data);`. -/
def uniform (p : LaneProxy DataT WidthT) : WideUniformProxy DataT WidthT :=
  ⟨p.m_ref_wide_data⟩

end LaneProxy

/-- The struct `ConstLaneProxy<DataT, WidthT>`. -/
structure ConstLaneProxy (DataT : Type) [WideSpecialization DataT] (WidthT : Nat) where
  m_ref_wide_data : Wide DataT WidthT
  m_index : Nat

/-- The conversion `ConstLaneProxy::operator DataT const ()`. -/
def ConstLaneProxy.toData {DataT : Type} [WideSpecialization DataT] {WidthT : Nat}
    (p : ConstLaneProxy DataT WidthT) : Option DataT :=
  WideSpecialization.get p.m_ref_wide_data p.m_index

/-- The struct `ConstWideAccessor<DataT, WidthT>`; built from a pointer, its
reference member is the instance `ptr[derivIndex]`, here its content. -/
structure ConstWideAccessor (DataT : Type) [WideSpecialization DataT] (WidthT : Nat) where
  m_ref_wide_data : Wide DataT WidthT

/-- The operator `ConstWideAccessor::operator[](int index)`. -/
def ConstWideAccessor.subscript {DataT : Type} [WideSpecialization DataT] {WidthT : Nat}
    (a : ConstWideAccessor DataT WidthT) (index : Nat) : ConstLaneProxy DataT WidthT :=
  ⟨a.m_ref_wide_data, index⟩

namespace internal

end internal

namespace MaskedArrayLaneProxy

variable {ArrayLenT WidthT : Nat} {DataT : Type} [WideSpecialization DataT]

/-- The assignment `operator = (const DataT (&value) [ArrayLenT])`:
`if (m_mask[m_index]) for(int i=0; i < ArrayLenT; ++i) m_array_of_wide_data[i].set(m_index, value[i]);`.
The result is the memory after the assignment. -/
def assign (p : MaskedArrayLaneProxy ArrayLenT WidthT) (block : WideBlock DataT WidthT)
    (value : CArray DataT ArrayLenT) : Option (WideBlock DataT WidthT) :=
  if p.m_mask.subscript p.m_index then
    forLanes ArrayLenT (fun i acc =>
      match value.read i with
      | none => none
      | some x =>
        match acc.read (p.m_array_of_wide_data.offset i) with
        | none => none
        | some s =>
          match WideSpecialization.set s p.m_index x with
          | none => none
          | some s1 => acc.write (p.m_array_of_wide_data.offset i) s1) block
  else some block

/-- The method `get(DataT (&value) [ArrayLenT])`:
`for(int i=0; i < ArrayLenT; ++i) value[i] = m_array_of_wide_data[i].get(m_index);`.
The result is the array `value` after the loop. -/
def get (p : MaskedArrayLaneProxy ArrayLenT WidthT) (block : WideBlock DataT WidthT)
    (value : CArray DataT ArrayLenT) : Option (CArray DataT ArrayLenT) :=
  forLanes ArrayLenT (fun i acc =>
    match block.read (p.m_array_of_wide_data.offset i) with
    | none => none
    | some s =>
      match WideSpecialization.get s p.m_index with
      | none => none
      | some x => acc.write i x) value

end MaskedArrayLaneProxy

/-! ### `BatchedTextureOutputs` -/

/-- Modelled from the spec: the constant `TypeDesc::TypeFloat`, the descriptor of
a float scalar. -/
def TypeDesc.TypeFloat : TypeDesc :=
  ⟨TypeDesc.BASETYPE.FLOAT, TypeDesc.AGGREGATE.SCALAR, TypeDesc.VECSEMANTICS.PLAIN, 0⟩

/-- Modelled from the spec: the constant `TypeDesc::TypeColor`, the descriptor of
a float 3-vector with color semantics. -/
def TypeDesc.TypeColor : TypeDesc :=
  ⟨TypeDesc.BASETYPE.FLOAT, TypeDesc.AGGREGATE.VEC3, TypeDesc.VECSEMANTICS.COLOR, 0⟩

/-- Modelled from the spec: the constant `TypeDesc::TypeString`, the descriptor
of a string scalar. -/
def TypeDesc.TypeString : TypeDesc :=
  ⟨TypeDesc.BASETYPE.STRING, TypeDesc.AGGREGATE.SCALAR, TypeDesc.VECSEMANTICS.PLAIN, 0⟩

/-- The typedef `MaskedDataRef`, `MaskedData<SimdLaneCount>`. -/
abbrev MaskedDataRef : Type := MaskedData SimdLaneCount

/-- The class `BatchedTextureOutputs`; pointers are addresses. -/
structure BatchedTextureOutputs where
  m_result : Nat
  m_resultHasDerivs : Bool
  m_resultType : TypeDesc
  m_alpha : Nat
  m_alphaHasDerivs : Bool
  m_errormessage : Nat
  m_mask : Mask
deriving DecidableEq

namespace BatchedTextureOutputs

/-- The constructor of `BatchedTextureOutputs`, with `ASSERT(chans == 1 || chans == 3)`
as failure. -/
def create (result : Nat) (resultHasDerivs : Bool) (chans : Int) (alpha : Nat)
    (alphaHasDerivs : Bool) (errormessage : Nat) (mask : Mask) :
    Option BatchedTextureOutputs :=
  if chans = 1 ∨ chans = 3 then
    some ⟨result, resultHasDerivs,
      if chans = 1 then TypeDesc.TypeFloat else TypeDesc.TypeColor,
      alpha, alphaHasDerivs, errormessage, mask⟩
  else none

/-- The method `mask()`. -/
def mask (o : BatchedTextureOutputs) : Mask := o.m_mask

/-- The method `result()`. -/
def result (o : BatchedTextureOutputs) : MaskedDataRef :=
  MaskedData.create o.m_resultType o.m_resultHasDerivs o.m_mask o.m_result

/-- The method `alpha()`. -/
def alpha (o : BatchedTextureOutputs) : MaskedDataRef :=
  MaskedData.create TypeDesc.TypeFloat o.m_alphaHasDerivs o.m_mask o.m_alpha

/-- The method `errormessage()`. -/
def errormessage (o : BatchedTextureOutputs) : MaskedDataRef :=
  MaskedData.create TypeDesc.TypeString false o.m_mask o.m_errormessage

end BatchedTextureOutputs


/-! ### The batched texture-option unpacker

`TextureOpt` and what belongs to it are declared outside `wide.h`.  The output
record is modelled with the fields that `updateOption` assigns; the functions
and constants of the texture system that `updateOption` calls are collected in
the structure `TextureDecls`, and every statement about the unpacker holds for
all values of it. -/

/-- Modelled from the spec: the enumeration `TextureOpt::Wrap`; a value is its
integer code, so that the cast `(TextureOpt::Wrap) n` is `⟨n⟩`. -/
structure TextureOpt.Wrap where
  code : int
deriving DecidableEq, Repr

/-- Modelled from the spec: the enumeration `TextureOpt::InterpMode`; a value is
its integer code, so that the cast `(TextureOpt::InterpMode) n` is `⟨n⟩`. -/
structure TextureOpt.InterpMode where
  code : int
deriving DecidableEq, Repr

/-- The values that the pointer member `missingcolor` of the output record takes
here: the pointer the caller supplied (an address), or the member array
`m_missingcolor` of the provider. -/
inductive FloatPtr where
  | caller (address : Nat)
  | m_missingcolor
deriving DecidableEq, Repr

/-- Modelled from the spec: the output record `TextureOpt`, with the fields that
`updateOption` assigns.  Their types are those the assignments of the source
give them. -/
structure TextureOpt where
  swidth : float
  twidth : float
  rwidth : float
  sblur : float
  tblur : float
  rblur : float
  swrap : TextureOpt.Wrap
  twrap : TextureOpt.Wrap
  rwrap : TextureOpt.Wrap
  fill : float
  time : float
  firstchannel : int
  subimage : int
  subimagename : ustring
  interpmode : TextureOpt.InterpMode
  missingcolor : FloatPtr
deriving DecidableEq, Repr

/-- Modelled from the spec: the declarations of the texture system that
`updateOption` uses and `wide.h` does not define: the decoder
`TextureOpt::decode_wrapmode`, the four interpolation codes, and the conversion
`static_cast<float>` of an `int`. -/
structure TextureDecls where
  decode_wrapmode : ustring → TextureOpt.Wrap
  InterpClosest : TextureOpt.InterpMode
  InterpBilinear : TextureOpt.InterpMode
  InterpBicubic : TextureOpt.InterpMode
  InterpSmartBicubic : TextureOpt.InterpMode
  static_cast_float : int → float

namespace BatchedTextureOptionProvider

/-- The enumerator `SWIDTH` of `enum Options`. -/
def SWIDTH : Nat := 0
/-- The enumerator `TWIDTH`. -/
def TWIDTH : Nat := 1
/-- The enumerator `RWIDTH`. -/
def RWIDTH : Nat := 2
/-- The enumerator `SBLUR`. -/
def SBLUR : Nat := 3
/-- The enumerator `TBLUR`. -/
def TBLUR : Nat := 4
/-- The enumerator `RBLUR`. -/
def RBLUR : Nat := 5
/-- The enumerator `SWRAP`. -/
def SWRAP : Nat := 6
/-- The enumerator `TWRAP`. -/
def TWRAP : Nat := 7
/-- The enumerator `RWRAP`. -/
def RWRAP : Nat := 8
/-- The enumerator `FILL`. -/
def FILL : Nat := 9
/-- The enumerator `TIME`. -/
def TIME : Nat := 10
/-- The enumerator `FIRSTCHANNEL`. -/
def FIRSTCHANNEL : Nat := 11
/-- The enumerator `SUBIMAGE`. -/
def SUBIMAGE : Nat := 12
/-- The enumerator `INTERP`. -/
def INTERP : Nat := 13
/-- The enumerator `MISSINGCOLOR`. -/
def MISSINGCOLOR : Nat := 14
/-- The enumerator `MISSINGALPHA`. -/
def MISSINGALPHA : Nat := 15
/-- The enumerator `MAX_OPTIONS`. -/
def MAX_OPTIONS : Nat := 16

/-- The enumerator `INT = 0` of `enum DataType`. -/
def INT : Nat := 0
/-- The enumerator `COLOR = 0`. -/
def COLOR : Nat := 0
/-- The enumerator `FLOAT = 1`. -/
def FLOAT : Nat := 1
/-- The enumerator `STRING = 1`. -/
def STRING : Nat := 1

/-- The conversion `static_cast<bool>` of an enumerator. -/
def static_cast_bool (n : Nat) : Bool := n != 0

/-- The constant `maskSize`. -/
def maskSize : Nat := 32

/-- The typedef `Mask`, `WideMask<maskSize>`. -/
abbrev Mask : Type := WideMask maskSize

/-- The memory behind one pointer of `options[]`: what each
`reinterpret_cast` that `updateOption` applies to the pointer reads there, and
the wide storage that each `ConstWideAccessor<T>` built from it refers to. -/
structure OptionPointee where
  asInt : int
  asFloat : float
  asUstring : ustring
  asColor3 : Color3
  asWideInt : Wide int SimdLaneCount
  asWideFloat : Wide float SimdLaneCount
  asWideUstring : Wide ustring SimdLaneCount
  asWideColor3 : Wide Color3 SimdLaneCount

/-- The struct `OptionData`. -/
structure OptionData where
  active : Mask
  varying : Mask
  type : Mask
  ALIGN : Mask
  options : CArray OptionPointee MAX_OPTIONS

/-- What `updateOption` carries from one option block to the next: the output
record `opt`, the member `m_missingcolor`, the cursor `j`, and `reads`, which
the source does not have: the reads of `options[]` made so far, each as the pair
of the id of the option whose block made it and the index read. -/
structure UpdateState where
  opt : TextureOpt
  m_missingcolor : CArray float 4
  j : Nat
  reads : List (Nat × Nat)

/-- The shape `if (m_opt->active[i]) { ...; ++j; }` that every option block has.
In each of its branches the block reads `m_opt->options[j]` once; `body` gets
what is behind that pointer and yields the new `opt` and `m_missingcolor`. -/
def optionBlock (m_opt : OptionData) (i : Nat)
    (body : OptionPointee → TextureOpt → CArray float 4 →
      Option (TextureOpt × CArray float 4))
    (st : UpdateState) : Option UpdateState :=
  if m_opt.active.subscript i then
    match m_opt.options.read st.j with
    | none => none
    | some p =>
      match body p st.opt st.m_missingcolor with
      | none => none
      | some r => some ⟨r.1, r.2, st.j + 1, st.reads ++ [(i, st.j)]⟩
  else some st

/-- The value that the macro `OPTION_CASE(i, optName)` assigns to `opt.optName`,
from what is behind `m_opt->options[j]`. -/
def optionCaseValue (decls : TextureDecls) (m_opt : OptionData) (l i : Nat)
    (p : OptionPointee) : Option float :=
  if m_opt.varying.subscript i then
    if m_opt.type.subscript i == static_cast_bool INT then
      (((ConstWideAccessor.mk p.asWideInt).subscript l).toData).map decls.static_cast_float
    else ((ConstWideAccessor.mk p.asWideFloat).subscript l).toData
  else
    if m_opt.type.subscript i == static_cast_bool INT then
      some (decls.static_cast_float p.asInt)
    else some p.asFloat

/-- The macro `OPTION_CASE(i, optName)`; `optName` is the assignment to the
field. -/
def OPTION_CASE (decls : TextureDecls) (m_opt : OptionData) (l i : Nat)
    (optName : TextureOpt → float → TextureOpt) : UpdateState → Option UpdateState :=
  optionBlock m_opt i (fun p opt mc =>
    (optionCaseValue decls m_opt l i p).map (fun x => (optName opt x, mc)))

/-- The value that the macro `OPTION_CASE_DECODE(i, optName, decode, typeCast)`
assigns to `opt.optName`. -/
def optionCaseDecodeValue {EnumT : Type} (m_opt : OptionData) (l i : Nat)
    (decode : ustring → EnumT) (typeCast : int → EnumT) (p : OptionPointee) :
    Option EnumT :=
  if m_opt.varying.subscript i then
    if m_opt.type.subscript i == static_cast_bool STRING then
      (((ConstWideAccessor.mk p.asWideUstring).subscript l).toData).map decode
    else (((ConstWideAccessor.mk p.asWideInt).subscript l).toData).map typeCast
  else
    if m_opt.type.subscript i == static_cast_bool STRING then
      some (decode p.asUstring)
    else some (typeCast p.asInt)

/-- The macro `OPTION_CASE_DECODE(i, optName, decode, typeCast)`. -/
def OPTION_CASE_DECODE {EnumT : Type} (m_opt : OptionData) (l i : Nat)
    (optName : TextureOpt → EnumT → TextureOpt) (decode : ustring → EnumT)
    (typeCast : int → EnumT) : UpdateState → Option UpdateState :=
  optionBlock m_opt i (fun p opt mc =>
    (optionCaseDecodeValue m_opt l i decode typeCast p).map (fun x => (optName opt x, mc)))

/-- The private method `texInterpToCode(ustring modename)`. -/
def texInterpToCode (decls : TextureDecls) (modename : ustring) : TextureOpt.InterpMode :=
  let u_linear : ustring := ⟨"linear"⟩
  let u_smartcubic : ustring := ⟨"smartcubic"⟩
  let u_cubic : ustring := ⟨"cubic"⟩
  let u_closest : ustring := ⟨"closest"⟩
  if modename = u_smartcubic then decls.InterpSmartBicubic
  else if modename = u_linear then decls.InterpBilinear
  else if modename = u_cubic then decls.InterpBicubic
  else if modename = u_closest then decls.InterpClosest
  else decls.InterpClosest

/-- The block of `FIRSTCHANNEL`. -/
def firstchannelBlock (m_opt : OptionData) (l : Nat) : UpdateState → Option UpdateState :=
  optionBlock m_opt FIRSTCHANNEL (fun p opt mc =>
    if m_opt.varying.subscript FIRSTCHANNEL then
      (((ConstWideAccessor.mk p.asWideInt).subscript l).toData).map
        (fun x => ({ opt with firstchannel := x }, mc))
    else some ({ opt with firstchannel := p.asInt }, mc))

/-- The block of `SUBIMAGE`. -/
def subimageBlock (m_opt : OptionData) (l : Nat) : UpdateState → Option UpdateState :=
  optionBlock m_opt SUBIMAGE (fun p opt mc =>
    if m_opt.varying.subscript SUBIMAGE then
      if m_opt.type.subscript SUBIMAGE == static_cast_bool STRING then
        (((ConstWideAccessor.mk p.asWideUstring).subscript l).toData).map
          (fun x => ({ opt with subimagename := x }, mc))
      else
        (((ConstWideAccessor.mk p.asWideInt).subscript l).toData).map
          (fun x => ({ opt with subimage := x }, mc))
    else
      if m_opt.type.subscript SUBIMAGE == static_cast_bool STRING then
        some ({ opt with subimagename := p.asUstring }, mc)
      else some ({ opt with subimage := p.asInt }, mc))

/-- The block of `MISSINGCOLOR`. -/
def missingcolorBlock (m_opt : OptionData) (l : Nat) : UpdateState → Option UpdateState :=
  optionBlock m_opt MISSINGCOLOR (fun p opt mc =>
    let missingcolor : Option Color3 :=
      if m_opt.varying.subscript MISSINGCOLOR then
        ((ConstWideAccessor.mk p.asWideColor3).subscript l).toData
      else some p.asColor3
    match missingcolor with
    | none => none
    | some c =>
      match mc.write 0 c.x with
      | none => none
      | some mc0 =>
        match mc0.write 1 c.y with
        | none => none
        | some mc1 =>
          match mc1.write 2 c.z with
          | none => none
          | some mc2 => some ({ opt with missingcolor := FloatPtr.m_missingcolor }, mc2))

/-- The block of `MISSINGALPHA`. -/
def missingalphaBlock (m_opt : OptionData) (l : Nat) : UpdateState → Option UpdateState :=
  optionBlock m_opt MISSINGALPHA (fun p opt mc =>
    let alpha : Option float :=
      if m_opt.varying.subscript MISSINGALPHA then
        ((ConstWideAccessor.mk p.asWideFloat).subscript l).toData
      else some p.asFloat
    match alpha with
    | none => none
    | some a =>
      match mc.write 3 a with
      | none => none
      | some mc3 => some ({ opt with missingcolor := FloatPtr.m_missingcolor }, mc3))

/-- The sixteen option blocks of `updateOption`, in the order of the source. -/
def optionBlocks (decls : TextureDecls) (m_opt : OptionData) (l : Nat) :
    List (UpdateState → Option UpdateState) :=
  [ OPTION_CASE decls m_opt l SWIDTH (fun opt x => { opt with swidth := x }),
    OPTION_CASE decls m_opt l TWIDTH (fun opt x => { opt with twidth := x }),
    OPTION_CASE decls m_opt l RWIDTH (fun opt x => { opt with rwidth := x }),
    OPTION_CASE decls m_opt l SBLUR (fun opt x => { opt with sblur := x }),
    OPTION_CASE decls m_opt l TBLUR (fun opt x => { opt with tblur := x }),
    OPTION_CASE decls m_opt l RBLUR (fun opt x => { opt with rblur := x }),
    OPTION_CASE_DECODE m_opt l SWRAP (fun opt x => { opt with swrap := x })
      decls.decode_wrapmode TextureOpt.Wrap.mk,
    OPTION_CASE_DECODE m_opt l TWRAP (fun opt x => { opt with twrap := x })
      decls.decode_wrapmode TextureOpt.Wrap.mk,
    OPTION_CASE_DECODE m_opt l RWRAP (fun opt x => { opt with rwrap := x })
      decls.decode_wrapmode TextureOpt.Wrap.mk,
    OPTION_CASE decls m_opt l FILL (fun opt x => { opt with fill := x }),
    OPTION_CASE decls m_opt l TIME (fun opt x => { opt with time := x }),
    firstchannelBlock m_opt l,
    subimageBlock m_opt l,
    OPTION_CASE_DECODE m_opt l INTERP (fun opt x => { opt with interpmode := x })
      (texInterpToCode decls) TextureOpt.InterpMode.mk,
    missingcolorBlock m_opt l,
    missingalphaBlock m_opt l ]

/-- The statements of `updateOption` after the null check: `int j = 0;` and then
the option blocks one after the other. -/
def updateOptionBlocks (decls : TextureDecls) (m_opt : OptionData) (l : Nat)
    (opt : TextureOpt) (m_missingcolor : CArray float 4) : Option UpdateState :=
  (optionBlocks decls m_opt l).foldlM (fun st block => block st) ⟨opt, m_missingcolor, 0, []⟩

end BatchedTextureOptionProvider

/-- The class `BatchedTextureOptionProvider`; the pointer `m_opt` is `none` when
null and the record it points to otherwise. -/
structure BatchedTextureOptionProvider where
  m_opt : Option BatchedTextureOptionProvider.OptionData
  m_missingcolor : CArray float 4

namespace BatchedTextureOptionProvider

/-- The constructor `BatchedTextureOptionProvider(const OptionData * data)`. -/
def create (data : Option OptionData) : BatchedTextureOptionProvider :=
  ⟨data, CArray.replicate ⟨0⟩⟩

/-- The state in which `updateOption(opt, l)` returns: the state before the
first block when `m_opt` is null. -/
def updateOptionState (decls : TextureDecls) (provider : BatchedTextureOptionProvider)
    (opt : TextureOpt) (l : Nat) : Option UpdateState :=
  match provider.m_opt with
  | none => some ⟨opt, provider.m_missingcolor, 0, []⟩
  | some m_opt => updateOptionBlocks decls m_opt l opt provider.m_missingcolor

/-- The method `updateOption(TextureOpt &opt, unsigned int l)`: the output record
and the provider after the call. -/
def updateOption (decls : TextureDecls) (provider : BatchedTextureOptionProvider)
    (opt : TextureOpt) (l : Nat) : Option (TextureOpt × BatchedTextureOptionProvider) :=
  (updateOptionState decls provider opt l).map
    (fun st => (st.opt, ⟨provider.m_opt, st.m_missingcolor⟩))

end BatchedTextureOptionProvider


/-! ### Properties of the unpacker stated by the specification -/

namespace BatchedTextureOptionProvider

/-- The dense cursor of option `i`: the number of active options with an id
below `i`. -/
def cursorAt (m_opt : OptionData) (i : Nat) : Nat :=
  (List.range i).countP (fun k => m_opt.active.is_on k)

/-- The reads of the pointer array that the dense cursor prescribes for the
options with an id below `n`: one for every active option, in the order of the
ids, at the dense cursor of the option. -/
def denseReads (m_opt : OptionData) (n : Nat) : List (Nat × Nat) :=
  ((List.range n).filter (fun k => m_opt.active.is_on k)).map
    (fun i => (i, cursorAt m_opt i))

/-- The fields of the output record. -/
inductive Field where
  | swidth | twidth | rwidth | sblur | tblur | rblur | swrap | twrap | rwrap
  | fill | time | firstchannel | subimage | subimagename | interpmode | missingcolor
deriving DecidableEq, Repr

/-- The options whose blocks in `updateOption` assign the field. -/
def Field.owners : Field → List Nat
  | .swidth => [SWIDTH]
  | .twidth => [TWIDTH]
  | .rwidth => [RWIDTH]
  | .sblur => [SBLUR]
  | .tblur => [TBLUR]
  | .rblur => [RBLUR]
  | .swrap => [SWRAP]
  | .twrap => [TWRAP]
  | .rwrap => [RWRAP]
  | .fill => [FILL]
  | .time => [TIME]
  | .firstchannel => [FIRSTCHANNEL]
  | .subimage => [SUBIMAGE]
  | .subimagename => [SUBIMAGE]
  | .interpmode => [INTERP]
  | .missingcolor => [MISSINGCOLOR, MISSINGALPHA]

/-- The option that the specification ties the field to: the one it is named
after. -/
def Field.option : Field → Nat
  | .swidth => SWIDTH
  | .twidth => TWIDTH
  | .rwidth => RWIDTH
  | .sblur => SBLUR
  | .tblur => TBLUR
  | .rblur => RBLUR
  | .swrap => SWRAP
  | .twrap => TWRAP
  | .rwrap => RWRAP
  | .fill => FILL
  | .time => TIME
  | .firstchannel => FIRSTCHANNEL
  | .subimage => SUBIMAGE
  | .subimagename => SUBIMAGE
  | .interpmode => INTERP
  | .missingcolor => MISSINGCOLOR

/-- The two records hold the same value in the field. -/
def Field.same : Field → TextureOpt → TextureOpt → Prop
  | .swidth, a, b => a.swidth = b.swidth
  | .twidth, a, b => a.twidth = b.twidth
  | .rwidth, a, b => a.rwidth = b.rwidth
  | .sblur, a, b => a.sblur = b.sblur
  | .tblur, a, b => a.tblur = b.tblur
  | .rblur, a, b => a.rblur = b.rblur
  | .swrap, a, b => a.swrap = b.swrap
  | .twrap, a, b => a.twrap = b.twrap
  | .rwrap, a, b => a.rwrap = b.rwrap
  | .fill, a, b => a.fill = b.fill
  | .time, a, b => a.time = b.time
  | .firstchannel, a, b => a.firstchannel = b.firstchannel
  | .subimage, a, b => a.subimage = b.subimage
  | .subimagename, a, b => a.subimagename = b.subimagename
  | .interpmode, a, b => a.interpmode = b.interpmode
  | .missingcolor, a, b => a.missingcolor = b.missingcolor

/-- Every field none of whose assigning options is in `touched` holds in `after`
the value it holds in `before`. -/
def keptOutside (touched : Nat → Bool) (before after : TextureOpt) : Prop :=
  ∀ f : Field, (∀ k, k ∈ f.owners → touched k = false) → f.same before after

/-- The active options with an id from `lo` up to, and not including, `hi`. -/
def touchedBetween (m_opt : OptionData) (lo hi : Nat) : Nat → Bool :=
  fun k => m_opt.active.is_on k && decide (lo ≤ k) && decide (k < hi)

/-- The field that `OPTION_CASE(i, optName)` assigns for the numeric option `i`,
as the macro is invoked in `updateOption`. -/
def numericField : Nat → Option (TextureOpt → float)
  | 0 => some TextureOpt.swidth
  | 1 => some TextureOpt.twidth
  | 2 => some TextureOpt.rwidth
  | 3 => some TextureOpt.sblur
  | 4 => some TextureOpt.tblur
  | 5 => some TextureOpt.rblur
  | 9 => some TextureOpt.fill
  | 10 => some TextureOpt.time
  | _ => none

/-- What the body of the block of option `i` does, for a lane `l`: it succeeds,
assigns no field of another option, and assigns the field of a numeric option
and of `INTERP` the value of the macro. -/
def BodySpec (decls : TextureDecls) (m_opt : OptionData) (l : Nat) (i : Nat)
    (body : OptionPointee → TextureOpt → CArray float 4 →
      Option (TextureOpt × CArray float 4)) : Prop :=
  ∀ (p : OptionPointee) (opt : TextureOpt) (mc : CArray float 4),
    ∃ r, body p opt mc = some r ∧
      keptOutside (fun k => k == i) opt r.1 ∧
      (∀ field, numericField i = some field →
        some (field r.1) = optionCaseValue decls m_opt l i p) ∧
      (i = INTERP → some r.1.interpmode
        = optionCaseDecodeValue m_opt l INTERP (texInterpToCode decls)
            TextureOpt.InterpMode.mk p)

/-- The list consists of the option blocks of the ids `a`, `a + 1`, ... in this
order, and the body of each meets `BodySpec`. -/
inductive Blocks (decls : TextureDecls) (m_opt : OptionData) (l : Nat) :
    Nat → List (UpdateState → Option UpdateState) → Prop where
  | nil (a : Nat) : Blocks decls m_opt l a []
  | cons (a : Nat)
      (body : OptionPointee → TextureOpt → CArray float 4 →
        Option (TextureOpt × CArray float 4))
      (rest : List (UpdateState → Option UpdateState)) :
      BodySpec decls m_opt l a body → Blocks decls m_opt l (a + 1) rest →
      Blocks decls m_opt l a (optionBlock m_opt a body :: rest)

end BatchedTextureOptionProvider

/-! ### Sample objects of the unpacker -/

/-- A sample of the declarations of the texture system. -/
def TextureDecls.sample : TextureDecls :=
  ⟨fun _ => ⟨0⟩, ⟨0⟩, ⟨1⟩, ⟨2⟩, ⟨3⟩, fun n => ⟨n.toNat⟩⟩

/-- An output record as a caller may supply it. -/
def TextureOpt.sample : TextureOpt :=
  ⟨⟨0⟩, ⟨0⟩, ⟨0⟩, ⟨0⟩, ⟨0⟩, ⟨0⟩, ⟨0⟩, ⟨0⟩, ⟨0⟩, ⟨0⟩, ⟨0⟩, 0, 0, ⟨""⟩, ⟨0⟩, FloatPtr.caller 512⟩

namespace BatchedTextureOptionProvider

/-- A memory behind an option pointer: the number `n` under every numeric view,
the string `name` under every string view. -/
def OptionPointee.sample (n : Nat) (name : String) : OptionPointee :=
  ⟨(n : Int), ⟨n⟩, ⟨name⟩, ⟨⟨n⟩, ⟨n⟩, ⟨n⟩⟩,
   WideBuiltin.uniform (n : Int), WideBuiltin.uniform ⟨n⟩,
   ⟨CArray.replicate ⟨name⟩⟩,
   ⟨CArray.replicate ⟨n⟩, CArray.replicate ⟨n⟩, CArray.replicate ⟨n⟩⟩⟩

/-- An option record with the given bit patterns whose pointer `k` addresses
the number `100 + k` and the string "linear". -/
def OptionData.sample (active varying type : Nat) : OptionData :=
  ⟨WideMask.fromValue active, WideMask.fromValue varying, WideMask.fromValue type,
   WideMask.fromValue 0, ⟨fun k => OptionPointee.sample (100 + k.val) "linear"⟩⟩

end BatchedTextureOptionProvider

/-- The scenario of the specification: `SWIDTH` active, varying and float,
`INTERP` active, uniform and a string; the pointer array holds two entries, the
second of which addresses the string "linear". -/
def sampleScenario : BatchedTextureOptionProvider.OptionData :=
  BatchedTextureOptionProvider.OptionData.sample 8193 1 8193

/-- An option record in which `MISSINGALPHA` alone is active, uniform. -/
def sampleAlphaOnly : BatchedTextureOptionProvider.OptionData :=
  BatchedTextureOptionProvider.OptionData.sample 32768 0 0


/-! ### The unpacker of the specification -/

namespace BatchedTextureOptionProvider

/-- The body of the block of option `i` in `updateOption`: what the block does,
between its test of `active[i]` and its `++j`, with what is behind the pointer
it reads. -/
def optionBody (decls : TextureDecls) (m_opt : OptionData) (l : Nat) :
    Nat → OptionPointee → TextureOpt → CArray float 4 → Option (TextureOpt × CArray float 4)
  | 0 => fun p opt mc =>
    (optionCaseValue decls m_opt l SWIDTH p).map (fun x => ({ opt with swidth := x }, mc))
  | 1 => fun p opt mc =>
    (optionCaseValue decls m_opt l TWIDTH p).map (fun x => ({ opt with twidth := x }, mc))
  | 2 => fun p opt mc =>
    (optionCaseValue decls m_opt l RWIDTH p).map (fun x => ({ opt with rwidth := x }, mc))
  | 3 => fun p opt mc =>
    (optionCaseValue decls m_opt l SBLUR p).map (fun x => ({ opt with sblur := x }, mc))
  | 4 => fun p opt mc =>
    (optionCaseValue decls m_opt l TBLUR p).map (fun x => ({ opt with tblur := x }, mc))
  | 5 => fun p opt mc =>
    (optionCaseValue decls m_opt l RBLUR p).map (fun x => ({ opt with rblur := x }, mc))
  | 6 => fun p opt mc =>
    (optionCaseDecodeValue m_opt l SWRAP decls.decode_wrapmode TextureOpt.Wrap.mk p).map
      (fun x => ({ opt with swrap := x }, mc))
  | 7 => fun p opt mc =>
    (optionCaseDecodeValue m_opt l TWRAP decls.decode_wrapmode TextureOpt.Wrap.mk p).map
      (fun x => ({ opt with twrap := x }, mc))
  | 8 => fun p opt mc =>
    (optionCaseDecodeValue m_opt l RWRAP decls.decode_wrapmode TextureOpt.Wrap.mk p).map
      (fun x => ({ opt with rwrap := x }, mc))
  | 9 => fun p opt mc =>
    (optionCaseValue decls m_opt l FILL p).map (fun x => ({ opt with fill := x }, mc))
  | 10 => fun p opt mc =>
    (optionCaseValue decls m_opt l TIME p).map (fun x => ({ opt with time := x }, mc))
  | 11 => fun p opt mc =>
    if m_opt.varying.subscript FIRSTCHANNEL then
      (((ConstWideAccessor.mk p.asWideInt).subscript l).toData).map
        (fun x => ({ opt with firstchannel := x }, mc))
    else some ({ opt with firstchannel := p.asInt }, mc)
  | 12 => fun p opt mc =>
    if m_opt.varying.subscript SUBIMAGE then
      if m_opt.type.subscript SUBIMAGE == static_cast_bool STRING then
        (((ConstWideAccessor.mk p.asWideUstring).subscript l).toData).map
          (fun x => ({ opt with subimagename := x }, mc))
      else
        (((ConstWideAccessor.mk p.asWideInt).subscript l).toData).map
          (fun x => ({ opt with subimage := x }, mc))
    else
      if m_opt.type.subscript SUBIMAGE == static_cast_bool STRING then
        some ({ opt with subimagename := p.asUstring }, mc)
      else some ({ opt with subimage := p.asInt }, mc)
  | 13 => fun p opt mc =>
    (optionCaseDecodeValue m_opt l INTERP (texInterpToCode decls)
      TextureOpt.InterpMode.mk p).map (fun x => ({ opt with interpmode := x }, mc))
  | 14 => fun p opt mc =>
    let missingcolor : Option Color3 :=
      if m_opt.varying.subscript MISSINGCOLOR then
        ((ConstWideAccessor.mk p.asWideColor3).subscript l).toData
      else some p.asColor3
    match missingcolor with
    | none => none
    | some c =>
      match mc.write 0 c.x with
      | none => none
      | some mc0 =>
        match mc0.write 1 c.y with
        | none => none
        | some mc1 =>
          match mc1.write 2 c.z with
          | none => none
          | some mc2 => some ({ opt with missingcolor := FloatPtr.m_missingcolor }, mc2)
  | 15 => fun p opt mc =>
    let alpha : Option float :=
      if m_opt.varying.subscript MISSINGALPHA then
        ((ConstWideAccessor.mk p.asWideFloat).subscript l).toData
      else some p.asFloat
    match alpha with
    | none => none
    | some a =>
      match mc.write 3 a with
      | none => none
      | some mc3 => some ({ opt with missingcolor := FloatPtr.m_missingcolor }, mc3)
  | _ => fun _ opt mc => some (opt, mc)

/-- One option as the specification describes it: skipped if inactive in
`active`; otherwise its data is what is behind the pointer at the index that is
the number of active options with a smaller id, and the output record is updated
from it as the block of the option does. -/
def denseStep (decls : TextureDecls) (m_opt : OptionData) (l : Nat)
    (s : TextureOpt × CArray float 4) (i : Nat) : Option (TextureOpt × CArray float 4) :=
  if m_opt.active.is_on i then
    match m_opt.options.read (cursorAt m_opt i) with
    | none => none
    | some p => optionBody decls m_opt l i p s.1 s.2
  else some s

/-- The unpacker as the specification describes it, without a running cursor:
the options are visited in the order of their ids, each by `denseStep`. -/
def denseUpdate (decls : TextureDecls) (m_opt : OptionData) (l : Nat) (opt : TextureOpt)
    (m_missingcolor : CArray float 4) : Option (TextureOpt × CArray float 4) :=
  (List.range MAX_OPTIONS).foldlM (denseStep decls m_opt l) (opt, m_missingcolor)

end BatchedTextureOptionProvider


/-! ### Further properties stated by the specification -/

/-- Uniform write on a storage of logical type `DataT` declared with `WidthT`
lanes: for every lane index `l` an unmasked lane proxy is created with, the
assignment of `v` through `proxy.uniform()` succeeds and every lane
`i < WidthT` then reads `v`; `make_uniform(s, v)` yields the same storage. -/
def UniformWrite (DataT : Type) [WideSpecialization DataT] (WidthT : Nat) : Prop :=
  ∀ (s : Wide DataT WidthT) (l : Nat) (v : DataT),
    ∃ r, ((LaneProxy.mk s l).uniform).assign v = some r ∧
      (∀ i, i < WidthT → WideSpecialization.get r i = some v) ∧
      make_uniform s v = some r

/-- Element `k` of the array a masked array lane proxy is bound to, in the
memory `block`. -/
def MaskedArrayLaneProxy.element {ArrayLenT WidthT : Nat} {DataT : Type}
    [WideSpecialization DataT] (p : MaskedArrayLaneProxy ArrayLenT WidthT)
    (block : WideBlock DataT WidthT) (k : Nat) : Option (Wide DataT WidthT) :=
  block.read (p.m_array_of_wide_data.offset k)

/-- Whole-array write through the lane proxy `p` of a masked array of `ArrayLenT`
wide storages that lies inside the memory `block`, for a lane `l < WidthT`:
when lane `l` is on in the mask the assignment of the array `a` succeeds, lane
`l` of every element `k` then reads `a[k]`, every other lane of every element
reads what it read before, and `get` copies out `a`; when lane `l` is off the
assignment leaves the memory as it was. -/
def MaskedArrayWrite (DataT : Type) [WideSpecialization DataT] (ArrayLenT WidthT : Nat) :
    Prop :=
  ∀ (block : WideBlock DataT WidthT) (p : MaskedArrayLaneProxy ArrayLenT WidthT)
    (a : CArray DataT ArrayLenT),
    p.m_index < WidthT → 0 ≤ p.m_array_of_wide_data.index →
    p.m_array_of_wide_data.index.toNat + ArrayLenT ≤ block.length →
    (p.m_mask.is_on p.m_index = true →
      ∃ r, p.assign block a = some r ∧
        (∀ k, k < ArrayLenT → ∃ s s1, p.element block k = some s ∧
          p.element r k = some s1 ∧
          WideSpecialization.get s1 p.m_index = a.read k ∧
          ∀ j, j ≠ p.m_index → WideSpecialization.get s1 j = WideSpecialization.get s j) ∧
        ∀ out : CArray DataT ArrayLenT, p.get r out = some a) ∧
    (p.m_mask.is_off p.m_index = true → p.assign block a = some block)

/-- The storage of four `int` lanes all holding `n`. -/
def sampleInt4 (n : int) : Wide int 4 := WideBuiltin.uniform n


/-! ### Widths, the copy of an unbounded-array proxy, reads through proxies -/

/-- The constant `static constexpr int width = WidthT;` of `Wide<Vec3, WidthT>`. -/
def WideVec3.width {WidthT : Nat} (_s : WideVec3 WidthT) : Nat := WidthT

/-- The constant `static constexpr int width = WidthT;` of
`Wide<Dual2<float>, WidthT>`. -/
def WideDual2Float.width {WidthT : Nat} (_s : WideDual2Float WidthT) : Nat := WidthT

/-- The constant `static constexpr int width = WidthT;` of
`Wide<Dual2<Vec3>, WidthT>`. -/
def WideDual2Vec3.width {WidthT : Nat} (_s : WideDual2Vec3 WidthT) : Nat := WidthT

/-- A `Wide<Dual2<float>>` whose lanes all hold bit patterns 0. -/
def WideDual2Float.zero {WidthT : Nat} : WideDual2Float WidthT :=
  ⟨CArray.replicate ⟨0⟩, CArray.replicate ⟨0⟩, CArray.replicate ⟨0⟩⟩

/-- The copy constructor
`MaskedUnboundedArrayLaneProxy(const MaskedUnboundedArrayLaneProxy &other)`, with
the initializers `m_array_of_wide_data(other.m_array_of_wide_data)`,
`m_array_length(array_length)`, `m_mask(other.m_mask)`,
`m_index(other.m_index)`.  The name `array_length` of the second initializer is
not declared in this constructor: its parameter is `other`, and the member is
`m_array_length`.  What the name denotes is therefore a parameter here. -/
def MaskedUnboundedArrayLaneProxy.copy {WidthT : Nat}
    (other : MaskedUnboundedArrayLaneProxy WidthT) (array_length : Int) :
    MaskedUnboundedArrayLaneProxy WidthT :=
  ⟨other.m_array_of_wide_data, array_length, other.m_mask, other.m_index⟩

/-- The copy constructor
`MaskedUnboundArrayAccessor(const MaskedUnboundArrayAccessor &other)`, with the
initializers `m_array_of_wide_data(other.m_array_of_wide_data)`,
`m_array_length(other.m_array_length)`, `m_mask(other.m_mask)`. -/
def MaskedUnboundArrayAccessor.copy {WidthT : Nat}
    (other : MaskedUnboundArrayAccessor WidthT) : MaskedUnboundArrayAccessor WidthT :=
  ⟨other.m_array_of_wide_data, other.m_array_length, other.m_mask⟩

/-- Reads are not predicated, on a storage of logical type `DataT` declared with
`WidthT` lanes: for every mask and every lane `l < WidthT`, `get(l)` of the
storage is a value, and the conversion and `get()` of the masked lane proxy and
of the unmasked lane proxy all return it. -/
def UnpredicatedRead (DataT : Type) [WideSpecialization DataT] (WidthT : Nat) : Prop :=
  ∀ (s : Wide DataT WidthT) (m : Mask) (l : Nat), l < WidthT →
    ∃ v, WideSpecialization.get s l = some v ∧
      ((MaskedAccessor.mk s m).subscript l).toData = some v ∧
      ((MaskedAccessor.mk s m).subscript l).get = some v ∧
      (LaneProxy.mk s l).toData = some v ∧
      (LaneProxy.mk s l).get = some v

/-! ### Sample objects of the dual storages -/

/-- A value of `Dual2<Vec3>` with nine different bit patterns. -/
def sampleDual2Vec3 : Dual2 Vec3 :=
  ⟨⟨⟨1⟩, ⟨2⟩, ⟨3⟩⟩, ⟨⟨4⟩, ⟨5⟩, ⟨6⟩⟩, ⟨⟨7⟩, ⟨8⟩, ⟨9⟩⟩⟩

/-- A value of `Dual2<float>` with three different bit patterns. -/
def sampleDual2Float : Dual2 float := ⟨⟨1⟩, ⟨2⟩, ⟨3⟩⟩

/-- A `Wide<Dual2<Vec3>, WidthT>` whose lanes all hold bit patterns 0. -/
def sampleWideDual2Vec3 (WidthT : Nat) : Wide (Dual2 Vec3) WidthT := WideDual2Vec3.zero

/-- A `Wide<Dual2<float>, WidthT>` whose lanes all hold bit patterns 0. -/
def sampleWideDual2Float (WidthT : Nat) : Wide (Dual2 float) WidthT := WideDual2Float.zero

/-! ## Lemmas on lane masks -/

theorem toInt32_of_range {z : Int} (h1 : -2147483648 ≤ z) (h2 : z < 2147483648) :
    toInt32 z = z := by
  unfold toInt32
  omega

namespace WideMask
variable {WidthT : Nat}

theorem toUInt32_of_lt {n : Nat} (h : n < 4294967296) : toUInt32 n = n :=
  Nat.mod_eq_of_lt h

theorem testBit_toUInt32 (n i : Nat) :
    (toUInt32 n).testBit i = (decide (i < 32) && n.testBit i) := by
  have h : (4294967296 : Nat) = 2 ^ 32 := by norm_num
  unfold toUInt32
  rw [h, Nat.testBit_mod_two_pow]

theorem shl1_eq {lane : Nat} (h : lane < 32) : shl1 lane = 2 ^ lane := by
  unfold shl1
  rw [Nat.one_shiftLeft]
  apply toUInt32_of_lt
  calc 2 ^ lane < 2 ^ 32 := Nat.pow_lt_pow_right (by decide) h
    _ = 4294967296 := by norm_num

theorem testBit_bitNot32 (v i : Nat) :
    (bitNot32 v).testBit i = (decide (i < 32) && !v.testBit i) := by
  have hlt : toUInt32 v < 2 ^ 32 := by
    unfold toUInt32; exact Nat.mod_lt _ (by norm_num)
  have h : bitNot32 v = 2 ^ 32 - (toUInt32 v + 1) := by
    unfold bitNot32; norm_num; omega
  rw [h, Nat.testBit_two_pow_sub_succ hlt, testBit_toUInt32]
  cases decide (i < 32) <;> simp

theorem fullMask_eq {W : Nat} (h : W ≤ 32) : fullMask W = 2 ^ W - 1 := by
  have key : ∀ n, n ≤ 32 → fullMask n = 2 ^ n - 1 := by decide
  exact key W h

theorem testBit_fullMask {W : Nat} (h : W ≤ 32) (i : Nat) :
    (fullMask W).testBit i = decide (i < W) := by
  rw [fullMask_eq h, Nat.testBit_two_pow_sub_one]

theorem and_two_pow_eq (v i : Nat) : (v &&& 2 ^ i = 2 ^ i) ↔ v.testBit i = true := by
  constructor
  · intro h
    have : (v &&& 2 ^ i).testBit i = true := by rw [h]; exact Nat.testBit_two_pow_self
    rw [Nat.testBit_and, Nat.testBit_two_pow_self, Bool.and_true] at this
    exact this
  · intro h
    apply Nat.eq_of_testBit_eq
    intro j
    rw [Nat.testBit_and, Nat.testBit_two_pow]
    by_cases hj : i = j
    · subst hj; simp [h]
    · simp [hj]

theorem and_two_pow_eq_zero (v i : Nat) : (v &&& 2 ^ i = 0) ↔ v.testBit i = false := by
  constructor
  · intro h
    have : (v &&& 2 ^ i).testBit i = false := by rw [h]; exact Nat.zero_testBit i
    rw [Nat.testBit_and, Nat.testBit_two_pow_self] at this
    simpa using this
  · intro h
    apply Nat.eq_of_testBit_eq
    intro j
    rw [Nat.testBit_and, Nat.testBit_two_pow, Nat.zero_testBit]
    by_cases hj : i = j
    · subst hj; simp [h]
    · simp [hj]

theorem is_on_eq_testBit (m : WideMask WidthT) {lane : Nat} (h : lane < 32) :
    m.is_on lane = m.m_value.testBit lane := by
  unfold is_on
  rw [shl1_eq h, Bool.eq_iff_iff, beq_iff_eq]
  exact and_two_pow_eq _ _

theorem subscript_eq_is_on (m : WideMask WidthT) (lane : Nat) :
    m.subscript lane = m.is_on lane := rfl

theorem is_off_eq_testBit (m : WideMask WidthT) {lane : Nat} (h : lane < 32) :
    m.is_off lane = !m.m_value.testBit lane := by
  unfold is_off
  rw [shl1_eq h, Bool.eq_iff_iff, beq_iff_eq, and_two_pow_eq_zero]
  cases m.m_value.testBit lane <;> simp

theorem m_value_ofUInt32 {n : Nat} (h : n < 4294967296) :
    (ofUInt32 n : WideMask WidthT).m_value = n :=
  toUInt32_of_lt h

theorem testBit_ofUInt32 (n i : Nat) :
    (ofUInt32 n : WideMask WidthT).m_value.testBit i = (decide (i < 32) && n.testBit i) :=
  testBit_toUInt32 n i

theorem testBit_m_value_ge (m : WideMask WidthT) {i : Nat} (h : 32 ≤ i) :
    m.m_value.testBit i = false := by
  apply Nat.testBit_lt_two_pow
  calc m.m_value < 4294967296 := m.m_value_lt
    _ = 2 ^ 32 := by norm_num
    _ ≤ 2 ^ i := Nat.pow_le_pow_right (by decide) h

theorem testBit_invert (m : WideMask WidthT) (hW : WidthT ≤ 32) (i : Nat) :
    m.invert.m_value.testBit i = (decide (i < WidthT) && !m.m_value.testBit i) := by
  unfold invert
  rw [testBit_ofUInt32, Nat.testBit_and, testBit_bitNot32, testBit_fullMask hW]
  by_cases h1 : i < WidthT
  · have : i < 32 := by omega
    simp [h1, this]
  · simp [h1]

theorem inWidth_iff_lt (m : WideMask WidthT) : m.inWidth ↔ m.m_value < 2 ^ WidthT := by
  constructor
  · intro h
    exact Nat.lt_pow_two_of_testBit _ (fun i hi => h i hi)
  · intro h k hk
    apply Nat.testBit_lt_two_pow
    exact lt_of_lt_of_le h (Nat.pow_le_pow_right (by decide) hk)

end WideMask

/-! ## Lemmas on the population count -/

theorem popcount_zero (n : Nat) : popcount n 0 = 0 := by
  induction n with
  | zero => rfl
  | succ n ih => simp [popcount, ih]

theorem popcount_succ_of_lt {n v : Nat} (h : v < 2 ^ n) :
    popcount (n + 1) v = popcount n v := by
  induction n generalizing v with
  | zero =>
    have hv : v = 0 := by simpa using h
    subst hv
    simp [popcount]
  | succ n ih =>
    have h2 : v / 2 < 2 ^ n := by
      rw [Nat.div_lt_iff_lt_mul (by decide)]
      rw [pow_succ] at h
      exact h
    show v % 2 + popcount (n + 1) (v / 2) = v % 2 + popcount n (v / 2)
    rw [ih h2]

theorem popcount_of_lt {n v : Nat} (h : v < 2 ^ n) (k : Nat) :
    popcount (n + k) v = popcount n v := by
  induction k with
  | zero => rfl
  | succ k ih =>
    have h2 : v < 2 ^ (n + k) :=
      lt_of_lt_of_le h (Nat.pow_le_pow_right (by decide) (Nat.le_add_right n k))
    rw [← Nat.add_assoc, popcount_succ_of_lt h2, ih]

theorem popcount_clear_lowest {n v : Nat} (h : v < 2 ^ n) (hv : v ≠ 0) :
    popcount n (v &&& (v - 1)) + 1 = popcount n v := by
  induction n generalizing v with
  | zero =>
    have : v = 0 := by simpa using h
    exact absurd this hv
  | succ n ih =>
    have h2 : v / 2 < 2 ^ n := by
      rw [Nat.div_lt_iff_lt_mul (by decide)]
      rw [pow_succ] at h
      exact h
    show (v &&& (v - 1)) % 2 + popcount n ((v &&& (v - 1)) / 2) + 1
      = v % 2 + popcount n (v / 2)
    rw [Nat.and_div_two]
    rcases Nat.mod_two_eq_zero_or_one v with h0 | h1
    · have hk : v / 2 ≠ 0 := by omega
      have hd : (v - 1) / 2 = v / 2 - 1 := by omega
      have hm : (v &&& (v - 1)) % 2 = 0 := by
        rcases Nat.mod_two_eq_zero_or_one (v &&& (v - 1)) with h | h
        · exact h
        · rw [Nat.and_mod_two_eq_one] at h
          omega
      rw [hd, hm, h0, Nat.zero_add, Nat.zero_add]
      exact ih h2 hk
    · have hd : (v - 1) / 2 = v / 2 := by omega
      have hm : (v &&& (v - 1)) % 2 = 0 := by
        rcases Nat.mod_two_eq_zero_or_one (v &&& (v - 1)) with h | h
        · exact h
        · rw [Nat.and_mod_two_eq_one] at h
          omega
      rw [hd, hm, h1, Nat.and_self]
      omega

theorem countLoop_eq_popcount (n : Nat) :
    ∀ v count, v < 2 ^ n → WideMask.countLoop v count = count + popcount n v := by
  intro v
  induction v using Nat.strong_induction_on with
  | _ v ih =>
    intro count h
    rw [WideMask.countLoop]
    by_cases hv : v = 0
    · subst hv
      simp [popcount_zero]
    · rw [if_neg hv]
      have hle : v &&& (v - 1) ≤ v - 1 := Nat.and_le_right
      have hlt : v &&& (v - 1) < v := by omega
      rw [ih _ hlt (count + 1) (lt_trans hlt h), ← popcount_clear_lowest h hv]
      omega

theorem popcount_complement {n v : Nat} (h : v < 2 ^ n) :
    popcount n v + popcount n (2 ^ n - 1 - v) = n := by
  induction n generalizing v with
  | zero => rfl
  | succ n ih =>
    have hp : 2 ^ (n + 1) = 2 * 2 ^ n := by rw [pow_succ, Nat.mul_comm]
    have h2 : v / 2 < 2 ^ n := by omega
    have hpos : 0 < 2 ^ n := Nat.pow_pos (by decide)
    have hd : (2 ^ (n + 1) - 1 - v) / 2 = 2 ^ n - 1 - v / 2 := by omega
    have hm : (2 ^ (n + 1) - 1 - v) % 2 = 1 - v % 2 := by omega
    show v % 2 + popcount n (v / 2)
      + ((2 ^ (n + 1) - 1 - v) % 2 + popcount n ((2 ^ (n + 1) - 1 - v) / 2)) = n + 1
    rw [hd, hm]
    have := ih h2
    have hb : v % 2 < 2 := Nat.mod_lt _ (by decide)
    omega

namespace WideMask
variable {WidthT : Nat}

theorem count_eq_popcount (m : WideMask WidthT) : m.count = popcount 32 m.m_value := by
  unfold count
  rw [countLoop_eq_popcount 32 _ _ (by
    calc m.m_value < 4294967296 := m.m_value_lt
      _ = 2 ^ 32 := by norm_num)]
  omega

theorem m_value_invert_of_lt (m : WideMask WidthT) (hW : WidthT ≤ 32)
    (h : m.m_value < 2 ^ WidthT) : m.invert.m_value = 2 ^ WidthT - 1 - m.m_value := by
  apply Nat.eq_of_testBit_eq
  intro i
  have e : 2 ^ WidthT - 1 - m.m_value = 2 ^ WidthT - (m.m_value + 1) := by omega
  rw [testBit_invert m hW, e, Nat.testBit_two_pow_sub_succ h]

end WideMask

/-! ## Lemmas on C arrays and the lane loop -/

namespace CArray

variable {T : Type} {n : Nat}

theorem read_of_lt (a : CArray T n) {i : Nat} (h : i < n) :
    a.read i = some (a.cell ⟨i, h⟩) := by
  unfold read
  rw [dif_pos h]

theorem read_isSome (a : CArray T n) {i : Nat} (h : i < n) : ∃ v, a.read i = some v :=
  ⟨_, read_of_lt a h⟩

theorem write_spec (a : CArray T n) {i : Nat} (v : T) (h : i < n) :
    ∃ b, a.write i v = some b ∧ ∀ j, b.read j = if j = i then some v else a.read j := by
  refine ⟨a.update ⟨i, h⟩ v, ?_, ?_⟩
  · unfold write
    rw [dif_pos h]
  · intro j
    unfold read update
    by_cases hj : j < n
    · rw [dif_pos hj, dif_pos hj]
      by_cases hji : j = i
      · subst hji
        simp
      · have hne : (⟨j, hj⟩ : Fin n) ≠ ⟨i, h⟩ := fun e => hji (Fin.mk.inj e)
        rw [if_neg hji]
        show some (Function.update a.cell ⟨i, h⟩ v ⟨j, hj⟩) = _
        rw [Function.update_noteq hne]
    · rw [dif_neg hj, dif_neg hj]
      have hji : j ≠ i := fun e => hj (e ▸ h)
      rw [if_neg hji]

end CArray

theorem forLanes_zero {S : Type} (body : Nat → S → Option S) (s : S) :
    forLanes 0 body s = some s := rfl

theorem forLanes_succ {S : Type} (n : Nat) (body : Nat → S → Option S) (s : S) :
    forLanes (n + 1) body s = (forLanes n body s).bind (body n) := by
  unfold forLanes
  rw [List.range_succ, List.foldlM_append]
  cases h : List.foldlM (fun acc i => body i acc) s (List.range n) with
  | none => rfl
  | some r =>
    show (List.foldlM (fun acc i => body i acc) r [n]) = _
    simp [List.foldlM]

/-- A loop whose body writes lane `i` under a condition: every lane that meets
the condition receives its target, every other lane keeps its content. -/
theorem forLanes_guarded {S D : Type} (W : Nat) (get : S → Nat → Option D)
    (wr : Nat → S → Option S) (tgt : Nat → Option D) (cond : Nat → Bool)
    (hwr : ∀ i acc, i < W → ∃ acc1, wr i acc = some acc1 ∧
      ∀ j, get acc1 j = if j = i then tgt i else get acc j)
    (s : S) (n : Nat) (hn : n ≤ W) :
    ∃ r, forLanes n (fun i acc => if cond i = true then wr i acc else some acc) s = some r ∧
      ∀ j, get r j = if j < n ∧ cond j = true then tgt j else get s j := by
  induction n with
  | zero =>
    exact ⟨s, rfl, fun j => by simp⟩
  | succ n ih =>
    obtain ⟨r, hr, hget⟩ := ih (Nat.le_of_succ_le hn)
    rw [forLanes_succ, hr]
    show ∃ r1, (if cond n = true then wr n r else some r) = some r1 ∧ _
    by_cases hc : cond n = true
    · obtain ⟨acc1, h1, h2⟩ := hwr n r (Nat.lt_of_succ_le hn)
      refine ⟨acc1, by rw [if_pos hc, h1], ?_⟩
      intro j
      rw [h2 j]
      by_cases hj : j = n
      · subst hj
        simp [hc]
      · rw [if_neg hj, hget j]
        have e : (j < n + 1 ∧ cond j = true) ↔ (j < n ∧ cond j = true) := by
          constructor
          · rintro ⟨a, b⟩; exact ⟨by omega, b⟩
          · rintro ⟨a, b⟩; exact ⟨by omega, b⟩
        simp only [e]
    · refine ⟨r, by rw [if_neg hc], ?_⟩
      intro j
      rw [hget j]
      by_cases hj : j = n
      · subst hj
        simp [hc]
      · have e : (j < n + 1 ∧ cond j = true) ↔ (j < n ∧ cond j = true) := by
          constructor
          · rintro ⟨a, b⟩; exact ⟨by omega, b⟩
          · rintro ⟨a, b⟩; exact ⟨by omega, b⟩
        simp only [e]

/-- A loop whose condition holds on no lane returns the object unchanged. -/
theorem forLanes_skip {S : Type} (wr : Nat → S → Option S) (cond : Nat → Bool) (s : S)
    (n : Nat) (hc : ∀ i, i < n → cond i = false) :
    forLanes n (fun i acc => if cond i = true then wr i acc else some acc) s = some s := by
  induction n with
  | zero => rfl
  | succ n ih =>
    rw [forLanes_succ, ih (fun i hi => hc i (Nat.lt_succ_of_lt hi))]
    show (if cond n = true then wr n s else some s) = some s
    rw [hc n (Nat.lt_succ_self n)]
    simp

namespace WideMask

variable {WidthT : Nat}

theorem is_on_false_of_is_off (m : WideMask WidthT) {lane : Nat} (h : lane < 32)
    (hoff : m.is_off lane = true) : m.is_on lane = false := by
  rw [is_off_eq_testBit m h] at hoff
  rw [is_on_eq_testBit m h]
  simpa using hoff

theorem subscript_fromBool_false {lane : Nat} (h : lane < 32) :
    (fromBool false : WideMask WidthT).subscript lane = false := by
  rw [subscript_eq_is_on, is_on_eq_testBit _ h]
  show (ofUInt32 (if false = true then fullMask WidthT else 0) : WideMask WidthT).m_value.testBit lane = _
  simp [testBit_ofUInt32]

end WideMask

/-! ## Lemmas on wide storage: one-lane writes -/

namespace WideBuiltin

variable {BuiltinT : Type} {WidthT : Nat}

theorem set_spec_wideBuiltin (s : WideBuiltin BuiltinT WidthT) {i : Nat} (v : BuiltinT) (h : i < WidthT) :
    ∃ r, s.set i v = some r ∧ ∀ j, r.get j = if j = i then some v else s.get j := by
  obtain ⟨b, hb, hr⟩ := s.data.write_spec v h
  refine ⟨⟨b⟩, ?_, hr⟩
  simp [set, hb]

theorem get_isSome_wideBuiltin (s : WideBuiltin BuiltinT WidthT) {i : Nat} (h : i < WidthT) :
    ∃ v, s.get i = some v :=
  s.data.read_isSome h

end WideBuiltin

namespace WideVec4

variable {WidthT : Nat}

theorem set_spec_wideVec4 (s : WideVec4 WidthT) {i : Nat} (v : Vec4) (h : i < WidthT) :
    ∃ r, s.set i v = some r ∧ ∀ j, r.get j = if j = i then some v else s.get j := by
  obtain ⟨x1, hwx, hrx⟩ := s.x.write_spec v.x h
  obtain ⟨y1, hwy, hry⟩ := s.y.write_spec v.y h
  obtain ⟨z1, hwz, hrz⟩ := s.z.write_spec v.z h
  obtain ⟨w1, hww, hrw⟩ := s.w.write_spec v.w h
  refine ⟨⟨x1, y1, z1, w1⟩, ?_, ?_⟩
  · simp [set, hwx, hwy, hwz, hww]
  · intro j
    unfold get
    simp only [hrx j, hry j, hrz j, hrw j]
    by_cases hj : j = i
    · simp [hj]
    · simp [hj]

end WideVec4

namespace WideVec3

variable {WidthT : Nat}

theorem set_spec_wideVec3 (s : WideVec3 WidthT) {i : Nat} (v : Vec3) (h : i < WidthT) :
    ∃ r, s.set i v = some r ∧ ∀ j, r.get j = if j = i then some v else s.get j := by
  obtain ⟨x1, hwx, hrx⟩ := s.x.write_spec v.x h
  obtain ⟨y1, hwy, hry⟩ := s.y.write_spec v.y h
  obtain ⟨z1, hwz, hrz⟩ := s.z.write_spec v.z h
  refine ⟨⟨x1, y1, z1⟩, ?_, ?_⟩
  · simp [set, hwx, hwy, hwz]
  · intro j
    unfold get
    simp only [hrx j, hry j, hrz j]
    by_cases hj : j = i
    · simp [hj]
    · simp [hj]

end WideVec3

namespace WideVec2

variable {WidthT : Nat}

theorem set_spec_wideVec2 (s : WideVec2 WidthT) {i : Nat} (v : Vec2) (h : i < WidthT) :
    ∃ r, s.set i v = some r ∧ ∀ j, r.get j = if j = i then some v else s.get j := by
  obtain ⟨x1, hwx, hrx⟩ := s.x.write_spec v.x h
  obtain ⟨y1, hwy, hry⟩ := s.y.write_spec v.y h
  refine ⟨⟨x1, y1⟩, ?_, ?_⟩
  · simp [set, hwx, hwy]
  · intro j
    unfold get
    simp only [hrx j, hry j]
    by_cases hj : j = i
    · simp [hj]
    · simp [hj]

end WideVec2

namespace WideColor3

variable {WidthT : Nat}

theorem set_spec_wideColor3 (s : WideColor3 WidthT) {i : Nat} (v : Color3) (h : i < WidthT) :
    ∃ r, s.set i v = some r ∧ ∀ j, r.get j = if j = i then some v else s.get j := by
  obtain ⟨x1, hwx, hrx⟩ := s.x.write_spec v.x h
  obtain ⟨y1, hwy, hry⟩ := s.y.write_spec v.y h
  obtain ⟨z1, hwz, hrz⟩ := s.z.write_spec v.z h
  refine ⟨⟨x1, y1, z1⟩, ?_, ?_⟩
  · simp [set, hwx, hwy, hwz]
  · intro j
    unfold get
    simp only [hrx j, hry j, hrz j]
    by_cases hj : j = i
    · simp [hj]
    · simp [hj]

end WideColor3

namespace WideMatrix44

variable {WidthT : Nat}

theorem set_spec_wideMatrix44 (s : WideMatrix44 WidthT) {i : Nat} (v : Matrix44) (h : i < WidthT) :
    ∃ r, s.set i v = some r ∧ ∀ j, r.get j = if j = i then some v else s.get j := by
  obtain ⟨x001, hwx00, hrx00⟩ := s.x00.set_spec_wideBuiltin v.x00 h
  obtain ⟨x011, hwx01, hrx01⟩ := s.x01.set_spec_wideBuiltin v.x01 h
  obtain ⟨x021, hwx02, hrx02⟩ := s.x02.set_spec_wideBuiltin v.x02 h
  obtain ⟨x031, hwx03, hrx03⟩ := s.x03.set_spec_wideBuiltin v.x03 h
  obtain ⟨x101, hwx10, hrx10⟩ := s.x10.set_spec_wideBuiltin v.x10 h
  obtain ⟨x111, hwx11, hrx11⟩ := s.x11.set_spec_wideBuiltin v.x11 h
  obtain ⟨x121, hwx12, hrx12⟩ := s.x12.set_spec_wideBuiltin v.x12 h
  obtain ⟨x131, hwx13, hrx13⟩ := s.x13.set_spec_wideBuiltin v.x13 h
  obtain ⟨x201, hwx20, hrx20⟩ := s.x20.set_spec_wideBuiltin v.x20 h
  obtain ⟨x211, hwx21, hrx21⟩ := s.x21.set_spec_wideBuiltin v.x21 h
  obtain ⟨x221, hwx22, hrx22⟩ := s.x22.set_spec_wideBuiltin v.x22 h
  obtain ⟨x231, hwx23, hrx23⟩ := s.x23.set_spec_wideBuiltin v.x23 h
  obtain ⟨x301, hwx30, hrx30⟩ := s.x30.set_spec_wideBuiltin v.x30 h
  obtain ⟨x311, hwx31, hrx31⟩ := s.x31.set_spec_wideBuiltin v.x31 h
  obtain ⟨x321, hwx32, hrx32⟩ := s.x32.set_spec_wideBuiltin v.x32 h
  obtain ⟨x331, hwx33, hrx33⟩ := s.x33.set_spec_wideBuiltin v.x33 h
  refine ⟨⟨x001, x011, x021, x031, x101, x111, x121, x131, x201, x211, x221, x231, x301, x311, x321, x331⟩, ?_, ?_⟩
  · simp [set, hwx00, hwx01, hwx02, hwx03, hwx10, hwx11, hwx12, hwx13, hwx20, hwx21, hwx22, hwx23, hwx30, hwx31, hwx32, hwx33]
  · intro j
    unfold get
    simp only [hrx00 j, hrx01 j, hrx02 j, hrx03 j, hrx10 j, hrx11 j, hrx12 j, hrx13 j, hrx20 j, hrx21 j, hrx22 j, hrx23 j, hrx30 j, hrx31 j, hrx32 j, hrx33 j]
    by_cases hj : j = i
    · simp [hj]
    · simp [hj]

end WideMatrix44

namespace WideUstring

variable {WidthT : Nat}

theorem set_spec_wideUstring (s : WideUstring WidthT) {i : Nat} (v : ustring) (h : i < WidthT) :
    ∃ r, s.set i v = some r ∧ ∀ j, r.get j = if j = i then some v else s.get j := by
  obtain ⟨b, hb, hr⟩ := s.str.write_spec v h
  refine ⟨⟨b⟩, ?_, hr⟩
  simp [set, hb]

end WideUstring

namespace WideDual2Float

variable {WidthT : Nat}

theorem set_spec_wideDual2Float (s : WideDual2Float WidthT) {i : Nat} (v : Dual2 float) (h : i < WidthT) :
    ∃ r, s.set i v = some r ∧ ∀ j, r.get j = if j = i then some v else s.get j := by
  obtain ⟨x1, hwx, hrx⟩ := s.x.write_spec v.val h
  obtain ⟨dx1, hwdx, hrdx⟩ := s.dx.write_spec v.dx h
  obtain ⟨dy1, hwdy, hrdy⟩ := s.dy.write_spec v.dy h
  refine ⟨⟨x1, dx1, dy1⟩, ?_, ?_⟩
  · simp [set, hwx, hwdx, hwdy]
  · intro j
    unfold get
    simp only [hrx j, hrdx j, hrdy j]
    by_cases hj : j = i
    · simp [hj]
    · simp [hj]

end WideDual2Float

namespace WideDual2Vec3

variable {WidthT : Nat}

theorem set_spec_wideDual2Vec3 (s : WideDual2Vec3 WidthT) {i : Nat} (v : Dual2 Vec3) (h : i < SimdLaneCount) :
    ∃ r, s.set i v = some r ∧ ∀ j, r.get j = if j = i then some v else s.get j := by
  obtain ⟨x1, hwx, hrx⟩ := s.x.set_spec_wideVec3 v.val h
  obtain ⟨dx1, hwdx, hrdx⟩ := s.dx.set_spec_wideVec3 v.dx h
  obtain ⟨dy1, hwdy, hrdy⟩ := s.dy.set_spec_wideVec3 v.dy h
  refine ⟨⟨x1, dx1, dy1⟩, ?_, ?_⟩
  · simp [set, hwx, hwdx, hwdy]
  · intro j
    unfold get
    simp only [hrx j, hrdx j, hrdy j]
    by_cases hj : j = i
    · simp [hj]
    · simp [hj]

end WideDual2Vec3

/-! ## Lemmas on wide storage: `blendin` -/

namespace WideBuiltin

variable {BuiltinT : Type} {WidthT : Nat}

theorem blendin_spec_wideBuiltin (s : WideBuiltin BuiltinT WidthT) (mask : WideMask WidthT)
    (other : WideBuiltin BuiltinT WidthT) :
    ∃ r, s.blendin mask other = some r ∧
      ∀ j, r.get j = if j < WidthT ∧ mask.subscript j = true then other.get j else s.get j := by
  refine forLanes_guarded WidthT get
    (fun i acc => do
      let v ← other.get i
      let data ← acc.data.write i v
      pure ⟨data⟩)
    (fun i => other.get i) mask.subscript ?_ s WidthT (Nat.le_refl _)
  intro i acc hi
  obtain ⟨v, hv⟩ := other.get_isSome_wideBuiltin hi
  obtain ⟨r, hr, hget⟩ := acc.set_spec_wideBuiltin v hi
  refine ⟨r, ?_, ?_⟩
  · rw [← hr]
    simp [hv, set]
  · intro j
    show r.get j = if j = i then other.get i else acc.get j
    rw [hget j, hv]

theorem blendin_all_off_wideBuiltin (s other : WideBuiltin BuiltinT WidthT) (hW : WidthT ≤ 32) :
    s.blendin (WideMask.fromBool false) other = some s :=
  forLanes_skip _ (WideMask.fromBool false : WideMask WidthT).subscript s WidthT
    (fun _ hi => WideMask.subscript_fromBool_false (Nat.lt_of_lt_of_le hi hW))

theorem blendinValue_spec_wideBuiltin (s : WideBuiltin BuiltinT WidthT) (mask : WideMask WidthT)
    (v : BuiltinT) :
    ∃ r, s.blendinValue mask v = some r ∧
      ∀ j, r.get j = if j < WidthT ∧ mask.subscript j = true then some v else s.get j :=
  forLanes_guarded WidthT get (fun i acc => acc.set i v) (fun _ => some v) mask.subscript
    (fun _ acc hi => acc.set_spec_wideBuiltin v hi) s WidthT (Nat.le_refl _)

end WideBuiltin

namespace WideVec4

variable {WidthT : Nat}

theorem blendinValue_spec_wideVec4 (s : WideVec4 WidthT) (mask : WideMask WidthT) (v : Vec4) :
    ∃ r, s.blendinValue mask v = some r ∧
      ∀ j, r.get j = if j < WidthT ∧ mask.subscript j = true then some v else s.get j :=
  forLanes_guarded WidthT get (fun i acc => acc.set i v) (fun _ => some v) mask.subscript
    (fun _ acc hi => acc.set_spec_wideVec4 v hi) s WidthT (Nat.le_refl _)

end WideVec4

namespace WideVec3

variable {WidthT : Nat}

theorem blendinValue_spec_wideVec3 (s : WideVec3 WidthT) (mask : WideMask WidthT) (v : Vec3) :
    ∃ r, s.blendinValue mask v = some r ∧
      ∀ j, r.get j = if j < WidthT ∧ mask.subscript j = true then some v else s.get j :=
  forLanes_guarded WidthT get (fun i acc => acc.set i v) (fun _ => some v) mask.subscript
    (fun _ acc hi => acc.set_spec_wideVec3 v hi) s WidthT (Nat.le_refl _)

end WideVec3

namespace WideVec2

variable {WidthT : Nat}

theorem blendinValue_spec_wideVec2 (s : WideVec2 WidthT) (mask : WideMask WidthT) (v : Vec2) :
    ∃ r, s.blendinValue mask v = some r ∧
      ∀ j, r.get j = if j < WidthT ∧ mask.subscript j = true then some v else s.get j :=
  forLanes_guarded WidthT get (fun i acc => acc.set i v) (fun _ => some v) mask.subscript
    (fun _ acc hi => acc.set_spec_wideVec2 v hi) s WidthT (Nat.le_refl _)

end WideVec2

namespace WideColor3

variable {WidthT : Nat}

theorem blendinValue_spec_wideColor3 (s : WideColor3 WidthT) (mask : WideMask WidthT) (v : Color3) :
    ∃ r, s.blendinValue mask v = some r ∧
      ∀ j, r.get j = if j < WidthT ∧ mask.subscript j = true then some v else s.get j :=
  forLanes_guarded WidthT get (fun i acc => acc.set i v) (fun _ => some v) mask.subscript
    (fun _ acc hi => acc.set_spec_wideColor3 v hi) s WidthT (Nat.le_refl _)

end WideColor3

namespace WideMatrix44

variable {WidthT : Nat}

theorem blendinValue_spec_wideMatrix44 (s : WideMatrix44 WidthT) (mask : WideMask WidthT) (v : Matrix44) :
    ∃ r, s.blendinValue mask v = some r ∧
      ∀ j, r.get j = if j < WidthT ∧ mask.subscript j = true then some v else s.get j :=
  forLanes_guarded WidthT get (fun i acc => acc.set i v) (fun _ => some v) mask.subscript
    (fun _ acc hi => acc.set_spec_wideMatrix44 v hi) s WidthT (Nat.le_refl _)

end WideMatrix44

/-! ## Lemmas on single-lane mask updates and on counting lanes -/

namespace WideMask
variable {WidthT : Nat}

theorem testBit_shl1_of_lt {lane : Nat} (h : lane < 32) (k : Nat) :
    (shl1 lane).testBit k = decide (lane = k) := by
  rw [shl1_eq h, Nat.testBit_two_pow]

theorem testBit_set_on (m : WideMask WidthT) {lane : Nat} (h : lane < 32) {j : Nat}
    (hj : j < 32) :
    (m.set_on lane).m_value.testBit j = (m.m_value.testBit j || decide (lane = j)) := by
  unfold set_on
  rw [testBit_ofUInt32, Nat.testBit_or, testBit_shl1_of_lt h]
  simp [hj]

theorem testBit_set_off (m : WideMask WidthT) {lane : Nat} (h : lane < 32) {j : Nat}
    (hj : j < 32) :
    (m.set_off lane).m_value.testBit j = (m.m_value.testBit j && !decide (lane = j)) := by
  unfold set_off
  rw [testBit_ofUInt32, Nat.testBit_and, testBit_bitNot32, testBit_shl1_of_lt h]
  simp [hj]

theorem set_true_eq_set_on (m : WideMask WidthT) (lane : Nat) :
    m.set lane true = m.set_on lane := by
  simp [set, set_on]

theorem set_false_eq_set_off (m : WideMask WidthT) (lane : Nat) :
    m.set lane false = m.set_off lane := by
  simp [set, set_off]

end WideMask

theorem popcount_eq_countP (n v : Nat) :
    popcount n v = (List.range n).countP (fun i => v.testBit i) := by
  induction n generalizing v with
  | zero => rfl
  | succ n ih =>
    rw [List.range_succ_eq_map, List.countP_cons, List.countP_map]
    show v % 2 + popcount n (v / 2) = _
    rw [ih (v / 2)]
    have h1 : ((fun i => v.testBit i) ∘ Nat.succ) = fun i => (v / 2).testBit i := by
      funext i
      simp [Function.comp, Nat.testBit_succ]
    rw [h1, Nat.testBit_zero]
    rcases Nat.mod_two_eq_zero_or_one v with h | h
    · simp [h]
    · simp [h, Nat.add_comm]

/-- The body of the loop of `count()`, `m &= m-1`, iterated: on a 32-bit value it
reaches zero after exactly `popcount 32 v` rounds and not before. -/
theorem iterate_clear_lowest (n : Nat) :
    ∀ v, v < 2 ^ n →
      (fun x => x &&& (x - 1))^[popcount n v] v = 0 ∧
      ∀ k, k < popcount n v → (fun x => x &&& (x - 1))^[k] v ≠ 0 := by
  intro v
  induction v using Nat.strong_induction_on with
  | _ v ih =>
    intro h
    by_cases hv : v = 0
    · subst hv
      rw [popcount_zero]
      exact ⟨rfl, fun k hk => absurd hk (Nat.not_lt_zero k)⟩
    · have hle : v &&& (v - 1) ≤ v - 1 := Nat.and_le_right
      have hlt : v &&& (v - 1) < v := by omega
      obtain ⟨h0, hk⟩ := ih _ hlt (lt_trans hlt h)
      rw [← popcount_clear_lowest h hv]
      refine ⟨?_, ?_⟩
      · rw [Function.iterate_succ_apply]
        exact h0
      · intro k hklt
        cases k with
        | zero => exact hv
        | succ j =>
          rw [Function.iterate_succ_apply]
          exact hk j (by omega)

/-! ## Lemmas on the type-erasure bridge -/

namespace MaskedData

variable {WidthT : Nat}

theorem is_plain (v : MaskedData WidthT) (E : ElemType) :
    v.is (.plain E) = (v.m_type.arraylen == 0 && WideTraits.matches E v.m_type) := rfl

theorem is_unbounded_array (v : MaskedData WidthT) (E : ElemType) :
    v.is (.array E 0) = (v.m_type.arraylen != 0 && WideTraits.matches E v.m_type) := rfl

/-- What the code computes for a fixed array `E[N]`, `N > 0`: the extent compared
with the array length is the extent of the element type, which is 0. -/
theorem is_fixed_array (v : MaskedData WidthT) (E : ElemType) (N : Nat) :
    v.is (.array E (N + 1)) = (v.m_type.arraylen == 0 && WideTraits.matches E v.m_type) := rfl

theorem masked_impl_eq_none (v : MaskedData WidthT) (DataT : StaticType) (k : Int) :
    v.masked_impl DataT k DataT.is_array = none ↔ v.is DataT = false := by
  cases DataT with
  | plain E =>
    show (if v.is (.plain E) = true then _ else none) = none ↔ _
    cases h : v.is (.plain E) <;> simp
  | array E n =>
    show (if v.is (.array E n) = true then
      v.masked_array_impl (.array E n) k ((StaticType.array E n).extent == 0) else none) = none ↔ _
    cases h : v.is (.array E n)
    · simp
    · cases hb : ((StaticType.array E n).extent == 0) <;>
        simp [masked_array_impl, h]

end MaskedData

namespace DataRef

theorem ref_impl_eq_none (v : DataRef) (DataT : StaticType) (k : Int) :
    v.ref_impl DataT k DataT.is_array = none ↔ v.is DataT = false := by
  cases DataT with
  | plain E =>
    show (if v.is (.plain E) = true then _ else none) = none ↔ _
    cases h : v.is (.plain E) <;> simp
  | array E n =>
    show (if v.is (.array E n) = true then
      v.ref_array_impl (.array E n) k ((StaticType.array E n).extent == 0) else none) = none ↔ _
    cases h : v.is (.array E n)
    · simp
    · cases hb : ((StaticType.array E n).extent == 0) <;>
        simp [ref_array_impl, h]

end DataRef

/-- Two tested logical types that both match one descriptor are equal, or are
`Vec3` and `Color3` on a float 3-vector descriptor with color semantics. -/
theorem matches_tested_unique (d : TypeDesc) (E F : ElemType)
    (hE : E.tested = true) (hF : F.tested = true)
    (h1 : WideTraits.matches E d = true) (h2 : WideTraits.matches F d = true) :
    E = F ∨
    ((d.basetype = TypeDesc.BASETYPE.FLOAT ∧ d.aggregate = TypeDesc.AGGREGATE.VEC3 ∧
        d.vecsemantics = TypeDesc.VECSEMANTICS.COLOR) ∧
      ((E = ElemType.Vec3 ∧ F = ElemType.Color3) ∨
        (E = ElemType.Color3 ∧ F = ElemType.Vec3))) := by
  obtain ⟨b, a, s, n⟩ := d
  cases E <;> cases F <;> simp [ElemType.tested] at hE hF <;>
    simp [WideTraits.matches] at h1 h2 ⊢ <;>
    (try (obtain ⟨rfl, rfl⟩ := h1)) <;> (try (obtain ⟨⟨rfl, rfl⟩, rfl⟩ := h1)) <;>
    simp_all

namespace WideBlock

variable {DataT : Type} [WideSpecialization DataT] {WidthT : Nat}

theorem read_natCast (block : WideBlock DataT WidthT) (ptr p : Nat) :
    block.read ⟨ptr, (p : Int)⟩ = block.get? p := by
  unfold read
  simp

theorem write_natCast (block : WideBlock DataT WidthT) (ptr p : Nat)
    (s : Wide DataT WidthT) (h : p < block.length) :
    block.write ⟨ptr, (p : Int)⟩ s = some (block.set p s) := by
  unfold write
  simp [h]

end WideBlock


/-! ## Lemmas on loops over lanes and arrays -/

/-- A loop whose body succeeds and carries an invariant from `i` to `i + 1`
succeeds, and the invariant holds at its end. -/
theorem forLanes_invariant {S : Type} (body : Nat → S → Option S) (Inv : Nat → S → Prop)
    (n : Nat) (s : S) (h0 : Inv 0 s)
    (hstep : ∀ i acc, i < n → Inv i acc → ∃ acc1, body i acc = some acc1 ∧ Inv (i + 1) acc1) :
    ∃ r, forLanes n body s = some r ∧ Inv n r := by
  induction n with
  | zero => exact ⟨s, rfl, h0⟩
  | succ n ih =>
    obtain ⟨r, hr, hinv⟩ := ih (fun i acc hi => hstep i acc (Nat.lt_succ_of_lt hi))
    obtain ⟨r1, h1, hinv1⟩ := hstep n r (Nat.lt_succ_self n) hinv
    refine ⟨r1, ?_, hinv1⟩
    rw [forLanes_succ, hr]
    exact h1

theorem CArray.eq_of_read_eq {T : Type} {n : Nat} (a b : CArray T n)
    (h : ∀ i, a.read i = b.read i) : a = b := by
  cases a with
  | mk ca =>
    cases b with
    | mk cb =>
      congr
      funext i
      have := h i.val
      unfold CArray.read at this
      rw [dif_pos i.isLt, dif_pos i.isLt] at this
      exact Option.some.inj this

/-- What `set` does to the lanes of a storage of logical type `DataT` declared
with `W` lanes. -/
theorem set_all_lanes {DataT : Type} [WideSpecialization DataT] {W : Nat}
    (h : ∀ (s : Wide DataT W) (i : Nat) (v : DataT), i < W →
      ∃ r, WideSpecialization.set s i v = some r ∧
        ∀ j, WideSpecialization.get r j
          = if j = i then some v else WideSpecialization.get s j)
    (s : Wide DataT W) (v : DataT) :
    ∃ r, forLanes W (fun i acc => WideSpecialization.set acc i v) s = some r ∧
      ∀ j, WideSpecialization.get r j
        = if j < W then some v else WideSpecialization.get s j := by
  have key := forLanes_invariant (fun i acc => WideSpecialization.set acc i v)
    (fun k (acc : Wide DataT W) => ∀ j, WideSpecialization.get acc j
        = if j < k then some v else WideSpecialization.get s j)
    W s (fun j => by simp) (by
      intro i acc hi hinv
      obtain ⟨r, hr, hget⟩ := h acc i v hi
      refine ⟨r, hr, ?_⟩
      intro j
      rw [hget j]
      by_cases hj : j = i
      · subst hj
        simp
      · rw [if_neg hj, hinv j]
        by_cases hlt : j < i
        · rw [if_pos hlt, if_pos (Nat.lt_succ_of_lt hlt)]
        · rw [if_neg hlt, if_neg (by omega)])
  exact key

theorem uniformWrite_of_spec {DataT : Type} [WideSpecialization DataT] {W : Nat}
    (h : ∀ (s : Wide DataT W) (i : Nat) (v : DataT), i < W →
      ∃ r, WideSpecialization.set s i v = some r ∧
        ∀ j, WideSpecialization.get r j
          = if j = i then some v else WideSpecialization.get s j) :
    UniformWrite DataT W := by
  intro s l v
  obtain ⟨r, hr, hget⟩ := set_all_lanes h s v
  exact ⟨r, hr, fun i hi => by rw [hget i, if_pos hi], hr⟩


/-! ## Lemmas on the masked array lane proxy -/

namespace MaskedArrayLaneProxy

variable {ArrayLenT WidthT : Nat} {DataT : Type} [WideSpecialization DataT]

theorem offset_natCast (ref : WideRef) (base : Nat) (h : ref.index = (base : Int))
    (k : Nat) : ref.offset (k : Int) = ⟨ref.ptr, ((base + k : Nat) : Int)⟩ := by
  unfold WideRef.offset
  rw [h]
  simp

/-- The loop of `operator =` over an array that starts at instance `base` of the
memory and lies inside it. -/
theorem assign_loop
    (h : ∀ (s : Wide DataT WidthT) (i : Nat) (v : DataT), i < WidthT →
      ∃ r, WideSpecialization.set s i v = some r ∧
        ∀ j, WideSpecialization.get r j
          = if j = i then some v else WideSpecialization.get s j)
    (block : WideBlock DataT WidthT) (p : MaskedArrayLaneProxy ArrayLenT WidthT)
    (a : CArray DataT ArrayLenT) (base : Nat)
    (hl : p.m_index < WidthT) (hbase : p.m_array_of_wide_data.index = (base : Int))
    (hlen : base + ArrayLenT ≤ block.length) :
    ∃ r : WideBlock DataT WidthT,
      forLanes ArrayLenT (fun i acc =>
        match a.read i with
        | none => none
        | some x =>
          match WideBlock.read acc (p.m_array_of_wide_data.offset i) with
          | none => none
          | some s =>
            match WideSpecialization.set s p.m_index x with
            | none => none
            | some s1 => WideBlock.write acc (p.m_array_of_wide_data.offset i) s1) block
        = some r ∧
      r.length = block.length ∧
      ∀ k, k < ArrayLenT → ∃ s s1, block.get? (base + k) = some s ∧
        r.get? (base + k) = some s1 ∧
        ∀ j, WideSpecialization.get s1 j
          = if j = p.m_index then a.read k else WideSpecialization.get s j := by
  have key := forLanes_invariant (fun i (acc : WideBlock DataT WidthT) =>
        match a.read i with
        | none => none
        | some x =>
          match WideBlock.read acc (p.m_array_of_wide_data.offset i) with
          | none => none
          | some s =>
            match WideSpecialization.set s p.m_index x with
            | none => none
            | some s1 => WideBlock.write acc (p.m_array_of_wide_data.offset i) s1)
    (fun n (acc : WideBlock DataT WidthT) =>
      acc.length = block.length ∧
      (∀ idx, (idx < base ∨ base + n ≤ idx) → acc.get? idx = block.get? idx) ∧
      ∀ k, k < n → ∃ s s1, block.get? (base + k) = some s ∧
        acc.get? (base + k) = some s1 ∧
        ∀ j, WideSpecialization.get s1 j
          = if j = p.m_index then a.read k else WideSpecialization.get s j)
    ArrayLenT block ⟨rfl, fun _ _ => rfl, fun k hk => absurd hk (Nat.not_lt_zero k)⟩ (by
      intro i acc hi hinv
      obtain ⟨hlenacc, hout, hin⟩ := hinv
      have hidx : base + i < block.length := by omega
      have hx : a.read i = some (a.cell ⟨i, hi⟩) := CArray.read_of_lt a hi
      have hs : block.get? (base + i) = some (block.get ⟨base + i, hidx⟩) :=
        List.get?_eq_get hidx
      have hsacc : acc.get? (base + i) = some (block.get ⟨base + i, hidx⟩) := by
        rw [hout (base + i) (Or.inr (Nat.le_refl _))]
        exact hs
      obtain ⟨s1, hset, hget⟩ := h (block.get ⟨base + i, hidx⟩) p.m_index (a.cell ⟨i, hi⟩) hl
      refine ⟨acc.set (base + i) s1, ?_, ?_, ?_, ?_⟩
      · show (match a.read i with
          | none => none
          | some x =>
            match WideBlock.read acc (p.m_array_of_wide_data.offset i) with
            | none => none
            | some s =>
              match WideSpecialization.set s p.m_index x with
              | none => none
              | some s1 => WideBlock.write acc (p.m_array_of_wide_data.offset i) s1) = _
        rw [hx]
        show (match WideBlock.read acc (p.m_array_of_wide_data.offset i) with
            | none => none
            | some s =>
              match WideSpecialization.set s p.m_index (a.cell ⟨i, hi⟩) with
              | none => none
              | some s1 => WideBlock.write acc (p.m_array_of_wide_data.offset i) s1) = _
        rw [offset_natCast _ base hbase i, WideBlock.read_natCast, hsacc]
        show (match WideSpecialization.set (block.get ⟨base + i, hidx⟩) p.m_index
              (a.cell ⟨i, hi⟩) with
              | none => none
              | some s1 => WideBlock.write acc ⟨p.m_array_of_wide_data.ptr, _⟩ s1) = _
        rw [hset]
        exact WideBlock.write_natCast acc _ (base + i) s1 (by rw [hlenacc]; exact hidx)
      · rw [List.length_set]
        exact hlenacc
      · intro idx hidx2
        have hne : base + i ≠ idx := by omega
        have hk := hout idx (by omega)
        simp only [List.get?_eq_getElem?] at hk ⊢
        rw [List.getElem?_set_ne hne]
        exact hk
      · intro k hk
        by_cases hki : k = i
        · subst hki
          refine ⟨_, s1, hs, ?_, ?_⟩
          · simp only [List.get?_eq_getElem?]
            rw [List.getElem?_set_self (by rw [hlenacc]; exact hidx)]
          · intro j
            rw [hget j, hx]
        · obtain ⟨s, s2, h1, h2, h3⟩ := hin k (by omega)
          refine ⟨s, s2, h1, ?_, h3⟩
          have hne : base + i ≠ base + k := by omega
          simp only [List.get?_eq_getElem?] at h2 ⊢
          rw [List.getElem?_set_ne hne]
          exact h2)
  obtain ⟨r, hr, hlenr, _, hin⟩ := key
  exact ⟨r, hr, hlenr, hin⟩

/-- The loop of `get` over an array whose element `k` holds `a[k]` in lane
`m_index`. -/
theorem get_loop (block : WideBlock DataT WidthT) (p : MaskedArrayLaneProxy ArrayLenT WidthT)
    (a out : CArray DataT ArrayLenT)
    (hr : ∀ k, k < ArrayLenT → ∃ s1, WideBlock.read block (p.m_array_of_wide_data.offset k)
        = some s1 ∧ WideSpecialization.get s1 p.m_index = a.read k) :
    p.get block out = some a := by
  have key := forLanes_invariant (fun i (acc : CArray DataT ArrayLenT) =>
      match WideBlock.read block (p.m_array_of_wide_data.offset i) with
      | none => none
      | some s =>
        match WideSpecialization.get s p.m_index with
        | none => none
        | some x => acc.write i x)
    (fun n (acc : CArray DataT ArrayLenT) =>
      ∀ i, acc.read i = if i < n then a.read i else out.read i)
    ArrayLenT out (fun i => by simp) (by
      intro i acc hi hinv
      obtain ⟨s1, h1, h2⟩ := hr i hi
      obtain ⟨b, hb, hbr⟩ := CArray.write_spec acc (a.cell ⟨i, hi⟩) hi
      refine ⟨b, ?_, ?_⟩
      · show (match WideBlock.read block (p.m_array_of_wide_data.offset i) with
          | none => none
          | some s =>
            match WideSpecialization.get s p.m_index with
            | none => none
            | some x => acc.write i x) = _
        rw [h1]
        show (match WideSpecialization.get s1 p.m_index with
            | none => none
            | some x => acc.write i x) = _
        rw [h2, CArray.read_of_lt a hi]
        exact hb
      · intro j
        rw [hbr j]
        by_cases hj : j = i
        · subst hj
          rw [if_pos rfl, if_pos (Nat.lt_succ_self j), CArray.read_of_lt a hi]
        · rw [if_neg hj, hinv j]
          by_cases hlt : j < i
          · rw [if_pos hlt, if_pos (Nat.lt_succ_of_lt hlt)]
          · rw [if_neg hlt, if_neg (by omega)])
  obtain ⟨r, hrr, hinv⟩ := key
  have hra : r = a := by
    apply CArray.eq_of_read_eq
    intro i
    rw [hinv i]
    by_cases hi : i < ArrayLenT
    · rw [if_pos hi]
    · rw [if_neg hi]
      unfold CArray.read
      rw [dif_neg hi, dif_neg hi]
  rw [← hra]
  exact hrr

end MaskedArrayLaneProxy

theorem maskedArrayWrite_of_spec {DataT : Type} [WideSpecialization DataT] {N W : Nat}
    (hW : W ≤ 32)
    (h : ∀ (s : Wide DataT W) (i : Nat) (v : DataT), i < W →
      ∃ r, WideSpecialization.set s i v = some r ∧
        ∀ j, WideSpecialization.get r j
          = if j = i then some v else WideSpecialization.get s j) :
    MaskedArrayWrite DataT N W := by
  intro block p a hl h0 hlen
  have hl32 : p.m_index < 32 := Nat.lt_of_lt_of_le hl hW
  obtain ⟨base, hbase⟩ := Int.eq_ofNat_of_zero_le h0
  have hb : p.m_array_of_wide_data.index.toNat = base := by rw [hbase]; simp
  rw [hb] at hlen
  constructor
  · intro hon
    obtain ⟨r, hr, _, hin⟩ := MaskedArrayLaneProxy.assign_loop h block p a base hl hbase hlen
    have hsub : p.m_mask.subscript p.m_index = true := by
      rw [WideMask.subscript_eq_is_on]; exact hon
    refine ⟨r, ?_, ?_, ?_⟩
    · unfold MaskedArrayLaneProxy.assign
      rw [if_pos hsub]
      exact hr
    · intro k hk
      obtain ⟨s, s1, h1, h2, h3⟩ := hin k hk
      refine ⟨s, s1, ?_, ?_, ?_, ?_⟩
      · unfold MaskedArrayLaneProxy.element
        rw [MaskedArrayLaneProxy.offset_natCast _ base hbase k, WideBlock.read_natCast]
        exact h1
      · unfold MaskedArrayLaneProxy.element
        rw [MaskedArrayLaneProxy.offset_natCast _ base hbase k, WideBlock.read_natCast]
        exact h2
      · rw [h3 p.m_index, if_pos rfl]
      · intro j hj
        rw [h3 j, if_neg hj]
    · intro out
      apply MaskedArrayLaneProxy.get_loop
      intro k hk
      obtain ⟨s, s1, h1, h2, h3⟩ := hin k hk
      refine ⟨s1, ?_, ?_⟩
      · rw [MaskedArrayLaneProxy.offset_natCast _ base hbase k, WideBlock.read_natCast]
        exact h2
      · rw [h3 p.m_index, if_pos rfl]
  · intro hoff
    have hno : p.m_mask.subscript p.m_index = false := by
      rw [WideMask.subscript_eq_is_on]
      exact WideMask.is_on_false_of_is_off p.m_mask hl32 hoff
    unfold MaskedArrayLaneProxy.assign
    rw [hno]
    rfl


/-! ## Lemmas on the variadic constructor -/

namespace internal

end internal

theorem BatchedTextureOutputs.result_is_plain (o : BatchedTextureOutputs) (E : ElemType) :
    o.result.is (.plain E)
      = (o.m_resultType.arraylen == 0 && WideTraits.matches E o.m_resultType) := rfl


/-! ## Lemmas on the option unpacker -/

theorem WideColor3.get_isSome_wideColor3 {WidthT : Nat} (s : WideColor3 WidthT) {i : Nat}
    (h : i < WidthT) : ∃ v, s.get i = some v := by
  unfold WideColor3.get
  rw [CArray.read_of_lt _ h, CArray.read_of_lt _ h, CArray.read_of_lt _ h]
  exact ⟨_, rfl⟩

theorem WideUstring.get_isSome_wideUstring {WidthT : Nat} (s : WideUstring WidthT) {i : Nat}
    (h : i < WidthT) : ∃ v, s.get i = some v :=
  s.str.read_isSome h

namespace BatchedTextureOptionProvider

theorem same_refl (f : Field) (a : TextureOpt) : f.same a a := by
  cases f <;> exact rfl

theorem same_trans (f : Field) (a b c : TextureOpt) (h1 : f.same a b) (h2 : f.same b c) :
    f.same a c := by
  cases f <;> exact Eq.trans h1 h2

theorem keptOutside_refl (T : Nat → Bool) (a : TextureOpt) : keptOutside T a a :=
  fun f _ => same_refl f a

theorem keptOutside_trans (T1 T2 T : Nat → Bool) (a b c : TextureOpt)
    (h1 : keptOutside T1 a b) (h2 : keptOutside T2 b c)
    (hT1 : ∀ k, T k = false → T1 k = false) (hT2 : ∀ k, T k = false → T2 k = false) :
    keptOutside T a c :=
  fun f hf => same_trans f a b c (h1 f (fun k hk => hT1 k (hf k hk)))
    (h2 f (fun k hk => hT2 k (hf k hk)))

theorem keptOutside_of_not_owner (i : Nat) (a b : TextureOpt)
    (h : ∀ f : Field, i ∉ f.owners → f.same a b) : keptOutside (fun k => k == i) a b := by
  intro f hf
  apply h
  intro hmem
  have := hf i hmem
  simp at this

theorem cursorAt_succ (m_opt : OptionData) (a : Nat) :
    cursorAt m_opt (a + 1) = cursorAt m_opt a + (if m_opt.active.is_on a = true then 1 else 0) := by
  unfold cursorAt
  rw [List.range_succ, List.countP_append]
  by_cases h : m_opt.active.is_on a = true
  · simp [h]
  · simp [h]

theorem cursorAt_le (m_opt : OptionData) (a : Nat) : cursorAt m_opt a ≤ a := by
  unfold cursorAt
  calc (List.range a).countP _ ≤ (List.range a).length := List.countP_le_length _
    _ = a := List.length_range a

theorem denseReads_succ (m_opt : OptionData) (a : Nat) :
    denseReads m_opt (a + 1) = denseReads m_opt a
      ++ (if m_opt.active.is_on a = true then [(a, cursorAt m_opt a)] else []) := by
  unfold denseReads
  rw [List.range_succ, List.filter_append, List.map_append]
  by_cases h : m_opt.active.is_on a = true
  · simp [h]
  · simp [h]

theorem numericField_kept (T : Nat → Bool) (x y : TextureOpt) (hk : keptOutside T x y)
    (i : Nat) (hT : T i = false) (field : TextureOpt → float)
    (hf : numericField i = some field) : field x = field y := by
  have own : ∀ f : Field, f.owners = [i] → f.same x y := by
    intro f hfo
    apply hk f
    intro k hkm
    rw [hfo] at hkm
    rw [List.mem_singleton.mp hkm]
    exact hT
  unfold numericField at hf
  split at hf
  · cases hf; exact own Field.swidth rfl
  · cases hf; exact own Field.twidth rfl
  · cases hf; exact own Field.rwidth rfl
  · cases hf; exact own Field.sblur rfl
  · cases hf; exact own Field.tblur rfl
  · cases hf; exact own Field.rblur rfl
  · cases hf; exact own Field.fill rfl
  · cases hf; exact own Field.time rfl
  · cases hf

theorem optionCaseValue_isSome (decls : TextureDecls) (m_opt : OptionData) {l : Nat}
    (hl : l < SimdLaneCount) (i : Nat) (p : OptionPointee) :
    ∃ x, optionCaseValue decls m_opt l i p = some x := by
  unfold optionCaseValue
  obtain ⟨a, ha⟩ := WideBuiltin.get_isSome_wideBuiltin p.asWideInt hl
  obtain ⟨b, hb⟩ := WideBuiltin.get_isSome_wideBuiltin p.asWideFloat hl
  have ha2 : ((ConstWideAccessor.mk p.asWideInt).subscript l).toData = some a := ha
  have hb2 : ((ConstWideAccessor.mk p.asWideFloat).subscript l).toData = some b := hb
  rw [ha2, hb2]
  split
  · split
    · exact ⟨_, rfl⟩
    · exact ⟨_, rfl⟩
  · split
    · exact ⟨_, rfl⟩
    · exact ⟨_, rfl⟩

theorem optionCaseDecodeValue_isSome {EnumT : Type} (m_opt : OptionData) {l : Nat}
    (hl : l < SimdLaneCount) (i : Nat) (decode : ustring → EnumT) (typeCast : int → EnumT)
    (p : OptionPointee) :
    ∃ x, optionCaseDecodeValue m_opt l i decode typeCast p = some x := by
  unfold optionCaseDecodeValue
  obtain ⟨a, ha⟩ := WideBuiltin.get_isSome_wideBuiltin p.asWideInt hl
  obtain ⟨b, hb⟩ := WideUstring.get_isSome_wideUstring p.asWideUstring hl
  have ha2 : ((ConstWideAccessor.mk p.asWideInt).subscript l).toData = some a := ha
  have hb2 : ((ConstWideAccessor.mk p.asWideUstring).subscript l).toData = some b := hb
  rw [ha2, hb2]
  split
  · split
    · exact ⟨_, rfl⟩
    · exact ⟨_, rfl⟩
  · split
    · exact ⟨_, rfl⟩
    · exact ⟨_, rfl⟩

/-- The body of `OPTION_CASE(i, optName)` meets `BodySpec`. -/
theorem bodySpec_optionCase (decls : TextureDecls) (m_opt : OptionData) {l : Nat}
    (hl : l < SimdLaneCount) (i : Nat) (optName : TextureOpt → float → TextureOpt)
    (hkept : ∀ opt x, ∀ f : Field, i ∉ f.owners → f.same opt (optName opt x))
    (hfield : ∀ field, numericField i = some field → ∀ opt x, field (optName opt x) = x)
    (h13 : i ≠ INTERP) :
    BodySpec decls m_opt l i (fun p opt mc =>
      (optionCaseValue decls m_opt l i p).map (fun x => (optName opt x, mc))) := by
  intro p opt mc
  obtain ⟨x, hx⟩ := optionCaseValue_isSome decls m_opt hl i p
  refine ⟨(optName opt x, mc), ?_, ?_, ?_, ?_⟩
  · show (optionCaseValue decls m_opt l i p).map (fun x => (optName opt x, mc)) = _
    rw [hx]
    rfl
  · exact keptOutside_of_not_owner i _ _ (hkept opt x)
  · intro field hf
    rw [hx]
    exact congrArg some (hfield field hf opt x)
  · intro e
    exact absurd e h13

/-- The body of `OPTION_CASE_DECODE` for a wrap option meets `BodySpec`. -/
theorem bodySpec_optionCaseDecode_wrap (decls : TextureDecls) (m_opt : OptionData) {l : Nat}
    (hl : l < SimdLaneCount) (i : Nat)
    (optName : TextureOpt → TextureOpt.Wrap → TextureOpt)
    (hkept : ∀ opt x, ∀ f : Field, i ∉ f.owners → f.same opt (optName opt x))
    (hnum : numericField i = none) (h13 : i ≠ INTERP) :
    BodySpec decls m_opt l i (fun p opt mc =>
      (optionCaseDecodeValue m_opt l i decls.decode_wrapmode TextureOpt.Wrap.mk p).map
        (fun x => (optName opt x, mc))) := by
  intro p opt mc
  obtain ⟨x, hx⟩ := optionCaseDecodeValue_isSome m_opt hl i decls.decode_wrapmode
    TextureOpt.Wrap.mk p
  refine ⟨(optName opt x, mc), ?_, ?_, ?_, ?_⟩
  · show (optionCaseDecodeValue m_opt l i decls.decode_wrapmode TextureOpt.Wrap.mk p).map
      (fun x => (optName opt x, mc)) = _
    rw [hx]
    rfl
  · exact keptOutside_of_not_owner i _ _ (hkept opt x)
  · intro field hf
    rw [hnum] at hf
    cases hf
  · intro e
    exact absurd e h13

theorem bodySpec_interp (decls : TextureDecls) (m_opt : OptionData) {l : Nat}
    (hl : l < SimdLaneCount) :
    BodySpec decls m_opt l INTERP (fun p opt mc =>
      (optionCaseDecodeValue m_opt l INTERP (texInterpToCode decls)
        TextureOpt.InterpMode.mk p).map
        (fun x => ({ opt with interpmode := x }, mc))) := by
  intro p opt mc
  obtain ⟨x, hx⟩ := optionCaseDecodeValue_isSome m_opt hl INTERP (texInterpToCode decls)
    TextureOpt.InterpMode.mk p
  refine ⟨({ opt with interpmode := x }, mc), ?_, ?_, ?_, ?_⟩
  · show (optionCaseDecodeValue m_opt l INTERP (texInterpToCode decls)
      TextureOpt.InterpMode.mk p).map (fun x => ({ opt with interpmode := x }, mc)) = _
    rw [hx]
    rfl
  · apply keptOutside_of_not_owner
    intro f hf
    cases f <;> first | rfl | exact absurd (by decide) hf
  · intro field hf
    cases hf
  · intro _
    rw [hx]

theorem bodySpec_of_kept (decls : TextureDecls) (m_opt : OptionData) (l i : Nat)
    (body : OptionPointee → TextureOpt → CArray float 4 →
      Option (TextureOpt × CArray float 4))
    (h : ∀ p opt mc, ∃ r, body p opt mc = some r ∧
      ∀ f : Field, i ∉ f.owners → f.same opt r.1)
    (hnum : numericField i = none) (h13 : i ≠ INTERP) :
    BodySpec decls m_opt l i body := by
  intro p opt mc
  obtain ⟨r, hr, hk⟩ := h p opt mc
  refine ⟨r, hr, keptOutside_of_not_owner i _ _ hk, ?_, ?_⟩
  · intro field hf
    rw [hnum] at hf
    cases hf
  · intro e
    exact absurd e h13

end BatchedTextureOptionProvider


namespace BatchedTextureOptionProvider

theorem bodySpec_firstchannel (decls : TextureDecls) (m_opt : OptionData) {l : Nat}
    (hl : l < SimdLaneCount) :
    BodySpec decls m_opt l FIRSTCHANNEL (fun p opt mc =>
      if m_opt.varying.subscript FIRSTCHANNEL then
        (((ConstWideAccessor.mk p.asWideInt).subscript l).toData).map
          (fun x => ({ opt with firstchannel := x }, mc))
      else some ({ opt with firstchannel := p.asInt }, mc)) := by
  refine bodySpec_of_kept _ _ _ _ _ ?_ (by rfl) (by decide)
  intro p opt mc
  obtain ⟨a, ha⟩ := WideBuiltin.get_isSome_wideBuiltin p.asWideInt hl
  have ha2 : ((ConstWideAccessor.mk p.asWideInt).subscript l).toData = some a := ha
  by_cases hv : m_opt.varying.subscript FIRSTCHANNEL = true
  · refine ⟨({ opt with firstchannel := a }, mc), ?_, ?_⟩
    · simp only [hv, if_true, ha2]
      rfl
    · intro f hf
      cases f <;> first | rfl | exact absurd (by decide) hf
  · refine ⟨({ opt with firstchannel := p.asInt }, mc), ?_, ?_⟩
    · simp only [hv]
      rfl
    · intro f hf
      cases f <;> first | rfl | exact absurd (by decide) hf

theorem bodySpec_subimage (decls : TextureDecls) (m_opt : OptionData) {l : Nat}
    (hl : l < SimdLaneCount) :
    BodySpec decls m_opt l SUBIMAGE (fun p opt mc =>
      if m_opt.varying.subscript SUBIMAGE then
        if m_opt.type.subscript SUBIMAGE == static_cast_bool STRING then
          (((ConstWideAccessor.mk p.asWideUstring).subscript l).toData).map
            (fun x => ({ opt with subimagename := x }, mc))
        else
          (((ConstWideAccessor.mk p.asWideInt).subscript l).toData).map
            (fun x => ({ opt with subimage := x }, mc))
      else
        if m_opt.type.subscript SUBIMAGE == static_cast_bool STRING then
          some ({ opt with subimagename := p.asUstring }, mc)
        else some ({ opt with subimage := p.asInt }, mc)) := by
  refine bodySpec_of_kept _ _ _ _ _ ?_ (by rfl) (by decide)
  intro p opt mc
  obtain ⟨a, ha⟩ := WideBuiltin.get_isSome_wideBuiltin p.asWideInt hl
  obtain ⟨b, hb⟩ := WideUstring.get_isSome_wideUstring p.asWideUstring hl
  have ha2 : ((ConstWideAccessor.mk p.asWideInt).subscript l).toData = some a := ha
  have hb2 : ((ConstWideAccessor.mk p.asWideUstring).subscript l).toData = some b := hb
  by_cases hv : m_opt.varying.subscript SUBIMAGE = true
  · by_cases ht : (m_opt.type.subscript SUBIMAGE == static_cast_bool STRING) = true
    · refine ⟨({ opt with subimagename := b }, mc), ?_, ?_⟩
      · simp only [hv, ht, if_true, hb2]
        rfl
      · intro f hf
        cases f <;> first | rfl | exact absurd (by decide) hf
    · refine ⟨({ opt with subimage := a }, mc), ?_, ?_⟩
      · simp only [hv, ht, if_true, ha2]
        rfl
      · intro f hf
        cases f <;> first | rfl | exact absurd (by decide) hf
  · by_cases ht : (m_opt.type.subscript SUBIMAGE == static_cast_bool STRING) = true
    · refine ⟨({ opt with subimagename := p.asUstring }, mc), ?_, ?_⟩
      · simp only [hv, ht, if_true]
        rfl
      · intro f hf
        cases f <;> first | rfl | exact absurd (by decide) hf
    · refine ⟨({ opt with subimage := p.asInt }, mc), ?_, ?_⟩
      · simp only [hv, ht]
        rfl
      · intro f hf
        cases f <;> first | rfl | exact absurd (by decide) hf

theorem bodySpec_missingcolor (decls : TextureDecls) (m_opt : OptionData) {l : Nat}
    (hl : l < SimdLaneCount) :
    BodySpec decls m_opt l MISSINGCOLOR (fun p opt mc =>
      let missingcolor : Option Color3 :=
        if m_opt.varying.subscript MISSINGCOLOR then
          ((ConstWideAccessor.mk p.asWideColor3).subscript l).toData
        else some p.asColor3
      match missingcolor with
      | none => none
      | some c =>
        match mc.write 0 c.x with
        | none => none
        | some mc0 =>
          match mc0.write 1 c.y with
          | none => none
          | some mc1 =>
            match mc1.write 2 c.z with
            | none => none
            | some mc2 => some ({ opt with missingcolor := FloatPtr.m_missingcolor }, mc2)) := by
  refine bodySpec_of_kept _ _ _ _ _ ?_ (by rfl) (by decide)
  intro p opt mc
  obtain ⟨a, ha⟩ := WideColor3.get_isSome_wideColor3 p.asWideColor3 hl
  have ha2 : ((ConstWideAccessor.mk p.asWideColor3).subscript l).toData = some a := ha
  have hc : ∃ c, (if m_opt.varying.subscript MISSINGCOLOR = true then
      ((ConstWideAccessor.mk p.asWideColor3).subscript l).toData
      else some p.asColor3) = some c := by
    by_cases hv : m_opt.varying.subscript MISSINGCOLOR = true
    · exact ⟨a, by rw [if_pos hv, ha2]⟩
    · exact ⟨_, by rw [if_neg hv]⟩
  obtain ⟨c, hc⟩ := hc
  obtain ⟨mc0, h0, _⟩ := CArray.write_spec mc c.x (by decide : 0 < 4)
  obtain ⟨mc1, h1, _⟩ := CArray.write_spec mc0 c.y (by decide : 1 < 4)
  obtain ⟨mc2, h2, _⟩ := CArray.write_spec mc1 c.z (by decide : 2 < 4)
  refine ⟨({ opt with missingcolor := FloatPtr.m_missingcolor }, mc2), ?_, ?_⟩
  · simp only [hc, h0, h1, h2]
  · intro f hf
    cases f <;> first | rfl | exact absurd (by decide) hf

theorem bodySpec_missingalpha (decls : TextureDecls) (m_opt : OptionData) {l : Nat}
    (hl : l < SimdLaneCount) :
    BodySpec decls m_opt l MISSINGALPHA (fun p opt mc =>
      let alpha : Option float :=
        if m_opt.varying.subscript MISSINGALPHA then
          ((ConstWideAccessor.mk p.asWideFloat).subscript l).toData
        else some p.asFloat
      match alpha with
      | none => none
      | some a =>
        match mc.write 3 a with
        | none => none
        | some mc3 => some ({ opt with missingcolor := FloatPtr.m_missingcolor }, mc3)) := by
  refine bodySpec_of_kept _ _ _ _ _ ?_ (by rfl) (by decide)
  intro p opt mc
  obtain ⟨a, ha⟩ := WideBuiltin.get_isSome_wideBuiltin p.asWideFloat hl
  have ha2 : ((ConstWideAccessor.mk p.asWideFloat).subscript l).toData = some a := ha
  have hc : ∃ c, (if m_opt.varying.subscript MISSINGALPHA = true then
      ((ConstWideAccessor.mk p.asWideFloat).subscript l).toData
      else some p.asFloat) = some c := by
    by_cases hv : m_opt.varying.subscript MISSINGALPHA = true
    · exact ⟨a, by rw [if_pos hv, ha2]⟩
    · exact ⟨_, by rw [if_neg hv]⟩
  obtain ⟨c, hc⟩ := hc
  obtain ⟨mc3, h3, _⟩ := CArray.write_spec mc c (by decide : 3 < 4)
  refine ⟨({ opt with missingcolor := FloatPtr.m_missingcolor }, mc3), ?_, ?_⟩
  · simp only [hc, h3]
  · intro f hf
    cases f <;> first | rfl | exact absurd (by decide) hf

/-- The blocks of `updateOption` are the option blocks of the ids 0 to 15, in
this order. -/
theorem optionBlocks_blocks (decls : TextureDecls) (m_opt : OptionData) {l : Nat}
    (hl : l < SimdLaneCount) :
    Blocks decls m_opt l 0 (optionBlocks decls m_opt l) := by
  unfold optionBlocks
  apply Blocks.cons 0 _ _ (bodySpec_optionCase decls m_opt hl SWIDTH _
    (by intro opt x f hf; cases f <;> first | rfl | exact absurd (by decide) hf)
    (by intro field hf opt x; cases hf; rfl) (by decide))
  apply Blocks.cons 1 _ _ (bodySpec_optionCase decls m_opt hl TWIDTH _
    (by intro opt x f hf; cases f <;> first | rfl | exact absurd (by decide) hf)
    (by intro field hf opt x; cases hf; rfl) (by decide))
  apply Blocks.cons 2 _ _ (bodySpec_optionCase decls m_opt hl RWIDTH _
    (by intro opt x f hf; cases f <;> first | rfl | exact absurd (by decide) hf)
    (by intro field hf opt x; cases hf; rfl) (by decide))
  apply Blocks.cons 3 _ _ (bodySpec_optionCase decls m_opt hl SBLUR _
    (by intro opt x f hf; cases f <;> first | rfl | exact absurd (by decide) hf)
    (by intro field hf opt x; cases hf; rfl) (by decide))
  apply Blocks.cons 4 _ _ (bodySpec_optionCase decls m_opt hl TBLUR _
    (by intro opt x f hf; cases f <;> first | rfl | exact absurd (by decide) hf)
    (by intro field hf opt x; cases hf; rfl) (by decide))
  apply Blocks.cons 5 _ _ (bodySpec_optionCase decls m_opt hl RBLUR _
    (by intro opt x f hf; cases f <;> first | rfl | exact absurd (by decide) hf)
    (by intro field hf opt x; cases hf; rfl) (by decide))
  apply Blocks.cons 6 _ _ (bodySpec_optionCaseDecode_wrap decls m_opt hl SWRAP _
    (by intro opt x f hf; cases f <;> first | rfl | exact absurd (by decide) hf)
    rfl (by decide))
  apply Blocks.cons 7 _ _ (bodySpec_optionCaseDecode_wrap decls m_opt hl TWRAP _
    (by intro opt x f hf; cases f <;> first | rfl | exact absurd (by decide) hf)
    rfl (by decide))
  apply Blocks.cons 8 _ _ (bodySpec_optionCaseDecode_wrap decls m_opt hl RWRAP _
    (by intro opt x f hf; cases f <;> first | rfl | exact absurd (by decide) hf)
    rfl (by decide))
  apply Blocks.cons 9 _ _ (bodySpec_optionCase decls m_opt hl FILL _
    (by intro opt x f hf; cases f <;> first | rfl | exact absurd (by decide) hf)
    (by intro field hf opt x; cases hf; rfl) (by decide))
  apply Blocks.cons 10 _ _ (bodySpec_optionCase decls m_opt hl TIME _
    (by intro opt x f hf; cases f <;> first | rfl | exact absurd (by decide) hf)
    (by intro field hf opt x; cases hf; rfl) (by decide))
  apply Blocks.cons 11 _ _ (bodySpec_firstchannel decls m_opt hl)
  apply Blocks.cons 12 _ _ (bodySpec_subimage decls m_opt hl)
  apply Blocks.cons 13 _ _ (bodySpec_interp decls m_opt hl)
  apply Blocks.cons 14 _ _ (bodySpec_missingcolor decls m_opt hl)
  apply Blocks.cons 15 _ _ (bodySpec_missingalpha decls m_opt hl)
  exact Blocks.nil 16

end BatchedTextureOptionProvider

namespace BatchedTextureOptionProvider

theorem keptOutside_mono (T1 T : Nat → Bool) (a b : TextureOpt) (h : keptOutside T1 a b)
    (hT : ∀ k, T k = false → T1 k = false) : keptOutside T a b :=
  fun f hf => h f (fun k hk => hT k (hf k hk))

/-- One option block, entered with the cursor at the dense cursor of its
option. -/
theorem optionBlock_step (decls : TextureDecls) (m_opt : OptionData) (l a : Nat)
    (body : OptionPointee → TextureOpt → CArray float 4 →
      Option (TextureOpt × CArray float 4))
    (hspec : BodySpec decls m_opt l a body) (ha : a < MAX_OPTIONS) (st : UpdateState)
    (hj : st.j = cursorAt m_opt a) :
    ∃ st1, optionBlock m_opt a body st = some st1 ∧
      st1.j = cursorAt m_opt (a + 1) ∧
      st1.reads = st.reads
        ++ (if m_opt.active.is_on a = true then [(a, cursorAt m_opt a)] else []) ∧
      keptOutside (fun k => m_opt.active.is_on k && (k == a)) st.opt st1.opt ∧
      (m_opt.active.is_on a = true → ∀ p, m_opt.options.read (cursorAt m_opt a) = some p →
        (∀ field, numericField a = some field →
          some (field st1.opt) = optionCaseValue decls m_opt l a p) ∧
        (a = INTERP → some st1.opt.interpmode
          = optionCaseDecodeValue m_opt l INTERP (texInterpToCode decls)
              TextureOpt.InterpMode.mk p)) := by
  by_cases hact : m_opt.active.is_on a = true
  · have hlt : st.j < MAX_OPTIONS := by
      rw [hj]
      exact Nat.lt_of_le_of_lt (cursorAt_le m_opt a) ha
    obtain ⟨p0, hp0⟩ := CArray.read_isSome m_opt.options hlt
    obtain ⟨r, hr, hkept, hnum, hint⟩ := hspec p0 st.opt st.m_missingcolor
    refine ⟨⟨r.1, r.2, st.j + 1, st.reads ++ [(a, st.j)]⟩, ?_, ?_, ?_, ?_, ?_⟩
    · unfold optionBlock
      rw [WideMask.subscript_eq_is_on, if_pos hact]
      simp only [hp0, hr]
    · show st.j + 1 = _
      rw [cursorAt_succ, if_pos hact, hj]
    · show st.reads ++ [(a, st.j)] = _
      rw [if_pos hact, hj]
    · apply keptOutside_mono _ _ _ _ hkept
      intro k hk
      by_cases hka : k = a
      · subst hka
        simp [hact] at hk
      · simp [hka]
    · intro _ p hp
      rw [← hj, hp0] at hp
      cases hp
      exact ⟨hnum, hint⟩
  · refine ⟨st, ?_, ?_, ?_, ?_, ?_⟩
    · unfold optionBlock
      rw [WideMask.subscript_eq_is_on, if_neg hact]
    · rw [cursorAt_succ, if_neg hact, hj]
      rfl
    · rw [if_neg hact]
      simp
    · exact keptOutside_refl _ _
    · intro h
      exact absurd h hact

/-- A run of consecutive option blocks, entered with the cursor at the dense
cursor of the first: it succeeds, leaves the cursor at the dense cursor after
the last, makes the reads the dense cursor prescribes, and keeps every field
that none of the active options among them assigns. -/
theorem run_blocks (decls : TextureDecls) (m_opt : OptionData) (l : Nat) (opt0 : TextureOpt)
    (lo : Nat) (bs : List (UpdateState → Option UpdateState)) (a : Nat)
    (hb : Blocks decls m_opt l a bs) :
    ∀ st : UpdateState, lo ≤ a → a + bs.length ≤ MAX_OPTIONS → st.j = cursorAt m_opt a →
      st.reads = denseReads m_opt a →
      keptOutside (touchedBetween m_opt lo a) opt0 st.opt →
      ∃ st1, bs.foldlM (fun st block => block st) st = some st1 ∧
        st1.j = cursorAt m_opt (a + bs.length) ∧
        st1.reads = denseReads m_opt (a + bs.length) ∧
        keptOutside (touchedBetween m_opt lo (a + bs.length)) opt0 st1.opt := by
  induction hb with
  | nil a =>
    intro st _ _ hj hr hk
    exact ⟨st, rfl, hj, hr, hk⟩
  | cons a body rest hspec _ ih =>
    intro st hlo hlen hj hr hk
    have hlen1 : a + 1 + rest.length ≤ MAX_OPTIONS := by
      simp only [List.length_cons] at hlen
      omega
    have ha : a < MAX_OPTIONS := by
      simp only [List.length_cons] at hlen
      omega
    obtain ⟨st1, h1, hj1, hr1, hk1, _⟩ := optionBlock_step decls m_opt l a body hspec ha st hj
    have hk2 : keptOutside (touchedBetween m_opt lo (a + 1)) opt0 st1.opt := by
      apply keptOutside_trans _ _ _ _ _ _ hk hk1
      · intro k hT
        unfold touchedBetween at hT ⊢
        by_cases hka : k < a
        · have : k < a + 1 := by omega
          simpa [hka, this] using hT
        · simp [hka]
      · intro k hT
        unfold touchedBetween at hT
        by_cases hka : k = a
        · subst hka
          simpa [hlo] using hT
        · simp [hka]
    obtain ⟨st2, h2, hj2, hr2, hkk⟩ := ih st1 (Nat.le_succ_of_le hlo) hlen1 hj1
      (by rw [hr1, hr, denseReads_succ]) hk2
    refine ⟨st2, ?_, ?_, ?_, ?_⟩
    · rw [List.foldlM_cons, h1]
      exact h2
    · rw [hj2]
      simp only [List.length_cons]
      congr 1
      omega
    · rw [hr2]
      simp only [List.length_cons]
      congr 1
      omega
    · have e : a + (optionBlock m_opt a body :: rest).length = a + 1 + rest.length := by
        simp only [List.length_cons]
        omega
      rw [e]
      exact hkk

end BatchedTextureOptionProvider

namespace BatchedTextureOptionProvider

theorem touchedBetween_below (m_opt : OptionData) (lo hi k : Nat) (h : k < lo) :
    touchedBetween m_opt lo hi k = false := by
  unfold touchedBetween
  have : ¬ lo ≤ k := by omega
  simp [this]

theorem touchedBetween_of_off (m_opt : OptionData) (lo hi k : Nat)
    (h : m_opt.active.is_on k = false) : touchedBetween m_opt lo hi k = false := by
  unfold touchedBetween
  simp [h]

/-- The field of an active numeric option and of an active `INTERP` after a run
of consecutive option blocks that contains the block of the option: the value
the macro computes from what is behind the pointer at the dense cursor of the
option. -/
theorem run_blocks_value (decls : TextureDecls) (m_opt : OptionData) (l : Nat)
    (bs : List (UpdateState → Option UpdateState)) (a : Nat)
    (hb : Blocks decls m_opt l a bs) :
    ∀ st : UpdateState, a + bs.length ≤ MAX_OPTIONS → st.j = cursorAt m_opt a →
      st.reads = denseReads m_opt a →
      ∀ i, a ≤ i → i < a + bs.length → m_opt.active.is_on i = true →
      ∀ p, m_opt.options.read (cursorAt m_opt i) = some p →
      ∃ st1, bs.foldlM (fun st block => block st) st = some st1 ∧
        (∀ field, numericField i = some field →
          some (field st1.opt) = optionCaseValue decls m_opt l i p) ∧
        (i = INTERP → some st1.opt.interpmode
          = optionCaseDecodeValue m_opt l INTERP (texInterpToCode decls)
              TextureOpt.InterpMode.mk p) := by
  induction hb with
  | nil a =>
    intro st _ _ _ i hai hi
    simp only [List.length_nil] at hi
    omega
  | cons a body rest hspec hrest ih =>
    intro st hlen hj hr i hai hi hact p hp
    have hlen1 : a + 1 + rest.length ≤ MAX_OPTIONS := by
      simp only [List.length_cons] at hlen
      omega
    have ha : a < MAX_OPTIONS := by
      simp only [List.length_cons] at hlen
      omega
    obtain ⟨st1, h1, hj1, hr1, _, hval⟩ := optionBlock_step decls m_opt l a body hspec ha st hj
    have hr2 : st1.reads = denseReads m_opt (a + 1) := by rw [hr1, hr, denseReads_succ]
    by_cases hia : i = a
    · subst hia
      obtain ⟨hnum, hint⟩ := hval hact p hp
      obtain ⟨st2, h2, _, _, hk⟩ := run_blocks decls m_opt l st1.opt (i + 1) rest (i + 1) hrest
        st1 (Nat.le_refl _) hlen1 hj1 hr2 (keptOutside_refl _ _)
      have hT : touchedBetween m_opt (i + 1) (i + 1 + rest.length) i = false :=
        touchedBetween_below m_opt _ _ i (Nat.lt_succ_self i)
      refine ⟨st2, ?_, ?_, ?_⟩
      · rw [List.foldlM_cons, h1]
        exact h2
      · intro field hf
        rw [← numericField_kept _ _ _ hk i hT field hf]
        exact hnum field hf
      · intro e
        have hs : Field.same Field.interpmode st1.opt st2.opt := by
          apply hk Field.interpmode
          intro k hkm
          have : k = i := by
            rw [e]
            simpa [Field.owners] using hkm
          rw [this]
          exact hT
        have hs2 : st1.opt.interpmode = st2.opt.interpmode := hs
        rw [← hs2]
        exact hint e
    · have hi1 : i < a + 1 + rest.length := by
        simp only [List.length_cons] at hi
        omega
      obtain ⟨st2, h2, hrest2⟩ := ih st1 hlen1 hj1 hr2 i (by omega) hi1 hact p hp
      refine ⟨st2, ?_, hrest2⟩
      rw [List.foldlM_cons, h1]
      exact h2

theorem numericField_lt (i : Nat) (field : TextureOpt → float)
    (h : numericField i = some field) : i < MAX_OPTIONS := by
  unfold numericField at h
  split at h <;> first | (show _ < 16; omega) | cases h

theorem cursorAt_eq_popcount (m_opt : OptionData) (n : Nat) (hn : n ≤ 32) :
    cursorAt m_opt n = popcount n m_opt.active.m_value := by
  unfold cursorAt
  rw [popcount_eq_countP]
  apply List.countP_congr
  intro k hk
  have hk32 : k < 32 := Nat.lt_of_lt_of_le (List.mem_range.mp hk) hn
  rw [WideMask.is_on_eq_testBit _ hk32]

theorem mem_denseReads (m_opt : OptionData) (n i j : Nat) :
    (i, j) ∈ denseReads m_opt n
      ↔ (i < n ∧ m_opt.active.is_on i = true ∧ j = cursorAt m_opt i) := by
  unfold denseReads
  simp only [List.mem_map, List.mem_filter, List.mem_range, Prod.mk.injEq]
  constructor
  · rintro ⟨k, ⟨hk, hon⟩, hki, hj⟩
    subst hki
    exact ⟨hk, hon, hj.symm⟩
  · rintro ⟨hi, hon, hj⟩
    exact ⟨i, ⟨hi, hon⟩, rfl, hj.symm⟩

theorem length_denseReads (m_opt : OptionData) (n : Nat) :
    (denseReads m_opt n).length = cursorAt m_opt n := by
  unfold denseReads cursorAt
  rw [List.length_map, List.countP_eq_length_filter]

theorem texInterpToCode_eq (decls : TextureDecls) (modename : ustring) :
    texInterpToCode decls modename
      = if modename = ⟨"smartcubic"⟩ then decls.InterpSmartBicubic
        else if modename = ⟨"linear"⟩ then decls.InterpBilinear
        else if modename = ⟨"cubic"⟩ then decls.InterpBicubic
        else decls.InterpClosest := by
  unfold texInterpToCode
  simp only []
  split
  · rfl
  · split
    · rfl
    · split
      · rfl
      · split <;> rfl

end BatchedTextureOptionProvider


/-! ## Lemmas on the unpacker of the specification -/

namespace BatchedTextureOptionProvider

/-- The blocks of `updateOption` are the option blocks of the ids 0 to 15 with
the bodies `optionBody`. -/
theorem optionBlocks_eq_map (decls : TextureDecls) (m_opt : OptionData) (l : Nat) :
    optionBlocks decls m_opt l
      = (List.range' 0 16).map (fun i => optionBlock m_opt i (optionBody decls m_opt l i)) :=
  rfl

/-- A run of consecutive option blocks with a running cursor, entered with the
cursor at the dense cursor of the first, computes what the steps of the
specification compute, and fails where they fail. -/
theorem fold_blocks_eq_dense (decls : TextureDecls) (m_opt : OptionData) (l : Nat) :
    ∀ (n a : Nat) (st : UpdateState), st.j = cursorAt m_opt a →
      (((List.range' a n).map
          (fun i => optionBlock m_opt i (optionBody decls m_opt l i))).foldlM
        (fun (st : UpdateState) (block : UpdateState → Option UpdateState) => block st)
        st).map (fun st => (st.opt, st.m_missingcolor))
      = (List.range' a n).foldlM (denseStep decls m_opt l) (st.opt, st.m_missingcolor) := by
  intro n
  induction n with
  | zero =>
    intro a st _
    rfl
  | succ n ih =>
    intro a st hj
    rw [List.range'_succ, List.map_cons, List.foldlM_cons, List.foldlM_cons]
    by_cases hact : m_opt.active.is_on a = true
    · have hb : optionBlock m_opt a (optionBody decls m_opt l a) st
          = match m_opt.options.read st.j with
            | none => none
            | some p =>
              match optionBody decls m_opt l a p st.opt st.m_missingcolor with
              | none => none
              | some r => some ⟨r.1, r.2, st.j + 1, st.reads ++ [(a, st.j)]⟩ := by
        unfold optionBlock
        rw [WideMask.subscript_eq_is_on, if_pos hact]
      have hd : denseStep decls m_opt l (st.opt, st.m_missingcolor) a
          = match m_opt.options.read st.j with
            | none => none
            | some p => optionBody decls m_opt l a p st.opt st.m_missingcolor := by
        unfold denseStep
        rw [if_pos hact, hj]
      rw [hb, hd]
      cases hread : m_opt.options.read st.j with
      | none => rfl
      | some p =>
        dsimp only
        cases hbody : optionBody decls m_opt l a p st.opt st.m_missingcolor with
        | none => rfl
        | some r =>
          have hj1 : (UpdateState.mk r.1 r.2 (st.j + 1) (st.reads ++ [(a, st.j)])).j
              = cursorAt m_opt (a + 1) := by
            show st.j + 1 = _
            rw [cursorAt_succ, if_pos hact, hj]
          exact ih (a + 1) ⟨r.1, r.2, st.j + 1, st.reads ++ [(a, st.j)]⟩ hj1
    · have hb : optionBlock m_opt a (optionBody decls m_opt l a) st = some st := by
        unfold optionBlock
        rw [WideMask.subscript_eq_is_on, if_neg hact]
      have hd : denseStep decls m_opt l (st.opt, st.m_missingcolor) a
          = some (st.opt, st.m_missingcolor) := by
        unfold denseStep
        rw [if_neg hact]
      rw [hb, hd]
      have hj1 : st.j = cursorAt m_opt (a + 1) := by
        rw [cursorAt_succ, if_neg hact, hj]
        rfl
      exact ih (a + 1) st hj1

/-- The blocks of `updateOption`, run from the state after `int j = 0`, compute
what the unpacker of the specification computes. -/
theorem updateOptionBlocks_eq_dense (decls : TextureDecls) (m_opt : OptionData) (l : Nat)
    (opt : TextureOpt) (mc : CArray float 4) :
    (updateOptionBlocks decls m_opt l opt mc).map (fun st => (st.opt, st.m_missingcolor))
      = denseUpdate decls m_opt l opt mc := by
  unfold updateOptionBlocks denseUpdate
  rw [optionBlocks_eq_map, List.range_eq_range']
  exact fold_blocks_eq_dense decls m_opt l 16 0 ⟨opt, mc, 0, []⟩ rfl

end BatchedTextureOptionProvider


/-! ## Lemmas on reads of wide storage -/

theorem WideVec4.get_isSome_wideVec4 {WidthT : Nat} (s : WideVec4 WidthT) {i : Nat}
    (h : i < WidthT) : ∃ v, s.get i = some v := by
  unfold WideVec4.get
  rw [CArray.read_of_lt _ h, CArray.read_of_lt _ h, CArray.read_of_lt _ h,
    CArray.read_of_lt _ h]
  exact ⟨_, rfl⟩

theorem WideVec3.get_isSome_wideVec3 {WidthT : Nat} (s : WideVec3 WidthT) {i : Nat}
    (h : i < WidthT) : ∃ v, s.get i = some v := by
  unfold WideVec3.get
  rw [CArray.read_of_lt _ h, CArray.read_of_lt _ h, CArray.read_of_lt _ h]
  exact ⟨_, rfl⟩

theorem WideVec2.get_isSome_wideVec2 {WidthT : Nat} (s : WideVec2 WidthT) {i : Nat}
    (h : i < WidthT) : ∃ v, s.get i = some v := by
  unfold WideVec2.get
  rw [CArray.read_of_lt _ h, CArray.read_of_lt _ h]
  exact ⟨_, rfl⟩

theorem WideMatrix44.get_isSome_wideMatrix44 {WidthT : Nat} (s : WideMatrix44 WidthT)
    {i : Nat} (h : i < WidthT) : ∃ v, s.get i = some v := by
  have hr : ∀ b : WideBuiltin float WidthT, b.get i = some (b.data.cell ⟨i, h⟩) :=
    fun b => CArray.read_of_lt b.data h
  unfold WideMatrix44.get
  simp only [hr]
  exact ⟨_, rfl⟩

theorem WideDual2Float.get_isSome_wideDual2Float {WidthT : Nat} (s : WideDual2Float WidthT)
    {i : Nat} (h : i < WidthT) : ∃ v, s.get i = some v := by
  unfold WideDual2Float.get
  rw [CArray.read_of_lt _ h, CArray.read_of_lt _ h, CArray.read_of_lt _ h]
  exact ⟨_, rfl⟩

theorem WideDual2Vec3.get_isSome_wideDual2Vec3 {WidthT : Nat} (s : WideDual2Vec3 WidthT)
    {i : Nat} (h : i < SimdLaneCount) : ∃ v, s.get i = some v := by
  obtain ⟨a, ha⟩ := WideVec3.get_isSome_wideVec3 s.x h
  obtain ⟨b, hb⟩ := WideVec3.get_isSome_wideVec3 s.dx h
  obtain ⟨c, hc⟩ := WideVec3.get_isSome_wideVec3 s.dy h
  unfold WideDual2Vec3.get
  rw [ha, hb, hc]
  exact ⟨_, rfl⟩

theorem WideDual2Vec3.lt_of_get_isSome {WidthT : Nat} (s : WideDual2Vec3 WidthT) {i : Nat}
    (h : ∃ v, s.get i = some v) : i < SimdLaneCount := by
  by_contra hi
  obtain ⟨v, hv⟩ := h
  have hx : s.x.get i = none := by
    unfold WideVec3.get
    unfold CArray.read
    rw [dif_neg hi]
    rfl
  unfold WideDual2Vec3.get at hv
  rw [hx] at hv
  cases hv

theorem unpredicatedRead_of_isSome {DataT : Type} [WideSpecialization DataT] {W : Nat}
    (h : ∀ (s : Wide DataT W) (l : Nat), l < W → ∃ v, WideSpecialization.get s l = some v) :
    UnpredicatedRead DataT W := by
  intro s m l hl
  obtain ⟨v, hv⟩ := h s l hl
  exact ⟨v, hv, hv, hv, hv, hv⟩


/-! ## Lemmas on lane masks: `&`, `|`, `any_off`, double inversion -/

namespace WideMask

variable {WidthT : Nat}

theorem testBit_and_mask (a b : WideMask WidthT) (i : Nat) :
    (a.and b).m_value.testBit i = (a.m_value.testBit i && b.m_value.testBit i) := by
  unfold WideMask.and fromValue
  rw [testBit_ofUInt32, Nat.testBit_and]
  by_cases h : i < 32
  · simp [h]
  · rw [testBit_m_value_ge a (Nat.not_lt.mp h)]
    simp

theorem testBit_or_mask (a b : WideMask WidthT) (i : Nat) :
    (a.or b).m_value.testBit i = (a.m_value.testBit i || b.m_value.testBit i) := by
  unfold WideMask.or fromValue
  rw [testBit_ofUInt32, Nat.testBit_or]
  by_cases h : i < 32
  · simp [h]
  · rw [testBit_m_value_ge a (Nat.not_lt.mp h), testBit_m_value_ge b (Nat.not_lt.mp h)]
    simp

theorem eq_of_testBit_eq_mask (a b : WideMask WidthT)
    (h : ∀ i, a.m_value.testBit i = b.m_value.testBit i) : a = b :=
  WideMask.ext (Nat.eq_of_testBit_eq h)

theorem testBit_invert_invert (m : WideMask WidthT) (hW : WidthT ≤ 32) (i : Nat) :
    m.invert.invert.m_value.testBit i = (decide (i < WidthT) && m.m_value.testBit i) := by
  rw [testBit_invert _ hW, testBit_invert _ hW]
  by_cases h : i < WidthT
  · simp [h]
  · simp [h]

/-- With no bit at a position `≥ WidthT`, the value is below the full constant
exactly when some lane below `WidthT` is off. -/
theorem lt_fullMask_iff (m : WideMask WidthT) (hW : WidthT ≤ 32) (hm : m.inWidth) :
    m.m_value < fullMask WidthT ↔ ∃ i, i < WidthT ∧ m.m_value.testBit i = false := by
  have hlt : m.m_value < 2 ^ WidthT := (inWidth_iff_lt m).mp hm
  have hpos : 0 < 2 ^ WidthT := Nat.pow_pos (by decide)
  rw [fullMask_eq hW]
  constructor
  · intro h
    by_contra hno
    have hall : ∀ i, i < WidthT → m.m_value.testBit i = true := by
      intro i hi
      by_contra hb
      exact hno ⟨i, hi, by simpa using hb⟩
    have : m.m_value = 2 ^ WidthT - 1 := by
      apply Nat.eq_of_testBit_eq
      intro i
      rw [Nat.testBit_two_pow_sub_one]
      by_cases hi : i < WidthT
      · simp [hi, hall i hi]
      · simp [hi, hm i (Nat.not_lt.mp hi)]
    omega
  · rintro ⟨i, hi, hb⟩
    have hne : m.m_value ≠ 2 ^ WidthT - 1 := by
      intro e
      rw [e, Nat.testBit_two_pow_sub_one] at hb
      simp [hi] at hb
    omega

end WideMask

/-! ## Lane masks: the width invariant, `count`, `invert`, `all_on` -/

namespace WideMask
variable {WidthT : Nat}

theorem inWidth_ofUInt32 {W n : Nat} (h : ∀ k, W ≤ k → n.testBit k = false) :
    (ofUInt32 n : WideMask W).inWidth := by
  intro k hk
  rw [testBit_ofUInt32, h k hk, Bool.and_false]

theorem inWidth_invert (m : WideMask WidthT) (hW : WidthT ≤ 32) : m.invert.inWidth := by
  intro k hk
  rw [testBit_invert m hW]
  simp [Nat.not_lt.mpr hk]

theorem testBit_shl1 {lane : Nat} (h : lane < 32) (k : Nat) :
    (shl1 lane).testBit k = decide (lane = k) := by
  rw [shl1_eq h, Nat.testBit_two_pow]

end WideMask

/-- C6, as amended.  For every width `1 ≤ W ≤ 32`: the flag constructor,
`invert`, `operator~`, `set_all_on` and `set_all_off` always give a mask with no
bit at a position `≥ W`; the `Lane` constructor does so for a lane index below
`W`, the raw `unsigned` and `int` constructors for a pattern below `2 ^ W`;
`&` and `&=` do so when one operand has no such bit, `|` and `|=` when both
operands have none; `set` and `set_on` on a lane below `W`, and `set_off` on
any lane below 32, keep the property. -/
theorem C6_width_invariant_of_producers (W : Nat) (_h1 : 1 ≤ W) (hW : W ≤ 32) :
    (∀ b : Bool, (WideMask.fromBool b : WideMask W).inWidth) ∧
    (∀ lane : Lane, lane.value < W → (WideMask.fromLane lane : WideMask W).inWidth) ∧
    (∀ v : Nat, v < 2 ^ W → (WideMask.fromValue v : WideMask W).inWidth) ∧
    (∀ z : Int, 0 ≤ z → z < 2 ^ W → (WideMask.fromInt z : WideMask W).inWidth) ∧
    (∀ m : WideMask W, m.invert.inWidth ∧ m.not.inWidth ∧
      m.set_all_on.inWidth ∧ m.set_all_off.inWidth) ∧
    (∀ m a : WideMask W, m.inWidth →
      (m.and a).inWidth ∧ (a.and m).inWidth ∧
      (m.andAssign a).inWidth ∧ (a.andAssign m).inWidth) ∧
    (∀ m a : WideMask W, m.inWidth → a.inWidth →
      (m.or a).inWidth ∧ (m.orAssign a).inWidth) ∧
    (∀ (m : WideMask W) (lane : Nat) (flag : Bool), m.inWidth → lane < W →
      (m.set lane flag).inWidth ∧ (m.set_on lane).inWidth) ∧
    (∀ (m : WideMask W) (lane : Nat), m.inWidth → lane < 32 →
      (m.set_off lane).inWidth ∧ (m.set lane false).inWidth) := by
  have hfull : ∀ k, W ≤ k → (fullMask W).testBit k = false := by
    intro k hk
    rw [WideMask.testBit_fullMask hW]
    simp [Nat.not_lt.mpr hk]
  have hlt : ∀ v : Nat, v < 2 ^ W → ∀ k, W ≤ k → v.testBit k = false := by
    intro v hv k hk
    exact Nat.testBit_lt_two_pow (lt_of_lt_of_le hv (Nat.pow_le_pow_right (by decide) hk))
  have hoff : ∀ (m : WideMask W) (lane : Nat), m.inWidth →
      (WideMask.ofUInt32 (m.m_value &&& bitNot32 (shl1 lane)) : WideMask W).inWidth := by
    intro m lane hm
    apply WideMask.inWidth_ofUInt32
    intro k hk
    rw [Nat.testBit_and, hm k hk, Bool.false_and]
  have hon : ∀ (m : WideMask W) (lane : Nat), m.inWidth → lane < W →
      (WideMask.ofUInt32 (m.m_value ||| shl1 lane) : WideMask W).inWidth := by
    intro m lane hm hl
    apply WideMask.inWidth_ofUInt32
    intro k hk
    rw [Nat.testBit_or, hm k hk, WideMask.testBit_shl1 (by omega)]
    simp
    omega
  refine ⟨?_, ?_, ?_, ?_, ?_, ?_, ?_, ?_, ?_⟩
  · intro b
    apply WideMask.inWidth_ofUInt32
    intro k hk
    cases b
    · simp
    · simpa using hfull k hk
  · intro lane hl
    apply WideMask.inWidth_ofUInt32
    intro k hk
    rw [WideMask.testBit_shl1 (by omega)]
    simp
    omega
  · intro v hv
    exact WideMask.inWidth_ofUInt32 (hlt v hv)
  · intro z hz hzlt
    apply WideMask.inWidth_ofUInt32
    have hb : (2 : Int) ^ W ≤ 4294967296 := by
      calc (2 : Int) ^ W ≤ 2 ^ 32 := pow_le_pow_right₀ (by norm_num) hW
        _ = 4294967296 := by norm_num
    have e : z % 4294967296 = z := Int.emod_eq_of_lt hz (lt_of_lt_of_le hzlt hb)
    rw [e]
    apply hlt
    have : ((z.toNat : Nat) : Int) < ((2 ^ W : Nat) : Int) := by
      rw [Int.toNat_of_nonneg hz]
      exact_mod_cast hzlt
    exact_mod_cast this
  · intro m
    refine ⟨WideMask.inWidth_invert m hW, WideMask.inWidth_invert m hW, ?_, ?_⟩
    · exact WideMask.inWidth_ofUInt32 hfull
    · apply WideMask.inWidth_ofUInt32
      intro k _
      simp
  · intro m a hm
    have h1 : ∀ k, W ≤ k → (m.m_value &&& a.m_value).testBit k = false := by
      intro k hk
      rw [Nat.testBit_and, hm k hk, Bool.false_and]
    have h2 : ∀ k, W ≤ k → (a.m_value &&& m.m_value).testBit k = false := by
      intro k hk
      rw [Nat.testBit_and, hm k hk, Bool.and_false]
    exact ⟨WideMask.inWidth_ofUInt32 h1, WideMask.inWidth_ofUInt32 h2,
      WideMask.inWidth_ofUInt32 h1, WideMask.inWidth_ofUInt32 h2⟩
  · intro m a hm ha
    have h1 : ∀ k, W ≤ k → (m.m_value ||| a.m_value).testBit k = false := by
      intro k hk
      rw [Nat.testBit_or, hm k hk, ha k hk, Bool.or_false]
    exact ⟨WideMask.inWidth_ofUInt32 h1, WideMask.inWidth_ofUInt32 h1⟩
  · intro m lane flag hm hl
    refine ⟨?_, hon m lane hm hl⟩
    unfold WideMask.set
    cases flag
    · simpa using hoff m lane hm
    · simpa using hon m lane hm hl
  · intro m lane hm _
    refine ⟨hoff m lane hm, ?_⟩
    unfold WideMask.set
    simpa using hoff m lane hm

/-- Witness of C6 at the batch width 16. -/
theorem C6_width_invariant_witness :
    (1 ≤ 16 ∧ 16 ≤ 32) ∧ (WideMask.fromBool true : WideMask 16).inWidth :=
  ⟨by decide, (C6_width_invariant_of_producers 16 (by decide) (by decide)).1 true⟩

/-- Counterexample to C6 as stated, at width 16: the raw constructor on the
pattern `0x10000`, the `Lane` constructor on lane 20, `set_on(20)` on the empty
mask and `|` with such a mask each give a mask whose bit 16 or 20 is set. -/
theorem C6_counterexample :
    ¬ (WideMask.fromValue 65536 : WideMask 16).inWidth ∧
    ¬ (WideMask.fromInt 65536 : WideMask 16).inWidth ∧
    ¬ (WideMask.fromLane ⟨20⟩ : WideMask 16).inWidth ∧
    ¬ ((WideMask.fromBool false : WideMask 16).set_on 20).inWidth ∧
    ¬ ((WideMask.fromBool false : WideMask 16).set 20 true).inWidth ∧
    ¬ ((WideMask.fromBool true : WideMask 16).or (WideMask.fromValue 65536)).inWidth :=
  ⟨fun h => absurd (h 16 (by decide)) (by decide),
   fun h => absurd (h 16 (by decide)) (by decide),
   fun h => absurd (h 20 (by decide)) (by decide),
   fun h => absurd (h 20 (by decide)) (by decide),
   fun h => absurd (h 20 (by decide)) (by decide),
   fun h => absurd (h 16 (by decide)) (by decide)⟩

/-- C7, as amended.  For every width `1 ≤ W ≤ 32` and every mask `m` of that
width with no bit at a position `≥ W`, `m.count() + m.invert().count() == W`. -/
theorem C7_count_add_count_invert (W : Nat) (_h1 : 1 ≤ W) (hW : W ≤ 32)
    (m : WideMask W) (hm : m.inWidth) : m.count + m.invert.count = W := by
  have hlt : m.m_value < 2 ^ W := (WideMask.inWidth_iff_lt m).mp hm
  have hpos : 0 < 2 ^ W := Nat.pow_pos (by decide)
  have hlt2 : 2 ^ W - 1 - m.m_value < 2 ^ W := by omega
  obtain ⟨k, hk⟩ : ∃ k, 32 = W + k := ⟨32 - W, by omega⟩
  rw [WideMask.count_eq_popcount, WideMask.count_eq_popcount,
    WideMask.m_value_invert_of_lt m hW hlt, hk,
    popcount_of_lt hlt k, popcount_of_lt hlt2 k]
  exact popcount_complement hlt

/-- Witness of C7 at width 16, on the mask with lanes 0 and 2 on. -/
theorem C7_count_add_count_invert_witness :
    (WideMask.fromValue 5 : WideMask 16).count
      + (WideMask.fromValue 5 : WideMask 16).invert.count = 16 :=
  C7_count_add_count_invert 16 (by decide) (by decide) (WideMask.fromValue 5)
    ((WideMask.inWidth_iff_lt _).mpr (by decide))

/-- Counterexample to C7 as stated: the width-16 mask built from the raw
pattern `0x10000` has `count() == 1` and `invert().count() == 16`. -/
theorem C7_counterexample :
    (WideMask.fromValue 65536 : WideMask 16).count
      + (WideMask.fromValue 65536 : WideMask 16).invert.count = 17 ∧
    (WideMask.fromValue 65536 : WideMask 16).count
      + (WideMask.fromValue 65536 : WideMask 16).invert.count ≠ 16 := by
  rw [WideMask.count_eq_popcount, WideMask.count_eq_popcount]
  decide

/-- C8.  For every width `1 ≤ W ≤ 32` and every lane `i < W`:
`WideMask<W>(true).is_on(i)` and `WideMask<W>(false).is_off(i)`; and
`WideMask<W>(false) == WideMask<W>(true).invert()`,
`WideMask<W>(true) == WideMask<W>(false).invert()`. -/
theorem C8_flag_constructor (W : Nat) (_h1 : 1 ≤ W) (hW : W ≤ 32) :
    (∀ i, i < W → (WideMask.fromBool true : WideMask W).is_on i = true ∧
      (WideMask.fromBool false : WideMask W).is_off i = true) ∧
    (WideMask.fromBool false : WideMask W) = (WideMask.fromBool true : WideMask W).invert ∧
    (WideMask.fromBool true : WideMask W) = (WideMask.fromBool false : WideMask W).invert := by
  have ht : ∀ i, (WideMask.fromBool true : WideMask W).m_value.testBit i = decide (i < W) := by
    intro i
    show (WideMask.ofUInt32 (if true = true then fullMask W else 0) : WideMask W).m_value.testBit i = _
    rw [if_pos rfl, WideMask.testBit_ofUInt32, WideMask.testBit_fullMask hW]
    by_cases h : i < W
    · have : i < 32 := by omega
      simp [h, this]
    · simp [h]
  have hf : ∀ i, (WideMask.fromBool false : WideMask W).m_value.testBit i = false := by
    intro i
    show (WideMask.ofUInt32 (if false = true then fullMask W else 0) : WideMask W).m_value.testBit i = _
    simp [WideMask.testBit_ofUInt32]
  refine ⟨?_, ?_, ?_⟩
  · intro i hi
    have hi32 : i < 32 := by omega
    rw [WideMask.is_on_eq_testBit _ hi32, WideMask.is_off_eq_testBit _ hi32, ht, hf]
    simp [hi]
  · apply WideMask.ext
    apply Nat.eq_of_testBit_eq
    intro i
    rw [WideMask.testBit_invert _ hW, ht, hf]
    simp
  · apply WideMask.ext
    apply Nat.eq_of_testBit_eq
    intro i
    rw [WideMask.testBit_invert _ hW, ht, hf]
    simp

/-- Witness of C8 at width 16, lane 15. -/
theorem C8_flag_constructor_witness :
    (WideMask.fromBool true : WideMask 16).is_on 15 = true ∧
    (WideMask.fromBool false : WideMask 16).is_off 15 = true :=
  (C8_flag_constructor 16 (by decide) (by decide)).1 15 (by decide)

/-- C9, as amended.  For every width `1 ≤ W ≤ 32` and every mask `m` of that
width with no bit at a position `≥ W`: `all_on()` is true exactly when every
lane `i < W` is on, and exactly when `m.value()` equals
`0xFFFFFFFF >> (32-W)`. -/
theorem C9_all_on_of_inWidth (W : Nat) (_h1 : 1 ≤ W) (hW : W ≤ 32)
    (m : WideMask W) (hm : m.inWidth) :
    (m.all_on = true ↔ ∀ i, i < W → m.is_on i = true) ∧
    (m.all_on = true ↔ m.value = fullMask W) := by
  have hlt : m.m_value < 2 ^ W := (WideMask.inWidth_iff_lt m).mp hm
  have hfull : fullMask W = 2 ^ W - 1 := WideMask.fullMask_eq hW
  have h2 : m.all_on = true ↔ m.value = fullMask W := by
    unfold WideMask.all_on WideMask.value
    rw [decide_eq_true_iff, hfull]
    omega
  refine ⟨?_, h2⟩
  rw [h2]
  constructor
  · intro h i hi
    rw [WideMask.is_on_eq_testBit _ (by omega)]
    show m.value.testBit i = true
    rw [h, WideMask.testBit_fullMask hW]
    simp [hi]
  · intro h
    apply Nat.eq_of_testBit_eq
    intro i
    rw [WideMask.testBit_fullMask hW]
    by_cases hi : i < W
    · have := h i hi
      rw [WideMask.is_on_eq_testBit _ (by omega)] at this
      simpa [hi] using this
    · have := hm i (Nat.not_lt.mp hi)
      simpa [hi] using this

/-- Witness of C9 at width 16, on the all-on mask. -/
theorem C9_all_on_of_inWidth_witness :
    ((WideMask.fromBool true : WideMask 16).all_on = true ↔
      ∀ i, i < 16 → (WideMask.fromBool true : WideMask 16).is_on i = true) ∧
    ((WideMask.fromBool true : WideMask 16).all_on = true ↔
      (WideMask.fromBool true : WideMask 16).value = fullMask 16) :=
  C9_all_on_of_inWidth 16 (by decide) (by decide) (WideMask.fromBool true)
    ((WideMask.inWidth_iff_lt _).mpr (by decide))

/-- Counterexample to C9 as stated: for the width-16 mask built from the raw
pattern `0x10000`, `all_on()` is true although no lane below 16 is on and the
value differs from the full constant `0xFFFF`; an equality test would answer
false. -/
theorem C9_counterexample :
    (WideMask.fromValue 65536 : WideMask 16).all_on = true ∧
    (WideMask.fromValue 65536 : WideMask 16).is_on 0 = false ∧
    ¬ (∀ i, i < 16 → (WideMask.fromValue 65536 : WideMask 16).is_on i = true) ∧
    (WideMask.fromValue 65536 : WideMask 16).value ≠ fullMask 16 :=
  ⟨by decide, by decide, fun h => absurd (h 0 (by decide)) (by decide), by decide⟩

/-- C10.  For every mask `m` of width `1 ≤ W ≤ 32`: `m.invert()` has lane `i`
on exactly when `m` has lane `i` off, for every `i < W`; `m.invert()` has no
bit at a position `≥ W`, whatever bits `m` carries; `operator~` returns the
same mask as `invert()`. -/
theorem C10_invert (W : Nat) (_h1 : 1 ≤ W) (hW : W ≤ 32) (m : WideMask W) :
    (∀ i, i < W → (m.invert.is_on i = true ↔ m.is_off i = true)) ∧
    (∀ k, W ≤ k → m.invert.m_value.testBit k = false) ∧
    m.not = m.invert := by
  refine ⟨?_, WideMask.inWidth_invert m hW, rfl⟩
  intro i hi
  have hi32 : i < 32 := by omega
  rw [WideMask.is_on_eq_testBit _ hi32, WideMask.is_off_eq_testBit _ hi32,
    WideMask.testBit_invert m hW]
  simp [hi]

/-- Witness of C10 at width 16, on a mask that carries a bit at position 16. -/
theorem C10_invert_witness :
    (∀ i, i < 16 → ((WideMask.fromValue 65541 : WideMask 16).invert.is_on i = true ↔
      (WideMask.fromValue 65541 : WideMask 16).is_off i = true)) ∧
    (∀ k, 16 ≤ k → (WideMask.fromValue 65541 : WideMask 16).invert.m_value.testBit k = false) ∧
    (WideMask.fromValue 65541 : WideMask 16).not = (WideMask.fromValue 65541 : WideMask 16).invert :=
  C10_invert 16 (by decide) (by decide) (WideMask.fromValue 65541)

/-! ## Wide storage: `blendin`, `set`, `get` and the masked proxy -/

theorem blendsValue_of_spec {S V : Type} {W : Nat} (hW : W ≤ 32)
    (blendin : S → WideMask W → V → Option S) (get : S → Nat → Option V)
    (h : ∀ (s : S) (m : WideMask W) (v : V), ∃ r, blendin s m v = some r ∧
      ∀ j, get r j = if j < W ∧ m.subscript j = true then some v else get s j) :
    BlendsValue W blendin get := by
  intro s m v
  obtain ⟨r, hr, hget⟩ := h s m v
  refine ⟨r, hr, ?_⟩
  intro i hi
  have hi32 : i < 32 := Nat.lt_of_lt_of_le hi hW
  constructor
  · intro hon
    rw [hget i, if_pos ⟨hi, hon⟩]
  · intro hoff
    have hno : ¬ (i < W ∧ m.subscript i = true) := by
      rintro ⟨_, h2⟩
      have := WideMask.is_on_false_of_is_off m hi32 hoff
      rw [WideMask.subscript_eq_is_on, this] at h2
      exact Bool.noConfusion h2
    rw [hget i, if_neg hno]

theorem roundTrip_of_spec {DataT : Type} [WideSpecialization DataT] {W : Nat}
    (h : ∀ (s : Wide DataT W) (i : Nat) (v : DataT), i < W →
      ∃ r, WideSpecialization.set s i v = some r ∧
        ∀ j, WideSpecialization.get r j
          = if j = i then some v else WideSpecialization.get s j) :
    RoundTrip DataT W := by
  intro s i v hi
  obtain ⟨r, hr, hget⟩ := h s i v hi
  exact ⟨r, hr, by rw [hget i, if_pos rfl]⟩

theorem singleLaneWrite_of_spec {DataT : Type} [WideSpecialization DataT] {W : Nat}
    (h : ∀ (s : Wide DataT W) (i : Nat) (v : DataT), i < W →
      ∃ r, WideSpecialization.set s i v = some r ∧
        ∀ j, WideSpecialization.get r j
          = if j = i then some v else WideSpecialization.get s j) :
    SingleLaneWrite DataT W := by
  intro s i j v hi _ hji
  obtain ⟨r, hr, hget⟩ := h s i v hi
  exact ⟨r, hr, by rw [hget j, if_neg hji]⟩

theorem maskedWrite_of_spec {DataT : Type} [WideSpecialization DataT] {W : Nat}
    (hW : W ≤ 32)
    (h : ∀ (s : Wide DataT W) (i : Nat) (v : DataT), i < W →
      ∃ r, WideSpecialization.set s i v = some r ∧
        ∀ j, WideSpecialization.get r j
          = if j = i then some v else WideSpecialization.get s j) :
    MaskedWrite DataT W := by
  intro s m l v hl
  have hl32 : l < 32 := Nat.lt_of_lt_of_le hl hW
  constructor
  · intro hoff
    have hno : m.subscript l = false := WideMask.is_on_false_of_is_off m hl32 hoff
    show (if m.subscript l = true then WideSpecialization.set s l v else some s) = some s
    rw [hno]
    rfl
  · intro hon
    obtain ⟨r, hr, hget⟩ := h s l v hl
    refine ⟨r, ?_, by rw [hget l, if_pos rfl], fun j hj => by rw [hget j, if_neg hj]⟩
    show (if m.subscript l = true then WideSpecialization.set s l v else some s) = some r
    rw [WideMask.subscript_eq_is_on, hon]
    exact hr

/-- C1.  For every builtin wide storage `s` (any lane type, in particular float
and int), every source storage `o`, every mask `m` and every lane `i < W`:
`s.blendin(m, o)` succeeds, and afterwards `get(i)` equals `o.get(i)` when
`m.is_on(i)` and equals the value `s.get(i)` had before the call when
`m.is_off(i)`; `blendin` with the all-off mask leaves `s` unchanged. -/
theorem C1_blendin_builtin (BuiltinT : Type) (W : Nat) (hW : W ≤ 32)
    (s o : WideBuiltin BuiltinT W) (m : WideMask W) :
    (∃ r, s.blendin m o = some r ∧
      ∀ i, i < W →
        (m.is_on i = true → r.get i = o.get i) ∧
        (m.is_off i = true → r.get i = s.get i)) ∧
    s.blendin (WideMask.fromBool false) o = some s := by
  refine ⟨?_, WideBuiltin.blendin_all_off_wideBuiltin s o hW⟩
  obtain ⟨r, hr, hget⟩ := WideBuiltin.blendin_spec_wideBuiltin s m o
  refine ⟨r, hr, ?_⟩
  intro i hi
  have hi32 : i < 32 := Nat.lt_of_lt_of_le hi hW
  constructor
  · intro hon
    rw [hget i, if_pos ⟨hi, hon⟩]
  · intro hoff
    have hno : ¬ (i < W ∧ m.subscript i = true) := by
      rintro ⟨_, h2⟩
      have := WideMask.is_on_false_of_is_off m hi32 hoff
      rw [WideMask.subscript_eq_is_on, this] at h2
      exact Bool.noConfusion h2
    rw [hget i, if_neg hno]

/-- Witness of C1: 16 int lanes holding 7, blended with lanes holding 9 under
the mask with lanes 0 and 2 on. -/
theorem C1_blendin_builtin_witness :
    (∃ r, (WideBuiltin.uniform 7 : WideBuiltin int 16).blendin (WideMask.fromValue 5)
        (WideBuiltin.uniform 9) = some r ∧
      ∀ i, i < 16 →
        ((WideMask.fromValue 5 : WideMask 16).is_on i = true →
          r.get i = (WideBuiltin.uniform 9 : WideBuiltin int 16).get i) ∧
        ((WideMask.fromValue 5 : WideMask 16).is_off i = true →
          r.get i = (WideBuiltin.uniform 7 : WideBuiltin int 16).get i)) ∧
    (WideBuiltin.uniform 7 : WideBuiltin int 16).blendin (WideMask.fromBool false)
      (WideBuiltin.uniform 9) = some (WideBuiltin.uniform 7) :=
  C1_blendin_builtin int 16 (by decide) (WideBuiltin.uniform 7) (WideBuiltin.uniform 9)
    (WideMask.fromValue 5)

/-- C2.  For wide storage of float, int, Vec2, Vec3, Vec4, Color3 and Matrix44,
every mask `m`, every single value `v` and every lane `i < W`: `blendin(m, v)`
succeeds, and afterwards `get(i)` equals `v` when `m.is_on(i)` and equals its
value before the call when `m.is_off(i)`. -/
theorem C2_blendin_value (W : Nat) (hW : W ≤ 32) :
    BlendsValue W (@WideBuiltin.blendinValue float W) WideBuiltin.get ∧
    BlendsValue W (@WideBuiltin.blendinValue int W) WideBuiltin.get ∧
    BlendsValue W (@WideVec2.blendinValue W) WideVec2.get ∧
    BlendsValue W (@WideVec3.blendinValue W) WideVec3.get ∧
    BlendsValue W (@WideVec4.blendinValue W) WideVec4.get ∧
    BlendsValue W (@WideColor3.blendinValue W) WideColor3.get ∧
    BlendsValue W (@WideMatrix44.blendinValue W) WideMatrix44.get :=
  ⟨blendsValue_of_spec hW _ _ WideBuiltin.blendinValue_spec_wideBuiltin,
   blendsValue_of_spec hW _ _ WideBuiltin.blendinValue_spec_wideBuiltin,
   blendsValue_of_spec hW _ _ WideVec2.blendinValue_spec_wideVec2,
   blendsValue_of_spec hW _ _ WideVec3.blendinValue_spec_wideVec3,
   blendsValue_of_spec hW _ _ WideVec4.blendinValue_spec_wideVec4,
   blendsValue_of_spec hW _ _ WideColor3.blendinValue_spec_wideColor3,
   blendsValue_of_spec hW _ _ WideMatrix44.blendinValue_spec_wideMatrix44⟩

/-- Witness of C2: a `Wide<Vec3>` of 16 lanes blended with one vector under the
mask with lanes 0 and 2 on. -/
theorem C2_blendin_value_witness :
    ∃ r, (WideVec3.zero : WideVec3 16).blendinValue (WideMask.fromValue 5) ⟨⟨1⟩, ⟨2⟩, ⟨3⟩⟩
        = some r ∧
      ∀ i, i < 16 →
        ((WideMask.fromValue 5 : WideMask 16).is_on i = true →
          r.get i = some ⟨⟨1⟩, ⟨2⟩, ⟨3⟩⟩) ∧
        ((WideMask.fromValue 5 : WideMask 16).is_off i = true →
          r.get i = (WideVec3.zero : WideVec3 16).get i) :=
  (C2_blendin_value 16 (by decide)).2.2.2.1 WideVec3.zero (WideMask.fromValue 5)
    ⟨⟨1⟩, ⟨2⟩, ⟨3⟩⟩

/-- Round trip where the arrays hold the lane: for float, int, transform handle,
Vec2, Vec3, Vec4, Color3, Matrix44, interned string and `Dual2<float>`, whose
arrays are sized by `WidthT`, every wide storage `s`, every lane `i < W` and
every value `v`: `s.set(i, v)` succeeds and `s.get(i)` then equals `v`, as a
whole value and so in every component.  For `Dual2<Vec3>`, whose three
sub-storages are declared `Wide<Vec3>`, of `SimdLaneCount` lanes, the same for
the widths `W ≤ SimdLaneCount`. -/
theorem set_get_round_trip_in_width (W : Nat) :
    RoundTrip float W ∧ RoundTrip int W ∧ RoundTrip TransformationPtr W ∧
    RoundTrip Vec2 W ∧ RoundTrip Vec3 W ∧ RoundTrip Vec4 W ∧ RoundTrip Color3 W ∧
    RoundTrip Matrix44 W ∧ RoundTrip ustring W ∧ RoundTrip (Dual2 float) W ∧
    (W ≤ SimdLaneCount → RoundTrip (Dual2 Vec3) W) :=
  ⟨roundTrip_of_spec (fun s _ v hi => WideBuiltin.set_spec_wideBuiltin s v hi),
   roundTrip_of_spec (fun s _ v hi => WideBuiltin.set_spec_wideBuiltin s v hi),
   roundTrip_of_spec (fun s _ v hi => WideBuiltin.set_spec_wideBuiltin s v hi),
   roundTrip_of_spec (fun s _ v hi => WideVec2.set_spec_wideVec2 s v hi),
   roundTrip_of_spec (fun s _ v hi => WideVec3.set_spec_wideVec3 s v hi),
   roundTrip_of_spec (fun s _ v hi => WideVec4.set_spec_wideVec4 s v hi),
   roundTrip_of_spec (fun s _ v hi => WideColor3.set_spec_wideColor3 s v hi),
   roundTrip_of_spec (fun s _ v hi => WideMatrix44.set_spec_wideMatrix44 s v hi),
   roundTrip_of_spec (fun s _ v hi => WideUstring.set_spec_wideUstring s v hi),
   roundTrip_of_spec (fun s _ v hi => WideDual2Float.set_spec_wideDual2Float s v hi),
   fun hW => roundTrip_of_spec
     (fun s _ v hi => WideDual2Vec3.set_spec_wideDual2Vec3 s v (Nat.lt_of_lt_of_le hi hW))⟩

/-- C3, the code at the failing input.  In a `Wide<Dual2<Vec3>, 32>` the call
`set(20, v)` indexes the arrays of the three sub-storages, which are declared
`Wide<Vec3>` and hold `SimdLaneCount` = 16 lanes, outside their bounds: there is
no storage after the call in which `get(20)` could equal `v`, and the round trip
does not hold of `Dual2<Vec3>` at width 32.  The scalar dual
`Wide<Dual2<float>, 32>`, whose arrays are `float x[WidthT]`, makes the round
trip at lane 20. -/
theorem C3_round_trip_at_failing_input :
    (WideSpecialization.set (sampleWideDual2Vec3 32) 20
      sampleDual2Vec3 = none) ∧
    ¬ RoundTrip (Dual2 Vec3) 32 ∧
    (∃ r, WideSpecialization.set (sampleWideDual2Float 32) 20
        sampleDual2Float = some r ∧
      WideSpecialization.get r 20 = some sampleDual2Float) := by
  refine ⟨rfl, ?_, ?_⟩
  · intro h
    obtain ⟨r, hr, _⟩ := h (sampleWideDual2Vec3 32) 20
      sampleDual2Vec3 (by decide)
    have hnone : WideSpecialization.set (sampleWideDual2Vec3 32) 20
      sampleDual2Vec3 = none := rfl
    rw [hnone] at hr
    cases hr
  · exact roundTrip_of_spec
      (fun s _ v hi => WideDual2Float.set_spec_wideDual2Float s v hi)
      (sampleWideDual2Float 32) 20 sampleDual2Float (by decide)

/-- Single-lane write where the arrays hold the lane: for float, int, transform
handle, Vec2, Vec3, Vec4, Color3, Matrix44, interned string and `Dual2<float>`,
every lane `i < W`, every value `v` and every other lane `j < W`, `j ≠ i`:
`s.set(i, v)` succeeds and leaves `s.get(j)` unchanged, in every per-field array
of a composite type.  For `Dual2<Vec3>`, whose sub-storages have `SimdLaneCount`
lanes, the same for the widths `W ≤ SimdLaneCount`. -/
theorem set_other_lanes_in_width (W : Nat) :
    SingleLaneWrite float W ∧ SingleLaneWrite int W ∧ SingleLaneWrite TransformationPtr W ∧
    SingleLaneWrite Vec2 W ∧ SingleLaneWrite Vec3 W ∧ SingleLaneWrite Vec4 W ∧
    SingleLaneWrite Color3 W ∧ SingleLaneWrite Matrix44 W ∧ SingleLaneWrite ustring W ∧
    SingleLaneWrite (Dual2 float) W ∧
    (W ≤ SimdLaneCount → SingleLaneWrite (Dual2 Vec3) W) :=
  ⟨singleLaneWrite_of_spec (fun s _ v hi => WideBuiltin.set_spec_wideBuiltin s v hi),
   singleLaneWrite_of_spec (fun s _ v hi => WideBuiltin.set_spec_wideBuiltin s v hi),
   singleLaneWrite_of_spec (fun s _ v hi => WideBuiltin.set_spec_wideBuiltin s v hi),
   singleLaneWrite_of_spec (fun s _ v hi => WideVec2.set_spec_wideVec2 s v hi),
   singleLaneWrite_of_spec (fun s _ v hi => WideVec3.set_spec_wideVec3 s v hi),
   singleLaneWrite_of_spec (fun s _ v hi => WideVec4.set_spec_wideVec4 s v hi),
   singleLaneWrite_of_spec (fun s _ v hi => WideColor3.set_spec_wideColor3 s v hi),
   singleLaneWrite_of_spec (fun s _ v hi => WideMatrix44.set_spec_wideMatrix44 s v hi),
   singleLaneWrite_of_spec (fun s _ v hi => WideUstring.set_spec_wideUstring s v hi),
   singleLaneWrite_of_spec (fun s _ v hi => WideDual2Float.set_spec_wideDual2Float s v hi),
   fun hW => singleLaneWrite_of_spec
     (fun s _ v hi => WideDual2Vec3.set_spec_wideDual2Vec3 s v (Nat.lt_of_lt_of_le hi hW))⟩

/-- C4, the code at the failing input.  In a `Wide<Dual2<Vec3>, 32>` the call
`set(20, v)` indexes the 16-lane arrays of the sub-storages outside their
bounds, so it is not a write that modifies lane 20 and leaves `get(4)` as it
was: the single-lane write does not hold of `Dual2<Vec3>` at width 32.  In the
scalar dual `Wide<Dual2<float>, 32>` the same call leaves lane 4 unchanged. -/
theorem C4_other_lanes_at_failing_input :
    (WideSpecialization.set (sampleWideDual2Vec3 32) 20
      sampleDual2Vec3 = none) ∧
    ¬ SingleLaneWrite (Dual2 Vec3) 32 ∧
    (∃ r, WideSpecialization.set (sampleWideDual2Float 32) 20
        sampleDual2Float = some r ∧
      WideSpecialization.get r 4
        = WideSpecialization.get (sampleWideDual2Float 32) 4) := by
  refine ⟨rfl, ?_, ?_⟩
  · intro h
    obtain ⟨r, hr, _⟩ := h (sampleWideDual2Vec3 32) 20 4
      sampleDual2Vec3 (by decide) (by decide) (by decide)
    have hnone : WideSpecialization.set (sampleWideDual2Vec3 32) 20
      sampleDual2Vec3 = none := rfl
    rw [hnone] at hr
    cases hr
  · exact singleLaneWrite_of_spec
      (fun s _ v hi => WideDual2Float.set_spec_wideDual2Float s v hi)
      (sampleWideDual2Float 32) 20 4 sampleDual2Float
      (by decide) (by decide) (by decide)

/-- Masked write where the arrays hold the lane: for wide storage of float, int,
transform handle, Vec2, Vec3, Vec4, Color3, Matrix44, interned string and
`Dual2<float>`, every mask `m`, every lane `l < W` and every value `v`,
assigning `v` through the lane-`l` proxy of the masked accessor leaves the whole
storage unchanged when `m.is_off(l)`; when `m.is_on(l)` the assignment succeeds,
makes `get(l)` equal `v` and changes no other lane.  The width is at most 32,
the largest a mask supports; for `Dual2<Vec3>`, whose sub-storages have
`SimdLaneCount` lanes, the same for the widths `W ≤ SimdLaneCount`. -/
theorem masked_write_in_width (W : Nat) (hW : W ≤ 32) :
    MaskedWrite float W ∧ MaskedWrite int W ∧ MaskedWrite TransformationPtr W ∧
    MaskedWrite Vec2 W ∧ MaskedWrite Vec3 W ∧ MaskedWrite Vec4 W ∧
    MaskedWrite Color3 W ∧ MaskedWrite Matrix44 W ∧ MaskedWrite ustring W ∧
    MaskedWrite (Dual2 float) W ∧
    (W ≤ SimdLaneCount → MaskedWrite (Dual2 Vec3) W) :=
  ⟨maskedWrite_of_spec hW (fun s _ v hi => WideBuiltin.set_spec_wideBuiltin s v hi),
   maskedWrite_of_spec hW (fun s _ v hi => WideBuiltin.set_spec_wideBuiltin s v hi),
   maskedWrite_of_spec hW (fun s _ v hi => WideBuiltin.set_spec_wideBuiltin s v hi),
   maskedWrite_of_spec hW (fun s _ v hi => WideVec2.set_spec_wideVec2 s v hi),
   maskedWrite_of_spec hW (fun s _ v hi => WideVec3.set_spec_wideVec3 s v hi),
   maskedWrite_of_spec hW (fun s _ v hi => WideVec4.set_spec_wideVec4 s v hi),
   maskedWrite_of_spec hW (fun s _ v hi => WideColor3.set_spec_wideColor3 s v hi),
   maskedWrite_of_spec hW (fun s _ v hi => WideMatrix44.set_spec_wideMatrix44 s v hi),
   maskedWrite_of_spec hW (fun s _ v hi => WideUstring.set_spec_wideUstring s v hi),
   maskedWrite_of_spec hW (fun s _ v hi => WideDual2Float.set_spec_wideDual2Float s v hi),
   fun hW2 => maskedWrite_of_spec hW
     (fun s _ v hi => WideDual2Vec3.set_spec_wideDual2Vec3 s v (Nat.lt_of_lt_of_le hi hW2))⟩

/-- C5, the code at the failing input.  Over a `Wide<Dual2<Vec3>, 32>` and the
mask `Mask(1u << 20)`, which has lane 20 on, the assignment through the lane-20
proxy calls `set(20, v)`, which indexes the 16-lane arrays of the sub-storages
outside their bounds: there is no storage after the assignment in which
`get(20)` equals `v`, and the masked write does not hold of `Dual2<Vec3>` at
width 32.  What does hold of `Dual2<Vec3>` at every width: an assignment
through a lane that is off leaves the storage as it was, and an assignment
through a lane `l < SimdLaneCount` that is on sets lane `l` and no other. -/
theorem C5_masked_write_at_failing_input :
    (WideMask.fromValue 1048576 : Mask).is_on 20 = true ∧
    ((MaskedAccessor.mk (sampleWideDual2Vec3 32)
        (WideMask.fromValue 1048576)).subscript 20).assign
      sampleDual2Vec3 = none ∧
    ¬ MaskedWrite (Dual2 Vec3) 32 ∧
    (∀ (W : Nat) (s : Wide (Dual2 Vec3) W) (m : Mask) (l : Nat) (v : Dual2 Vec3),
      l < 32 → m.is_off l = true →
      ((MaskedAccessor.mk s m).subscript l).assign v = some s) ∧
    (∀ (W : Nat) (s : Wide (Dual2 Vec3) W) (m : Mask) (l : Nat) (v : Dual2 Vec3),
      l < SimdLaneCount → m.is_on l = true →
      ∃ r, ((MaskedAccessor.mk s m).subscript l).assign v = some r ∧
        WideSpecialization.get r l = some v ∧
        ∀ j, j ≠ l → WideSpecialization.get r j = WideSpecialization.get s j) := by
  have hnone : ((MaskedAccessor.mk (sampleWideDual2Vec3 32)
        (WideMask.fromValue 1048576)).subscript 20).assign
      sampleDual2Vec3 = none := by
    have hon : (WideMask.fromValue 1048576 : Mask).subscript 20 = true := by decide
    show (if (WideMask.fromValue 1048576 : Mask).subscript 20 = true then
      WideSpecialization.set (sampleWideDual2Vec3 32) 20 _
      else some _) = none
    rw [if_pos hon]
    rfl
  refine ⟨by decide, hnone, ?_, ?_, ?_⟩
  · intro h
    obtain ⟨r, hr, _⟩ := (h (sampleWideDual2Vec3 32)
      (WideMask.fromValue 1048576) 20
      sampleDual2Vec3 (by decide)).2 (by decide)
    rw [hnone] at hr
    cases hr
  · intro W s m l v hl hoff
    have hno : m.subscript l = false := WideMask.is_on_false_of_is_off m hl hoff
    show (if m.subscript l = true then WideSpecialization.set s l v else some s) = some s
    rw [hno]
    rfl
  · intro W s m l v hl hon
    obtain ⟨r, hr, hget⟩ := WideDual2Vec3.set_spec_wideDual2Vec3 s v hl
    have hget2 : ∀ j, WideSpecialization.get (r : Wide (Dual2 Vec3) W) j
        = if j = l then some v else WideSpecialization.get s j := hget
    refine ⟨r, ?_, by rw [hget2 l, if_pos rfl], fun j hj => by rw [hget2 j, if_neg hj]⟩
    show (if m.subscript l = true then WideSpecialization.set s l v else some s) = some r
    rw [WideMask.subscript_eq_is_on, hon]
    exact hr

/-! ## Lane masks: single-lane updates and `count` -/

/-- C11.  For every mask `m` of width `1 ≤ W ≤ 32`, every lane `i < W` and every
flag `b`: after `m.set(i, b)`, `is_on(i) == b` and `is_on(j)` is unchanged for
every other lane `j < W`; `set_on(i)` gives the same mask as `set(i, true)` and
`set_off(i)` the same mask as `set(i, false)`. -/
theorem C11_set_single_lane (W : Nat) (_h1 : 1 ≤ W) (hW : W ≤ 32) (m : WideMask W)
    (i : Nat) (hi : i < W) (b : Bool) :
    (m.set i b).is_on i = b ∧
    (∀ j, j < W → j ≠ i → (m.set i b).is_on j = m.is_on j) ∧
    m.set_on i = m.set i true ∧
    m.set_off i = m.set i false := by
  have hi32 : i < 32 := Nat.lt_of_lt_of_le hi hW
  refine ⟨?_, ?_, (WideMask.set_true_eq_set_on m i).symm,
    (WideMask.set_false_eq_set_off m i).symm⟩
  · rw [WideMask.is_on_eq_testBit _ hi32]
    cases b
    · rw [WideMask.set_false_eq_set_off, WideMask.testBit_set_off m hi32 hi32]
      simp
    · rw [WideMask.set_true_eq_set_on, WideMask.testBit_set_on m hi32 hi32]
      simp
  · intro j hj hji
    have hj32 : j < 32 := Nat.lt_of_lt_of_le hj hW
    have hne : ¬ i = j := fun e => hji e.symm
    rw [WideMask.is_on_eq_testBit _ hj32, WideMask.is_on_eq_testBit _ hj32]
    cases b
    · rw [WideMask.set_false_eq_set_off, WideMask.testBit_set_off m hi32 hj32]
      simp [hne]
    · rw [WideMask.set_true_eq_set_on, WideMask.testBit_set_on m hi32 hj32]
      simp [hne]

/-- Witness of C11 at width 16: clearing lane 2 of the mask with lanes 0 and 2
on. -/
theorem C11_set_single_lane_witness :
    ((WideMask.fromValue 5 : WideMask 16).set 2 false).is_on 2 = false ∧
    (∀ j, j < 16 → j ≠ 2 →
      ((WideMask.fromValue 5 : WideMask 16).set 2 false).is_on j
        = (WideMask.fromValue 5 : WideMask 16).is_on j) ∧
    (WideMask.fromValue 5 : WideMask 16).set_on 2
      = (WideMask.fromValue 5 : WideMask 16).set 2 true ∧
    (WideMask.fromValue 5 : WideMask 16).set_off 2
      = (WideMask.fromValue 5 : WideMask 16).set 2 false :=
  C11_set_single_lane 16 (by decide) (by decide) (WideMask.fromValue 5) 2 (by decide) false

/-- C12.  For every mask `m`: `count()`, a total function, returns exactly the
number of positions below 32 at which `m.value()` has a set bit, a value between
0 and 32; its loop body `m &= m-1` brings the value to zero after exactly
`count()` rounds and not before; and when `m` has no bit at a position `≥ W`
(with `W ≤ 32`), `count()` is the number of lanes `i < W` with `m.is_on(i)`. -/
theorem C12_count_set_bits (W : Nat) (m : WideMask W) :
    m.count = (List.range 32).countP (fun i => m.value.testBit i) ∧
    (0 ≤ m.count ∧ m.count ≤ 32) ∧
    ((fun x => x &&& (x - 1))^[m.count] m.value = 0 ∧
      ∀ k, k < m.count → (fun x => x &&& (x - 1))^[k] m.value ≠ 0) ∧
    (W ≤ 32 → m.inWidth → m.count = (List.range W).countP (fun i => m.is_on i)) := by
  have hlt32 : m.m_value < 2 ^ 32 := by
    calc m.m_value < 4294967296 := m.m_value_lt
      _ = 2 ^ 32 := by norm_num
  have hc : m.count = (List.range 32).countP (fun i => m.value.testBit i) := by
    rw [WideMask.count_eq_popcount, popcount_eq_countP]
    rfl
  refine ⟨hc, ⟨Nat.zero_le _, ?_⟩, ?_, ?_⟩
  · rw [hc]
    calc (List.range 32).countP (fun i => m.value.testBit i)
        ≤ (List.range 32).length := List.countP_le_length _
      _ = 32 := List.length_range 32
  · rw [WideMask.count_eq_popcount]
    exact iterate_clear_lowest 32 m.m_value hlt32
  · intro hW hin
    have hlt : m.m_value < 2 ^ W := (WideMask.inWidth_iff_lt m).mp hin
    obtain ⟨k, hk⟩ : ∃ k, 32 = W + k := ⟨32 - W, by omega⟩
    rw [WideMask.count_eq_popcount, hk, popcount_of_lt hlt k, popcount_eq_countP]
    apply List.countP_congr
    intro i hi
    have hiW : i < W := List.mem_range.mp hi
    rw [WideMask.is_on_eq_testBit m (by omega)]

/-- Witness of C12 at width 16, on the mask with lanes 0 and 2 on. -/
theorem C12_count_set_bits_witness :
    (WideMask.fromValue 5 : WideMask 16).count
      = (List.range 16).countP (fun i => (WideMask.fromValue 5 : WideMask 16).is_on i) :=
  (C12_count_set_bits 16 (WideMask.fromValue 5)).2.2.2 (by decide)
    ((WideMask.inWidth_iff_lt _).mpr (by decide))

/-! ## The type-erasure bridge: `is`, `masked`, plane selection, array positions -/

/-- C13, as amended.  For every descriptor and any two static types among float,
int, string, Vec2, Vec3, Color3, Matrix44 and their unbounded-array forms: if
`is<T>()` and `is<U>()` both hold then `T` and `U` are the same type, or they are
`Vec3` and `Color3` (or `Vec3[]` and `Color3[]`) on a float 3-vector descriptor
with color semantics, since `Vec3` matches every vector semantics.  A non-array
float 3-vector color descriptor satisfies `is<Color3>()` and `is<Vec3>()`, and
satisfies `is<float[N]>()` for no `N`. -/
theorem C13_bridge_exactness_amended (W : Nat) (v : MaskedData W) :
    (∀ T U : StaticType, T.testedNotFixed = true → U.testedNotFixed = true →
      v.is T = true → v.is U = true →
      T = U ∨
      ((v.m_type.basetype = TypeDesc.BASETYPE.FLOAT ∧
          v.m_type.aggregate = TypeDesc.AGGREGATE.VEC3 ∧
          v.m_type.vecsemantics = TypeDesc.VECSEMANTICS.COLOR) ∧
        ((T.remove_all_extents = ElemType.Vec3 ∧ U.remove_all_extents = ElemType.Color3) ∨
          (T.remove_all_extents = ElemType.Color3 ∧ U.remove_all_extents = ElemType.Vec3)) ∧
        T.is_array = U.is_array)) ∧
    (v.m_type = TypeDesc.color3 →
      v.is (.plain .Color3) = true ∧ v.is (.plain .Vec3) = true ∧
      ∀ N, v.is (.array .float N) = false) := by
  constructor
  · intro T U hT hU h1 h2
    cases T with
    | plain E =>
      cases U with
      | plain F =>
        rw [MaskedData.is_plain, Bool.and_eq_true] at h1 h2
        rcases matches_tested_unique v.m_type E F hT hU h1.2 h2.2 with h | ⟨hd, hp⟩
        · exact Or.inl (by rw [h])
        · exact Or.inr ⟨hd, hp, rfl⟩
      | array F n =>
        cases n with
        | zero =>
          rw [MaskedData.is_plain, Bool.and_eq_true] at h1
          rw [MaskedData.is_unbounded_array, Bool.and_eq_true] at h2
          simp at h1 h2
          exact absurd h1.1 h2.1
        | succ n => exact absurd hU (by simp [StaticType.testedNotFixed])
    | array E m =>
      cases m with
      | zero =>
        cases U with
        | plain F =>
          rw [MaskedData.is_unbounded_array, Bool.and_eq_true] at h1
          rw [MaskedData.is_plain, Bool.and_eq_true] at h2
          simp at h1 h2
          exact absurd h2.1 h1.1
        | array F n =>
          cases n with
          | zero =>
            rw [MaskedData.is_unbounded_array, Bool.and_eq_true] at h1 h2
            rcases matches_tested_unique v.m_type E F hT hU h1.2 h2.2 with h | ⟨hd, hp⟩
            · exact Or.inl (by rw [h])
            · exact Or.inr ⟨hd, hp, rfl⟩
          | succ n => exact absurd hU (by simp [StaticType.testedNotFixed])
      | succ m => exact absurd hT (by simp [StaticType.testedNotFixed])
  · intro hd
    refine ⟨?_, ?_, ?_⟩
    · rw [MaskedData.is_plain, hd]; rfl
    · rw [MaskedData.is_plain, hd]; rfl
    · intro N
      cases N with
      | zero => rw [MaskedData.is_unbounded_array, hd]; rfl
      | succ N => rw [MaskedData.is_fixed_array, hd]; rfl

/-- Witness of C13: the color descriptor, queried for `Vec3` and `Color3`. -/
theorem C13_bridge_exactness_amended_witness :
    (StaticType.plain ElemType.Vec3 = StaticType.plain ElemType.Color3 ∨
      ((TypeDesc.color3.basetype = TypeDesc.BASETYPE.FLOAT ∧
          TypeDesc.color3.aggregate = TypeDesc.AGGREGATE.VEC3 ∧
          TypeDesc.color3.vecsemantics = TypeDesc.VECSEMANTICS.COLOR) ∧
        (((StaticType.plain ElemType.Vec3).remove_all_extents = ElemType.Vec3 ∧
            (StaticType.plain ElemType.Color3).remove_all_extents = ElemType.Color3) ∨
          ((StaticType.plain ElemType.Vec3).remove_all_extents = ElemType.Color3 ∧
            (StaticType.plain ElemType.Color3).remove_all_extents = ElemType.Vec3)) ∧
        (StaticType.plain ElemType.Vec3).is_array
          = (StaticType.plain ElemType.Color3).is_array)) :=
  (C13_bridge_exactness_amended 16
      (MaskedData.create TypeDesc.color3 true (WideMask.fromBool true) 4096)).1
    (.plain .Vec3) (.plain .Color3) (by decide) (by decide) (by decide) (by decide)

/-- Counterexample to C13 as stated: the non-array float 3-vector color
descriptor satisfies `is<Vec3>()` as well as `is<Color3>()`, two different
static types. -/
theorem C13_counterexample :
    (MaskedData.create TypeDesc.color3 true (WideMask.fromBool true) 4096 :
      MaskedData 16).is (.plain .Color3) = true ∧
    (MaskedData.create TypeDesc.color3 true (WideMask.fromBool true) 4096 :
      MaskedData 16).is (.plain .Vec3) = true ∧
    StaticType.plain ElemType.Vec3 ≠ StaticType.plain ElemType.Color3 :=
  ⟨by decide, by decide, by decide⟩

/-- C14, the code at the failing inputs.  For the descriptor of an array of 3
floats, `is<float[3]>()` is false although the array length equals the extent
and the element matches; for the descriptor of a float scalar (array length 0),
`is<float[3]>()` is true.  For comparison, `is<float[]>()` and `is<float>()`
answer as expected. -/
theorem C14_fixed_array_is_at_failing_input :
    (MaskedData.create (TypeDesc.floatArray 3) true (WideMask.fromBool true) 4096 :
      MaskedData 16).is (.array .float 3) = false ∧
    (MaskedData.create (TypeDesc.floatArray 0) true (WideMask.fromBool true) 4096 :
      MaskedData 16).is (.array .float 3) = true ∧
    (MaskedData.create (TypeDesc.floatArray 3) true (WideMask.fromBool true) 4096 :
      MaskedData 16).is (.array .float 0) = true ∧
    (MaskedData.create (TypeDesc.floatArray 0) true (WideMask.fromBool true) 4096 :
      MaskedData 16).is (.plain .float) = true :=
  ⟨by decide, by decide, by decide, by decide⟩

/-- C15.  For every element type `E` and every descriptor: `is<E[]>()` is true
exactly when the array length is positive and the descriptor matches `E`; and
whenever `is<E[]>()` holds, `masked<E[]>()` returns an unbounded-array accessor
that carries the array length of the descriptor, which is `> 0`. -/
theorem C15_unbounded_array_is (W : Nat) (v : MaskedData W) (E : ElemType) :
    (v.is (.array E 0) = true ↔
      0 < v.m_type.arraylen ∧ WideTraits.matches E v.m_type = true) ∧
    (v.is (.array E 0) = true →
      ∃ a : MaskedUnboundArrayAccessor W,
        v.masked (.array E 0) = some (.unboundArrayAccessor a) ∧
        a.m_array_length = (v.m_type.arraylen : Int) ∧ 0 < a.m_array_length) := by
  have hiff : v.is (.array E 0) = true ↔
      0 < v.m_type.arraylen ∧ WideTraits.matches E v.m_type = true := by
    rw [MaskedData.is_unbounded_array, Bool.and_eq_true]
    simp [Nat.pos_iff_ne_zero]
  refine ⟨hiff, ?_⟩
  intro h
  refine ⟨MaskedUnboundArrayAccessor.fromPtr v.m_ptr 0 v.m_type.arraylen v.m_mask, ?_, rfl, ?_⟩
  · show (if v.is (.array E 0) = true then
      v.masked_array_impl (.array E 0) 0 ((StaticType.array E 0).extent == 0) else none) = _
    rw [if_pos h]
    show (if v.is (.array E 0) = true then _ else none) = _
    rw [if_pos h]
  · show (0 : Int) < (v.m_type.arraylen : Int)
    exact_mod_cast (hiff.mp h).1

/-- Witness of C15: the descriptor of an array of 3 floats. -/
theorem C15_unbounded_array_is_witness :
    ∃ a : MaskedUnboundArrayAccessor 16,
      (MaskedData.create (TypeDesc.floatArray 3) true (WideMask.fromBool true) 4096 :
        MaskedData 16).masked (.array .float 0) = some (.unboundArrayAccessor a) ∧
      a.m_array_length = ((3 : Nat) : Int) ∧ 0 < a.m_array_length :=
  (C15_unbounded_array_is 16
    (MaskedData.create (TypeDesc.floatArray 3) true (WideMask.fromBool true) 4096)
    .float).2 (by decide)

/-- C16.  For every descriptor and every non-array static type `T`: `is<T>()` is
true exactly when the array length is 0 and (base kind, aggregate) is
(FLOAT, SCALAR) for float, (INT, SCALAR) for int, (STRING, SCALAR) for the
interned string, (FLOAT, VEC2) for Vec2, (FLOAT, VEC3) for Vec3,
(FLOAT, MATRIX44) for Matrix44, and (FLOAT, VEC3) with the COLOR tag for Color3.
The query is a function of the descriptor alone: it reads no other member of
the view and nothing behind the pointer, and it writes nothing. -/
theorem C16_non_array_is (W : Nat) (v : MaskedData W) :
    (v.is (.plain .float) = true ↔ v.m_type.arraylen = 0 ∧
      v.m_type.basetype = TypeDesc.BASETYPE.FLOAT ∧
      v.m_type.aggregate = TypeDesc.AGGREGATE.SCALAR) ∧
    (v.is (.plain .int) = true ↔ v.m_type.arraylen = 0 ∧
      v.m_type.basetype = TypeDesc.BASETYPE.INT ∧
      v.m_type.aggregate = TypeDesc.AGGREGATE.SCALAR) ∧
    (v.is (.plain .ustring) = true ↔ v.m_type.arraylen = 0 ∧
      v.m_type.basetype = TypeDesc.BASETYPE.STRING ∧
      v.m_type.aggregate = TypeDesc.AGGREGATE.SCALAR) ∧
    (v.is (.plain .Vec2) = true ↔ v.m_type.arraylen = 0 ∧
      v.m_type.basetype = TypeDesc.BASETYPE.FLOAT ∧
      v.m_type.aggregate = TypeDesc.AGGREGATE.VEC2) ∧
    (v.is (.plain .Vec3) = true ↔ v.m_type.arraylen = 0 ∧
      v.m_type.basetype = TypeDesc.BASETYPE.FLOAT ∧
      v.m_type.aggregate = TypeDesc.AGGREGATE.VEC3) ∧
    (v.is (.plain .Matrix44) = true ↔ v.m_type.arraylen = 0 ∧
      v.m_type.basetype = TypeDesc.BASETYPE.FLOAT ∧
      v.m_type.aggregate = TypeDesc.AGGREGATE.MATRIX44) ∧
    (v.is (.plain .Color3) = true ↔ v.m_type.arraylen = 0 ∧
      v.m_type.basetype = TypeDesc.BASETYPE.FLOAT ∧
      v.m_type.aggregate = TypeDesc.AGGREGATE.VEC3 ∧
      v.m_type.vecsemantics = TypeDesc.VECSEMANTICS.COLOR) ∧
    (∀ (u : MaskedData W) (T : StaticType), u.m_type = v.m_type → u.is T = v.is T) := by
  refine ⟨?_, ?_, ?_, ?_, ?_, ?_, ?_, ?_⟩
  · rw [MaskedData.is_plain]; simp [WideTraits.matches]
  · rw [MaskedData.is_plain]; simp [WideTraits.matches]
  · rw [MaskedData.is_plain]; simp [WideTraits.matches]
  · rw [MaskedData.is_plain]; simp [WideTraits.matches]
  · rw [MaskedData.is_plain]; simp [WideTraits.matches]
  · rw [MaskedData.is_plain]; simp [WideTraits.matches]
  · rw [MaskedData.is_plain]; simp [WideTraits.matches, and_assoc]
  · intro u T h
    cases T with
    | plain E => rw [MaskedData.is_plain, MaskedData.is_plain, h]
    | array E n =>
      cases n with
      | zero => rw [MaskedData.is_unbounded_array, MaskedData.is_unbounded_array, h]
      | succ n => rw [MaskedData.is_fixed_array, MaskedData.is_fixed_array, h]

/-- Witness of C16: a view with another pointer, mask and derivative flag but
the same descriptor answers `is<Color3>()` alike. -/
theorem C16_non_array_is_witness :
    (MaskedData.create TypeDesc.color3 false (WideMask.fromBool false) 8192 :
      MaskedData 16).is (.plain .Color3)
    = (MaskedData.create TypeDesc.color3 true (WideMask.fromBool true) 4096 :
      MaskedData 16).is (.plain .Color3) :=
  (C16_non_array_is 16
    (MaskedData.create TypeDesc.color3 true (WideMask.fromBool true) 4096)).2.2.2.2.2.2.2
    (MaskedData.create TypeDesc.color3 false (WideMask.fromBool false) 8192)
    (.plain .Color3) rfl

/-- C17.  For every masked data view whose descriptor matches a non-array type
`T` and whose derivatives are present: `masked<T>()`, `maskedDx<T>()`,
`maskedDy<T>()` and `maskedDz<T>()` succeed and return accessors bound to the
instances at indices 0, 1, 2 and 3 of the pointer, each carrying the mask of the
view.  A write through the lane proxy of the plane-`p` accessor replaces
instance `p` of the memory by the result of the masked write on it and leaves
every other instance as it was. -/
theorem C17_masked_planes (W : Nat) (v : MaskedData W) (T : ElemType)
    (his : v.is (.plain T) = true) (hd : v.has_derivs = true) :
    v.masked (.plain T) = some (.accessor ⟨⟨v.m_ptr, 0⟩, v.m_mask⟩) ∧
    v.maskedDx (.plain T) = some (.accessor ⟨⟨v.m_ptr, 1⟩, v.m_mask⟩) ∧
    v.maskedDy (.plain T) = some (.accessor ⟨⟨v.m_ptr, 2⟩, v.m_mask⟩) ∧
    v.maskedDz (.plain T) = some (.accessor ⟨⟨v.m_ptr, 3⟩, v.m_mask⟩) ∧
    (∀ (DataT : Type) [WideSpecialization DataT] (block : WideBlock DataT W)
        (p lane : Nat) (value : DataT) (s s1 : Wide DataT W),
      block.get? p = some s →
      (MaskedLaneProxy.mk s v.m_mask lane).assign value = some s1 →
      (((MaskedAccessorRef.fromPtr v.m_ptr v.m_mask (p : Int) :
          MaskedAccessorRef W).subscript lane).assign block value = some (block.set p s1) ∧
        (block.set p s1).get? p = some s1 ∧
        ∀ q, q ≠ p → (block.set p s1).get? q = block.get? q)) := by
  have hm : ∀ k : Int, v.masked_impl (.plain T) k false
      = some (.accessor ⟨⟨v.m_ptr, k⟩, v.m_mask⟩) := by
    intro k
    show (if v.is (.plain T) = true then _ else none) = _
    rw [if_pos his]
    rfl
  have hdx : ∀ k : Int, (if v.has_derivs = true then v.masked_impl (.plain T) k false else none)
      = some (.accessor ⟨⟨v.m_ptr, k⟩, v.m_mask⟩) := by
    intro k
    rw [if_pos hd, hm k]
  refine ⟨hm 0, hdx 1, hdx 2, hdx 3, ?_⟩
  intro DataT _ block p lane value s s1 hs hs1
  have hp : p < block.length := by
    rcases Nat.lt_or_ge p block.length with h | h
    · exact h
    · rw [List.get?_eq_none.mpr h] at hs
      exact Option.noConfusion hs
  refine ⟨?_, ?_, ?_⟩
  · show (match (MaskedLaneProxyRef.mk (WideRef.mk v.m_ptr (p : Int)) v.m_mask lane).deref block with
      | none => none
      | some proxy =>
        match proxy.assign value with
        | none => none
        | some s2 => block.write ⟨v.m_ptr, (p : Int)⟩ s2) = _
    have hderef : (MaskedLaneProxyRef.mk (WideRef.mk v.m_ptr (p : Int)) v.m_mask lane).deref block
        = some ⟨s, v.m_mask, lane⟩ := by
      unfold MaskedLaneProxyRef.deref
      rw [WideBlock.read_natCast, hs]
    rw [hderef]
    simp only [hs1]
    exact WideBlock.write_natCast block v.m_ptr p s1 hp
  · rw [List.get?_eq_getElem?, List.getElem?_set_self hp]
  · intro q hq
    rw [List.get?_eq_getElem?, List.get?_eq_getElem?,
      List.getElem?_set_ne (fun e => hq e.symm)]

/-- Witness of C17: a float view with derivatives at address 4096. -/
theorem C17_masked_planes_witness :
    (MaskedData.create (TypeDesc.floatArray 0) true (WideMask.fromValue 5) 4096 :
      MaskedData 16).maskedDy (.plain .float)
    = some (.accessor ⟨⟨4096, 2⟩, WideMask.fromValue 5⟩) :=
  (C17_masked_planes 16
    (MaskedData.create (TypeDesc.floatArray 0) true (WideMask.fromValue 5) 4096)
    .float (by decide) (by decide)).2.2.1

/-- C18.  With debug assertions as failure: for every masked data view and every
static type `T`, `masked<T>()` fails exactly when `is<T>()` is false, and each of
`maskedDx<T>()`, `maskedDy<T>()`, `maskedDz<T>()` fails exactly when `is<T>()` is
false or `has_derivs()` is false; `ref`, `refDx`, `refDy`, `refDz` of `DataRef`
fail under the same conditions. -/
theorem C18_assertion_failures (W : Nat) (v : MaskedData W) (r : DataRef) (T : StaticType) :
    (v.masked T = none ↔ v.is T = false) ∧
    (v.maskedDx T = none ↔ (v.is T = false ∨ v.has_derivs = false)) ∧
    (v.maskedDy T = none ↔ (v.is T = false ∨ v.has_derivs = false)) ∧
    (v.maskedDz T = none ↔ (v.is T = false ∨ v.has_derivs = false)) ∧
    (r.ref T = none ↔ r.is T = false) ∧
    (r.refDx T = none ↔ (r.is T = false ∨ r.has_derivs = false)) ∧
    (r.refDy T = none ↔ (r.is T = false ∨ r.has_derivs = false)) ∧
    (r.refDz T = none ↔ (r.is T = false ∨ r.has_derivs = false)) := by
  have hv : ∀ k : Int,
      ((if v.has_derivs = true then v.masked_impl T k T.is_array else none) = none ↔
        (v.is T = false ∨ v.has_derivs = false)) := by
    intro k
    cases hd : v.has_derivs
    · simp
    · simp [MaskedData.masked_impl_eq_none]
  have hr : ∀ k : Int,
      ((if r.has_derivs = true then r.ref_impl T k T.is_array else none) = none ↔
        (r.is T = false ∨ r.has_derivs = false)) := by
    intro k
    cases hd : r.has_derivs
    · simp
    · simp [DataRef.ref_impl_eq_none]
  exact ⟨MaskedData.masked_impl_eq_none v T 0, hv 1, hv 2, hv 3,
    DataRef.ref_impl_eq_none r T 0, hr 1, hr 2, hr 3⟩

/-- C19, as amended.  For an extent `N`, a carried length `n > 0` and a plane
index `p` whose products `N*p` and `n*p` are below `2^31`, so that the `int`
product of the constructor does not overflow: a masked fixed-length array
accessor of extent `N` built from a type-erased pointer and `p` has as its
first element the instance number `N*p`, which is the first instance of
`pointer[p]` for the pointer typed as a pointer to arrays of `N` instances; and
a masked unbounded array accessor built with carried length `n` has the
instance at `pointer[n*p]` as its first element. -/
theorem C19_plane_stride (N W ptr p n : Nat) (mask : Mask) (lane : Nat)
    (hNp : N * p < 2147483648) (hnp : n * p < 2147483648) (hn : 0 < n) :
    (MaskedArrayAccessor.fromPtr ptr (p : Int) mask :
      MaskedArrayAccessor N W).m_array_of_wide_data = ⟨ptr, ((N * p : Nat) : Int)⟩ ∧
    (((MaskedArrayAccessor.fromPtr ptr (p : Int) mask :
      MaskedArrayAccessor N W).subscript lane).subscript 0).m_ref_wide_data
        = WideRef.ofArrayPointer ptr N (p : Int) ∧
    (MaskedUnboundArrayAccessor.fromPtr ptr (p : Int) (n : Int) mask :
      MaskedUnboundArrayAccessor W).m_array_of_wide_data = ⟨ptr, ((n * p : Nat) : Int)⟩ ∧
    (((MaskedUnboundArrayAccessor.fromPtr ptr (p : Int) (n : Int) mask :
      MaskedUnboundArrayAccessor W).subscript lane).subscript 0)
      = some ⟨⟨ptr, ((n * p : Nat) : Int)⟩, mask, lane⟩ := by
  have eN : toInt32 ((N : Int) * (p : Int)) = ((N * p : Nat) : Int) := by
    have h1 : ((N : Int) * (p : Int)) = ((N * p : Nat) : Int) := by push_cast; rfl
    rw [h1]
    exact toInt32_of_range (by omega) (by omega)
  have en : toInt32 ((n : Int) * (p : Int)) = ((n * p : Nat) : Int) := by
    have h1 : ((n : Int) * (p : Int)) = ((n * p : Nat) : Int) := by push_cast; rfl
    rw [h1]
    exact toInt32_of_range (by omega) (by omega)
  refine ⟨?_, ?_, ?_, ?_⟩
  · show WideRef.mk ptr (toInt32 ((N : Int) * (p : Int))) = _
    rw [eN]
  · show WideRef.mk ptr (toInt32 ((N : Int) * (p : Int)) + 0)
      = WideRef.mk ptr ((N : Int) * (p : Int))
    rw [eN, Int.add_zero]
    push_cast
    rfl
  · show WideRef.mk ptr (toInt32 ((n : Int) * (p : Int))) = _
    rw [en]
  · have hpos : (0 : Int) < (n : Int) := by exact_mod_cast hn
    show (if (0 : Int) < (n : Int) then
      some (MaskedLaneProxyRef.mk (WideRef.mk ptr (toInt32 ((n : Int) * (p : Int)) + 0))
        mask lane) else none) = _
    rw [if_pos hpos, en, Int.add_zero]

/-- Witness of C19: extent 3 and carried length 3, plane 1. -/
theorem C19_plane_stride_witness :
    (((MaskedArrayAccessor.fromPtr 4096 ((1 : Nat) : Int) (WideMask.fromBool true) :
      MaskedArrayAccessor 3 16).subscript 0).subscript 0).m_ref_wide_data
        = WideRef.ofArrayPointer 4096 3 ((1 : Nat) : Int) ∧
    (((MaskedUnboundArrayAccessor.fromPtr 4096 ((1 : Nat) : Int) ((3 : Nat) : Int)
        (WideMask.fromBool true) :
      MaskedUnboundArrayAccessor 16).subscript 0).subscript 0)
      = some ⟨⟨4096, ((3 * 1 : Nat) : Int)⟩, WideMask.fromBool true, 0⟩ :=
  ⟨(C19_plane_stride 3 16 4096 1 3 (WideMask.fromBool true) 0 (by decide) (by decide)
      (by decide)).2.1,
   (C19_plane_stride 3 16 4096 1 3 (WideMask.fromBool true) 0 (by decide) (by decide)
      (by decide)).2.2.2⟩

/-- Counterexample to C19 as stated: with extent and carried length 1431655766
and plane 3 the `int` product overflows, its low 32 bits are 2, and both
accessors start at the instance number 2, not at the instance number
`3 * 1431655766` = 4294967298 of `pointer[3]` and `pointer[n*3]`. -/
theorem C19_counterexample :
    (((MaskedArrayAccessor.fromPtr 4096 3 (WideMask.fromBool true) :
      MaskedArrayAccessor 1431655766 16).subscript 0).subscript 0).m_ref_wide_data
        = ⟨4096, 2⟩ ∧
    WideRef.ofArrayPointer 4096 1431655766 3 = ⟨4096, 4294967298⟩ ∧
    (((MaskedUnboundArrayAccessor.fromPtr 4096 3 1431655766 (WideMask.fromBool true) :
      MaskedUnboundArrayAccessor 16).subscript 0).subscript 0)
      = some ⟨⟨4096, 2⟩, WideMask.fromBool true, 0⟩ ∧
    (1431655766 : Int) * 3 = 4294967298 :=
  ⟨by decide, by decide, by decide, by decide⟩

/-- C20, the code at the failing input.  A masked unbounded-array lane proxy
with carried length 3 accepts the position `-1`: its assertion
`array_index < m_array_length` holds, and the proxy returned designates the
instance before the array.  The unmasked sibling `RefUnboundedArrayProxy`, whose
assertion is `array_index >= 0 && array_index < m_array_length`, rejects it. -/
theorem C20_negative_position_at_failing_input :
    (MaskedUnboundedArrayLaneProxy.mk ⟨4096, 0⟩ 3 (WideMask.fromBool true) 0 :
      MaskedUnboundedArrayLaneProxy 16).subscript (-1)
      = some ⟨⟨4096, -1⟩, WideMask.fromBool true, 0⟩ ∧
    (RefUnboundedArrayProxy.mk ⟨4096, 0⟩ 3).subscript (-1) = none :=
  ⟨by decide, by decide⟩

/-- What the two range checks accept: the masked proxy every position below the
carried length, negative ones included; the unmasked sibling exactly the
positions `0 ≤ k < n`. -/
theorem unbounded_subscript_isSome (W : Nat) (p : MaskedUnboundedArrayLaneProxy W)
    (r : RefUnboundedArrayProxy) (k : Int) :
    ((p.subscript k).isSome = true ↔ k < p.m_array_length) ∧
    ((r.subscript k).isSome = true ↔ (0 ≤ k ∧ k < r.m_array_length)) := by
  constructor
  · unfold MaskedUnboundedArrayLaneProxy.subscript
    by_cases h : k < p.m_array_length <;> simp [h]
  · unfold RefUnboundedArrayProxy.subscript
    by_cases h : (k ≥ 0 ∧ k < r.m_array_length)
    · rw [if_pos h]
      exact ⟨fun _ => h, fun _ => rfl⟩
    · rw [if_neg h]
      exact ⟨fun e => Bool.noConfusion e, fun e => absurd e h⟩


/-! ## Whole-array access, the uniform view and the variadic constructor -/

/-- Whole-array write through a masked array lane proxy where the arrays hold
the lane: for wide storage of float, int, transform handle, Vec2, Vec3, Vec4,
Color3, Matrix44, interned string and `Dual2<float>`, every masked array of `N`
wide storages lying inside the memory, every mask `m`, every lane `l < W` and
every `N`-element array `a`: when `m.is_on(l)` the assignment of `a` through the
lane-`l` proxy succeeds, lane `l` of every element `k < N` then reads `a[k]`,
every other lane of every element reads what it read before, and `get` copies
out `a`; when `m.is_off(l)` the assignment changes nothing.  The width is at
most 32, the largest a mask supports; for `Dual2<Vec3>`, whose sub-storages have
`SimdLaneCount` lanes, the same for the widths `W ≤ SimdLaneCount`. -/
theorem masked_array_write_in_width (N W : Nat) (hW : W ≤ 32) :
    MaskedArrayWrite float N W ∧ MaskedArrayWrite int N W ∧
    MaskedArrayWrite TransformationPtr N W ∧
    MaskedArrayWrite Vec2 N W ∧ MaskedArrayWrite Vec3 N W ∧ MaskedArrayWrite Vec4 N W ∧
    MaskedArrayWrite Color3 N W ∧ MaskedArrayWrite Matrix44 N W ∧
    MaskedArrayWrite ustring N W ∧ MaskedArrayWrite (Dual2 float) N W ∧
    (W ≤ SimdLaneCount → MaskedArrayWrite (Dual2 Vec3) N W) :=
  ⟨maskedArrayWrite_of_spec hW (fun s _ v hi => WideBuiltin.set_spec_wideBuiltin s v hi),
   maskedArrayWrite_of_spec hW (fun s _ v hi => WideBuiltin.set_spec_wideBuiltin s v hi),
   maskedArrayWrite_of_spec hW (fun s _ v hi => WideBuiltin.set_spec_wideBuiltin s v hi),
   maskedArrayWrite_of_spec hW (fun s _ v hi => WideVec2.set_spec_wideVec2 s v hi),
   maskedArrayWrite_of_spec hW (fun s _ v hi => WideVec3.set_spec_wideVec3 s v hi),
   maskedArrayWrite_of_spec hW (fun s _ v hi => WideVec4.set_spec_wideVec4 s v hi),
   maskedArrayWrite_of_spec hW (fun s _ v hi => WideColor3.set_spec_wideColor3 s v hi),
   maskedArrayWrite_of_spec hW (fun s _ v hi => WideMatrix44.set_spec_wideMatrix44 s v hi),
   maskedArrayWrite_of_spec hW (fun s _ v hi => WideUstring.set_spec_wideUstring s v hi),
   maskedArrayWrite_of_spec hW
     (fun s _ v hi => WideDual2Float.set_spec_wideDual2Float s v hi),
   fun hW2 => maskedArrayWrite_of_spec hW
     (fun s _ v hi => WideDual2Vec3.set_spec_wideDual2Vec3 s v (Nat.lt_of_lt_of_le hi hW2))⟩

/-- C21, the code at the failing input.  For an array of one
`Wide<Dual2<Vec3>, 32>` and the mask `Mask(1u << 20)`, which has lane 20 on, the
assignment of a one-element array through the lane-20 array proxy calls
`set(20, a[0])` on the element, which indexes the 16-lane arrays of its
sub-storages outside their bounds: there is no memory after the assignment in
which lane 20 of the element reads `a[0]`, and the whole-array write does not
hold of `Dual2<Vec3>` at width 32. -/
theorem C21_masked_array_write_at_failing_input :
    (WideMask.fromValue 1048576 : Mask).is_on 20 = true ∧
    (MaskedArrayLaneProxy.mk ⟨4096, 0⟩ (WideMask.fromValue 1048576) 20 :
      MaskedArrayLaneProxy 1 32).assign [sampleWideDual2Vec3 32]
        (CArray.replicate sampleDual2Vec3) = none ∧
    ¬ MaskedArrayWrite (Dual2 Vec3) 1 32 := by
  have hnone : (MaskedArrayLaneProxy.mk ⟨4096, 0⟩ (WideMask.fromValue 1048576) 20 :
      MaskedArrayLaneProxy 1 32).assign [sampleWideDual2Vec3 32]
        (CArray.replicate sampleDual2Vec3) = none := by
    unfold MaskedArrayLaneProxy.assign
    rw [if_pos (by decide)]
    rfl
  refine ⟨by decide, hnone, ?_⟩
  intro h
  obtain ⟨r, hr, _⟩ := (h [sampleWideDual2Vec3 32]
    (MaskedArrayLaneProxy.mk ⟨4096, 0⟩ (WideMask.fromValue 1048576) 20)
    (CArray.replicate sampleDual2Vec3) (by decide) (by decide) (by decide)).1 (by decide)
  rw [hnone] at hr
  cases hr

/-- Uniform write where the arrays hold the lanes: for wide storage `s` of
float, int, transform handle, Vec2, Vec3, Vec4, Color3, Matrix44, interned
string and `Dual2<float>`, every lane index `l` an unmasked lane proxy is
created with and every value `v`, the assignment of `v` through
`proxy.uniform()` succeeds and makes `get(i)` equal `v` for every lane `i < W`,
whatever `l` is; `make_uniform(s, v)` yields the same storage.  For
`Dual2<Vec3>`, whose sub-storages have `SimdLaneCount` lanes, the same for the
widths `W ≤ SimdLaneCount`. -/
theorem uniform_write_in_width (W : Nat) :
    UniformWrite float W ∧ UniformWrite int W ∧ UniformWrite TransformationPtr W ∧
    UniformWrite Vec2 W ∧ UniformWrite Vec3 W ∧ UniformWrite Vec4 W ∧
    UniformWrite Color3 W ∧ UniformWrite Matrix44 W ∧ UniformWrite ustring W ∧
    UniformWrite (Dual2 float) W ∧
    (W ≤ SimdLaneCount → UniformWrite (Dual2 Vec3) W) :=
  ⟨uniformWrite_of_spec (fun s _ v hi => WideBuiltin.set_spec_wideBuiltin s v hi),
   uniformWrite_of_spec (fun s _ v hi => WideBuiltin.set_spec_wideBuiltin s v hi),
   uniformWrite_of_spec (fun s _ v hi => WideBuiltin.set_spec_wideBuiltin s v hi),
   uniformWrite_of_spec (fun s _ v hi => WideVec2.set_spec_wideVec2 s v hi),
   uniformWrite_of_spec (fun s _ v hi => WideVec3.set_spec_wideVec3 s v hi),
   uniformWrite_of_spec (fun s _ v hi => WideVec4.set_spec_wideVec4 s v hi),
   uniformWrite_of_spec (fun s _ v hi => WideColor3.set_spec_wideColor3 s v hi),
   uniformWrite_of_spec (fun s _ v hi => WideMatrix44.set_spec_wideMatrix44 s v hi),
   uniformWrite_of_spec (fun s _ v hi => WideUstring.set_spec_wideUstring s v hi),
   uniformWrite_of_spec (fun s _ v hi => WideDual2Float.set_spec_wideDual2Float s v hi),
   fun hW => uniformWrite_of_spec
     (fun s _ v hi => WideDual2Vec3.set_spec_wideDual2Vec3 s v (Nat.lt_of_lt_of_le hi hW))⟩

/-- C22, the code at the failing input.  On a `Wide<Dual2<Vec3>, 32>` the loops
of `make_uniform(s, v)` and of the assignment through `proxy.uniform()` call
`set(i, v)` for `i` up to 31, and from `i = 16` on the call indexes the 16-lane
arrays of the sub-storages outside their bounds: there is no storage after the
loop in which every `get(i)`, `i < 32`, equals `v`, and the uniform write does
not hold of `Dual2<Vec3>` at width 32. -/
theorem C22_uniform_write_at_failing_input :
    make_uniform (sampleWideDual2Vec3 32) sampleDual2Vec3 = none ∧
    ((LaneProxy.mk (sampleWideDual2Vec3 32) 5).uniform).assign sampleDual2Vec3 = none ∧
    WideSpecialization.set (sampleWideDual2Vec3 32) 16 sampleDual2Vec3 = none ∧
    ¬ UniformWrite (Dual2 Vec3) 32 := by
  have hnone : make_uniform (sampleWideDual2Vec3 32) sampleDual2Vec3 = none := by
    unfold make_uniform
    have h16 : forLanes 32 (fun i acc => WideSpecialization.set acc i sampleDual2Vec3)
        (sampleWideDual2Vec3 32)
        = (forLanes 16 (fun i acc => WideSpecialization.set acc i sampleDual2Vec3)
            (sampleWideDual2Vec3 32)).bind
          (fun s => (List.range' 16 16).foldlM
            (fun acc i => WideSpecialization.set acc i sampleDual2Vec3) s) := by
      unfold forLanes
      have e : List.range 32 = List.range 16 ++ List.range' 16 16 := by decide
      rw [e, List.foldlM_append]
      rfl
    rw [h16]
    obtain ⟨r, hr, _⟩ := forLanes_invariant
      (fun i (acc : Wide (Dual2 Vec3) 32) => WideSpecialization.set acc i sampleDual2Vec3)
      (fun _ _ => True) 16 (sampleWideDual2Vec3 32) trivial (by
        intro i acc hi _
        obtain ⟨r, hr, _⟩ := WideDual2Vec3.set_spec_wideDual2Vec3 acc sampleDual2Vec3
          (show i < SimdLaneCount from hi)
        exact ⟨r, hr, trivial⟩)
    rw [hr]
    rfl
  refine ⟨hnone, hnone, rfl, ?_⟩
  intro h
  obtain ⟨r, _, _, hr⟩ := h (sampleWideDual2Vec3 32) 5 sampleDual2Vec3
  rw [hnone] at hr
  cases hr

/-- C26.  For every `BatchedTextureOutputs` built with a channel count `chans`
that is 1 or 3, the construction succeeds, `result().is<float>()` holds exactly
when `chans == 1` and `result().is<Color3>()` holds exactly when `chans == 3`;
with any other `chans` the construction fails its assertion. -/
theorem C26_result_type_of_chans (result : Nat) (resultHasDerivs : Bool) (chans : Int)
    (alpha : Nat) (alphaHasDerivs : Bool) (errormessage : Nat) (mask : Mask) :
    ((chans = 1 ∨ chans = 3) →
      ∃ o, BatchedTextureOutputs.create result resultHasDerivs chans alpha alphaHasDerivs
          errormessage mask = some o ∧
        (o.result.is (StaticType.plain ElemType.float) = true ↔ chans = 1) ∧
        (o.result.is (StaticType.plain ElemType.Color3) = true ↔ chans = 3)) ∧
    (¬ (chans = 1 ∨ chans = 3) →
      BatchedTextureOutputs.create result resultHasDerivs chans alpha alphaHasDerivs
        errormessage mask = none) := by
  constructor
  · intro h
    refine ⟨_, if_pos h, ?_⟩
    rcases h with h | h
    · subst h
      rw [BatchedTextureOutputs.result_is_plain, BatchedTextureOutputs.result_is_plain]
      dsimp only
      exact ⟨by decide, by decide⟩
    · subst h
      rw [BatchedTextureOutputs.result_is_plain, BatchedTextureOutputs.result_is_plain]
      dsimp only
      exact ⟨by decide, by decide⟩
  · intro h
    exact if_neg h

/-- Witness of C26: three channels give a color result, five channels fail the
assertion. -/
theorem C26_result_type_of_chans_witness :
    (∃ o, BatchedTextureOutputs.create 4096 true 3 8192 false 0 (WideMask.fromBool true)
        = some o ∧
      (o.result.is (StaticType.plain ElemType.float) = true ↔ (3 : Int) = 1) ∧
      (o.result.is (StaticType.plain ElemType.Color3) = true ↔ (3 : Int) = 3)) ∧
    BatchedTextureOutputs.create 4096 true 5 8192 false 0 (WideMask.fromBool true) = none :=
  ⟨(C26_result_type_of_chans 4096 true 3 8192 false 0 (WideMask.fromBool true)).1
      (by decide),
   (C26_result_type_of_chans 4096 true 5 8192 false 0 (WideMask.fromBool true)).2
      (by decide)⟩

/-- C29, the code at the failing input.  The masked array lane proxy of an array
of extent 3 accepts the positions 3 and -1: `operator[]` has no assertion, and
the proxies it returns designate the instance after the array and the one before
it.  The unmasked sibling `RefArrayProxy`, whose `operator[]` asserts
`array_index >= 0 && array_index < ArrayLenT`, rejects both. -/
theorem C29_out_of_range_position_at_failing_input :
    (MaskedArrayLaneProxy.mk ⟨4096, 0⟩ (WideMask.fromBool true) 0 :
      MaskedArrayLaneProxy 3 16).subscript 3
      = ⟨⟨4096, 3⟩, WideMask.fromBool true, 0⟩ ∧
    (MaskedArrayLaneProxy.mk ⟨4096, 0⟩ (WideMask.fromBool true) 0 :
      MaskedArrayLaneProxy 3 16).subscript (-1)
      = ⟨⟨4096, -1⟩, WideMask.fromBool true, 0⟩ ∧
    (RefArrayProxy.mk ⟨4096, 0⟩ : RefArrayProxy 3).subscript 3 = none ∧
    (RefArrayProxy.mk ⟨4096, 0⟩ : RefArrayProxy 3).subscript (-1) = none :=
  ⟨by decide, by decide, by decide, by decide⟩


/-! ## The batched texture-option unpacker -/

namespace BatchedTextureOptionProvider

/-- The run of all the blocks of `updateOption` from the state after `int j = 0`. -/
theorem updateOptionBlocks_run (decls : TextureDecls) (m_opt : OptionData) {l : Nat}
    (hl : l < SimdLaneCount) (opt : TextureOpt) (mc : CArray float 4) :
    ∃ st, updateOptionBlocks decls m_opt l opt mc = some st ∧
      st.j = cursorAt m_opt MAX_OPTIONS ∧
      st.reads = denseReads m_opt MAX_OPTIONS ∧
      keptOutside (touchedBetween m_opt 0 MAX_OPTIONS) opt st.opt :=
  run_blocks decls m_opt l opt 0 (optionBlocks decls m_opt l) 0
    (optionBlocks_blocks decls m_opt hl) ⟨opt, mc, 0, []⟩ (Nat.le_refl 0)
    (Nat.le_refl 16) rfl rfl (keptOutside_refl _ _)

end BatchedTextureOptionProvider

/-- C23.  Dense cursor: for every option record, every output record and every
lane `l < SimdLaneCount`, `updateOption` returns; the reads of the pointer array
it has made are exactly one for every active option `i < MAX_OPTIONS`, in the
order of the ids, at the index `j` that is the number of active options with an
id below `i`, an index inside the pointer array; the output record and the
member `m_missingcolor` it leaves are those of the unpacker of the
specification, which takes the data of every active option `i` from the pointer
at that index `j`; and the cursor ends at the number of reads, which is the
number of set bits of `active` among the positions `0..MAX_OPTIONS-1`. -/
theorem C23_dense_cursor (decls : TextureDecls) (provider : BatchedTextureOptionProvider)
    (m_opt : BatchedTextureOptionProvider.OptionData) (opt : TextureOpt) (l : Nat)
    (hm : provider.m_opt = some m_opt) (hl : l < SimdLaneCount) :
    ∃ st, BatchedTextureOptionProvider.updateOptionState decls provider opt l = some st ∧
      st.reads = BatchedTextureOptionProvider.denseReads m_opt
        BatchedTextureOptionProvider.MAX_OPTIONS ∧
      (∀ i j, (i, j) ∈ st.reads ↔
        (i < BatchedTextureOptionProvider.MAX_OPTIONS ∧ m_opt.active.is_on i = true ∧
          j = BatchedTextureOptionProvider.cursorAt m_opt i)) ∧
      st.j = st.reads.length ∧
      st.j = popcount BatchedTextureOptionProvider.MAX_OPTIONS m_opt.active.m_value ∧
      (∀ i, i < BatchedTextureOptionProvider.MAX_OPTIONS → m_opt.active.is_on i = true →
        ∃ p, m_opt.options.read (BatchedTextureOptionProvider.cursorAt m_opt i) = some p) ∧
      BatchedTextureOptionProvider.denseUpdate decls m_opt l opt provider.m_missingcolor
        = some (st.opt, st.m_missingcolor) := by
  obtain ⟨st, hst, hj, hr, _⟩ :=
    BatchedTextureOptionProvider.updateOptionBlocks_run decls m_opt hl opt
      provider.m_missingcolor
  refine ⟨st, ?_, hr, ?_, ?_, ?_, ?_, ?_⟩
  · unfold BatchedTextureOptionProvider.updateOptionState
    rw [hm]
    exact hst
  · intro i j
    rw [hr]
    exact BatchedTextureOptionProvider.mem_denseReads m_opt _ i j
  · rw [hr, BatchedTextureOptionProvider.length_denseReads]
    exact hj
  · rw [hj]
    exact BatchedTextureOptionProvider.cursorAt_eq_popcount m_opt _ (by decide)
  · intro i hi _
    exact CArray.read_isSome m_opt.options
      (Nat.lt_of_le_of_lt (BatchedTextureOptionProvider.cursorAt_le m_opt i) hi)
  · rw [← BatchedTextureOptionProvider.updateOptionBlocks_eq_dense, hst]
    rfl

/-- Witness of C23: the scenario of the specification, lane 3. -/
theorem C23_dense_cursor_witness :
    ∃ st, BatchedTextureOptionProvider.updateOptionState TextureDecls.sample
        (BatchedTextureOptionProvider.create (some sampleScenario)) TextureOpt.sample 3
        = some st ∧
      st.reads = BatchedTextureOptionProvider.denseReads sampleScenario
        BatchedTextureOptionProvider.MAX_OPTIONS ∧
      (∀ i j, (i, j) ∈ st.reads ↔
        (i < BatchedTextureOptionProvider.MAX_OPTIONS ∧
          sampleScenario.active.is_on i = true ∧
          j = BatchedTextureOptionProvider.cursorAt sampleScenario i)) ∧
      st.j = st.reads.length ∧
      st.j = popcount BatchedTextureOptionProvider.MAX_OPTIONS
        sampleScenario.active.m_value ∧
      (∀ i, i < BatchedTextureOptionProvider.MAX_OPTIONS →
        sampleScenario.active.is_on i = true →
        ∃ p, sampleScenario.options.read
          (BatchedTextureOptionProvider.cursorAt sampleScenario i) = some p) ∧
      BatchedTextureOptionProvider.denseUpdate TextureDecls.sample sampleScenario 3
          TextureOpt.sample
          (BatchedTextureOptionProvider.create (some sampleScenario)).m_missingcolor
        = some (st.opt, st.m_missingcolor) :=
  C23_dense_cursor TextureDecls.sample
    (BatchedTextureOptionProvider.create (some sampleScenario)) sampleScenario
    TextureOpt.sample 3 rfl (by decide)

/-- C24 as stated fails: with `MISSINGALPHA` alone active, `MISSINGCOLOR` is
inactive and yet the field `missingcolor`, which the caller supplied as the
pointer 512, points to the member `m_missingcolor` of the provider after
`updateOption`. -/
theorem C24_counterexample :
    sampleAlphaOnly.active.is_on BatchedTextureOptionProvider.MISSINGCOLOR = false ∧
    TextureOpt.sample.missingcolor = FloatPtr.caller 512 ∧
    (BatchedTextureOptionProvider.updateOption TextureDecls.sample
        (BatchedTextureOptionProvider.create (some sampleAlphaOnly)) TextureOpt.sample 0).map
      (fun r => r.1.missingcolor) = some FloatPtr.m_missingcolor :=
  ⟨by decide, rfl, by decide⟩

/-- C24, as amended.  For every option record, every lane `l < SimdLaneCount`
and every output record `opt` the caller supplies, `updateOption(opt, l)`
returns, and every field none of whose assigning options is active holds the
value the caller supplied: in particular both subimage fields when `SUBIMAGE` is
inactive, and the field `missingcolor` when `MISSINGCOLOR` and `MISSINGALPHA`
are both inactive. -/
theorem C24_inactive_fields_kept (decls : TextureDecls)
    (provider : BatchedTextureOptionProvider)
    (m_opt : BatchedTextureOptionProvider.OptionData) (opt : TextureOpt) (l : Nat)
    (hm : provider.m_opt = some m_opt) (hl : l < SimdLaneCount) :
    ∃ r, BatchedTextureOptionProvider.updateOption decls provider opt l = some r ∧
      (∀ f : BatchedTextureOptionProvider.Field,
        (∀ k, k ∈ f.owners → m_opt.active.is_on k = false) → f.same opt r.1) ∧
      (m_opt.active.is_on BatchedTextureOptionProvider.SUBIMAGE = false →
        r.1.subimage = opt.subimage ∧ r.1.subimagename = opt.subimagename) ∧
      (m_opt.active.is_on BatchedTextureOptionProvider.MISSINGCOLOR = false →
        m_opt.active.is_on BatchedTextureOptionProvider.MISSINGALPHA = false →
        r.1.missingcolor = opt.missingcolor) := by
  obtain ⟨st, hst, _, _, hk⟩ :=
    BatchedTextureOptionProvider.updateOptionBlocks_run decls m_opt hl opt
      provider.m_missingcolor
  have hall : ∀ f : BatchedTextureOptionProvider.Field,
      (∀ k, k ∈ f.owners → m_opt.active.is_on k = false) → f.same opt st.opt := by
    intro f hf
    exact hk f (fun k hkm =>
      BatchedTextureOptionProvider.touchedBetween_of_off m_opt _ _ k (hf k hkm))
  refine ⟨(st.opt, ⟨provider.m_opt, st.m_missingcolor⟩), ?_, hall, ?_, ?_⟩
  · unfold BatchedTextureOptionProvider.updateOption
      BatchedTextureOptionProvider.updateOptionState
    rw [hm]
    show (BatchedTextureOptionProvider.updateOptionBlocks decls m_opt l opt
      provider.m_missingcolor).map _ = _
    rw [hst]
    rfl
  · intro h
    have h1 : BatchedTextureOptionProvider.Field.same .subimage opt st.opt :=
      hall .subimage (fun k hkm => by
        have : k = BatchedTextureOptionProvider.SUBIMAGE := by
          simpa [BatchedTextureOptionProvider.Field.owners] using hkm
        rw [this]
        exact h)
    have h2 : BatchedTextureOptionProvider.Field.same .subimagename opt st.opt :=
      hall .subimagename (fun k hkm => by
        have : k = BatchedTextureOptionProvider.SUBIMAGE := by
          simpa [BatchedTextureOptionProvider.Field.owners] using hkm
        rw [this]
        exact h)
    exact ⟨h1.symm, h2.symm⟩
  · intro hc ha
    have h1 : BatchedTextureOptionProvider.Field.same .missingcolor opt st.opt :=
      hall .missingcolor (fun k hkm => by
        have : k = BatchedTextureOptionProvider.MISSINGCOLOR
            ∨ k = BatchedTextureOptionProvider.MISSINGALPHA := by
          simpa [BatchedTextureOptionProvider.Field.owners] using hkm
        rcases this with e | e
        · rw [e]
          exact hc
        · rw [e]
          exact ha)
    exact h1.symm

/-- Witness of C24: in the scenario of the specification only `SWIDTH` and
`INTERP` are active, and the fields of the other options stay as supplied. -/
theorem C24_inactive_fields_kept_witness :
    ∃ r, BatchedTextureOptionProvider.updateOption TextureDecls.sample
        (BatchedTextureOptionProvider.create (some sampleScenario)) TextureOpt.sample 3
        = some r ∧
      r.1.subimage = TextureOpt.sample.subimage ∧
      r.1.subimagename = TextureOpt.sample.subimagename ∧
      r.1.missingcolor = TextureOpt.sample.missingcolor := by
  obtain ⟨r, hr, _, hs, hmc⟩ := C24_inactive_fields_kept TextureDecls.sample
    (BatchedTextureOptionProvider.create (some sampleScenario)) sampleScenario
    TextureOpt.sample 3 rfl (by decide)
  exact ⟨r, hr, (hs (by decide)).1, (hs (by decide)).2, hmc (by decide) (by decide)⟩

/-- C25.  For every active numeric option `i` (swidth, twidth, rwidth, sblur,
tblur, rblur, fill, time) with field `field`, every lane `l < SimdLaneCount` and
what is behind the pointer at the dense cursor of `i`: `updateOption` returns,
and the field then holds lane `l` of the wide storage behind the pointer when
the `varying` bit of `i` is set and the single value behind the pointer when it
is clear, read as float when the `type` bit of `i` is set and as int converted
to float when it is clear. -/
theorem C25_numeric_option (decls : TextureDecls) (provider : BatchedTextureOptionProvider)
    (m_opt : BatchedTextureOptionProvider.OptionData) (opt : TextureOpt) (l : Nat)
    (hm : provider.m_opt = some m_opt) (hl : l < SimdLaneCount)
    (i : Nat) (field : TextureOpt → float)
    (hfield : BatchedTextureOptionProvider.numericField i = some field)
    (hact : m_opt.active.is_on i = true) (p : BatchedTextureOptionProvider.OptionPointee)
    (hp : m_opt.options.read (BatchedTextureOptionProvider.cursorAt m_opt i) = some p) :
    ∃ st, BatchedTextureOptionProvider.updateOptionState decls provider opt l = some st ∧
      (m_opt.varying.is_on i = true → m_opt.type.is_on i = true →
        some (field st.opt) = WideSpecialization.get p.asWideFloat l) ∧
      (m_opt.varying.is_on i = true → m_opt.type.is_on i = false →
        some (field st.opt)
          = (WideSpecialization.get p.asWideInt l).map decls.static_cast_float) ∧
      (m_opt.varying.is_on i = false → m_opt.type.is_on i = true →
        field st.opt = p.asFloat) ∧
      (m_opt.varying.is_on i = false → m_opt.type.is_on i = false →
        field st.opt = decls.static_cast_float p.asInt) := by
  have hi : i < 0 + (BatchedTextureOptionProvider.optionBlocks decls m_opt l).length := by
    have := BatchedTextureOptionProvider.numericField_lt i field hfield
    exact Nat.lt_of_lt_of_le this (Nat.le_refl 16)
  obtain ⟨st, hst, hnum, _⟩ := BatchedTextureOptionProvider.run_blocks_value decls m_opt l
    (BatchedTextureOptionProvider.optionBlocks decls m_opt l) 0
    (BatchedTextureOptionProvider.optionBlocks_blocks decls m_opt hl)
    ⟨opt, provider.m_missingcolor, 0, []⟩ (Nat.le_refl 16) rfl rfl i (Nat.zero_le i) hi hact
    p hp
  have hv := hnum field hfield
  unfold BatchedTextureOptionProvider.optionCaseValue at hv
  rw [WideMask.subscript_eq_is_on, WideMask.subscript_eq_is_on] at hv
  refine ⟨st, ?_, ?_, ?_, ?_, ?_⟩
  · unfold BatchedTextureOptionProvider.updateOptionState
    rw [hm]
    exact hst
  · intro h1 h2
    rw [h1, h2] at hv
    exact hv
  · intro h1 h2
    rw [h1, h2] at hv
    exact hv
  · intro h1 h2
    rw [h1, h2] at hv
    exact Option.some.inj hv
  · intro h1 h2
    rw [h1, h2] at hv
    exact Option.some.inj hv

/-- Witness of C25: in the scenario of the specification `SWIDTH` is active,
varying and float, and the field `swidth` receives lane 3 of the float storage
behind the first pointer. -/
theorem C25_numeric_option_witness :
    ∃ st, BatchedTextureOptionProvider.updateOptionState TextureDecls.sample
        (BatchedTextureOptionProvider.create (some sampleScenario)) TextureOpt.sample 3
        = some st ∧
      some st.opt.swidth = WideSpecialization.get
        (BatchedTextureOptionProvider.OptionPointee.sample 100 "linear").asWideFloat 3 := by
  obtain ⟨st, hst, h1, _⟩ := C25_numeric_option TextureDecls.sample
    (BatchedTextureOptionProvider.create (some sampleScenario)) sampleScenario
    TextureOpt.sample 3 rfl (by decide) BatchedTextureOptionProvider.SWIDTH
    TextureOpt.swidth rfl (by decide)
    (BatchedTextureOptionProvider.OptionPointee.sample 100 "linear") rfl
  exact ⟨st, hst, h1 (by decide) (by decide)⟩

/-- C28.  For the `INTERP` option when active, every lane `l < SimdLaneCount`
and what is behind the pointer at the dense cursor of `INTERP`: `updateOption`
returns; with the `type` bit set the interpolation mode written is the code of
the name read (lane `l` of the string storage when varying, the single string
otherwise), which is Bilinear for "linear", SmartBicubic for "smartcubic",
Bicubic for "cubic", and Closest for "closest" and for every other name; with the
`type` bit clear it is the int read, cast to the mode.  In the scenario of the
specification, uniform and the string "linear", the mode is the Bilinear code. -/
theorem C28_interp_option (decls : TextureDecls) (provider : BatchedTextureOptionProvider)
    (m_opt : BatchedTextureOptionProvider.OptionData) (opt : TextureOpt) (l : Nat)
    (hm : provider.m_opt = some m_opt) (hl : l < SimdLaneCount)
    (hact : m_opt.active.is_on BatchedTextureOptionProvider.INTERP = true)
    (p : BatchedTextureOptionProvider.OptionPointee)
    (hp : m_opt.options.read
      (BatchedTextureOptionProvider.cursorAt m_opt BatchedTextureOptionProvider.INTERP)
        = some p) :
    ∃ st, BatchedTextureOptionProvider.updateOptionState decls provider opt l = some st ∧
      (m_opt.type.is_on BatchedTextureOptionProvider.INTERP = true →
        ∃ name,
          (if m_opt.varying.is_on BatchedTextureOptionProvider.INTERP = true then
            WideSpecialization.get p.asWideUstring l else some p.asUstring) = some name ∧
          st.opt.interpmode =
            (if name = ⟨"linear"⟩ then decls.InterpBilinear
             else if name = ⟨"smartcubic"⟩ then decls.InterpSmartBicubic
             else if name = ⟨"cubic"⟩ then decls.InterpBicubic
             else decls.InterpClosest)) ∧
      (m_opt.type.is_on BatchedTextureOptionProvider.INTERP = false →
        ∃ n : int,
          (if m_opt.varying.is_on BatchedTextureOptionProvider.INTERP = true then
            WideSpecialization.get p.asWideInt l else some p.asInt) = some n ∧
          st.opt.interpmode = ⟨n⟩) ∧
      (m_opt.type.is_on BatchedTextureOptionProvider.INTERP = true →
        m_opt.varying.is_on BatchedTextureOptionProvider.INTERP = false →
        p.asUstring = ⟨"linear"⟩ → st.opt.interpmode = decls.InterpBilinear) := by
  obtain ⟨st, hst, _, hint⟩ := BatchedTextureOptionProvider.run_blocks_value decls m_opt l
    (BatchedTextureOptionProvider.optionBlocks decls m_opt l) 0
    (BatchedTextureOptionProvider.optionBlocks_blocks decls m_opt hl)
    ⟨opt, provider.m_missingcolor, 0, []⟩ (Nat.le_refl 16) rfl rfl
    BatchedTextureOptionProvider.INTERP (Nat.zero_le _)
    (show (13 : Nat) < 0 + 16 by decide) hact p hp
  have hv := hint rfl
  unfold BatchedTextureOptionProvider.optionCaseDecodeValue at hv
  rw [WideMask.subscript_eq_is_on, WideMask.subscript_eq_is_on] at hv
  have hcode : ∀ name : ustring,
      BatchedTextureOptionProvider.texInterpToCode decls name =
        (if name = ⟨"linear"⟩ then decls.InterpBilinear
         else if name = ⟨"smartcubic"⟩ then decls.InterpSmartBicubic
         else if name = ⟨"cubic"⟩ then decls.InterpBicubic
         else decls.InterpClosest) := by
    intro name
    rw [BatchedTextureOptionProvider.texInterpToCode_eq]
    by_cases h1 : name = ⟨"smartcubic"⟩
    · rw [if_pos h1, if_neg (by rw [h1]; decide), if_pos h1]
    · rw [if_neg h1, if_neg h1]
  obtain ⟨name, hname⟩ := WideUstring.get_isSome_wideUstring p.asWideUstring hl
  obtain ⟨n, hn⟩ := WideBuiltin.get_isSome_wideBuiltin p.asWideInt hl
  have hname2 : ((ConstWideAccessor.mk p.asWideUstring).subscript l).toData = some name :=
    hname
  have hn2 : ((ConstWideAccessor.mk p.asWideInt).subscript l).toData = some n := hn
  have hname3 : WideSpecialization.get p.asWideUstring l = some name := hname
  have hn3 : WideSpecialization.get p.asWideInt l = some n := hn
  rw [hname2, hn2] at hv
  refine ⟨st, ?_, ?_, ?_, ?_⟩
  · unfold BatchedTextureOptionProvider.updateOptionState
    rw [hm]
    exact hst
  · intro ht
    rw [ht] at hv
    by_cases hvar : m_opt.varying.is_on BatchedTextureOptionProvider.INTERP = true
    · rw [hvar] at hv
      refine ⟨name, by rw [if_pos hvar, hname3], ?_⟩
      rw [← hcode name]
      exact Option.some.inj hv
    · rw [Bool.not_eq_true] at hvar
      rw [hvar] at hv
      refine ⟨p.asUstring, by rw [hvar]; rfl, ?_⟩
      rw [← hcode p.asUstring]
      exact Option.some.inj hv
  · intro ht
    rw [ht] at hv
    by_cases hvar : m_opt.varying.is_on BatchedTextureOptionProvider.INTERP = true
    · rw [hvar] at hv
      exact ⟨n, by rw [if_pos hvar, hn3], Option.some.inj hv⟩
    · rw [Bool.not_eq_true] at hvar
      rw [hvar] at hv
      exact ⟨p.asInt, by rw [hvar]; rfl, Option.some.inj hv⟩
  · intro ht hvar hlin
    rw [ht, hvar] at hv
    have := Option.some.inj hv
    rw [this, hcode, hlin, if_pos rfl]

/-- Witness of C28: in the scenario of the specification `INTERP` is active,
uniform and the string "linear" behind the second pointer, and the mode written
is the Bilinear code. -/
theorem C28_interp_option_witness :
    ∃ st, BatchedTextureOptionProvider.updateOptionState TextureDecls.sample
        (BatchedTextureOptionProvider.create (some sampleScenario)) TextureOpt.sample 3
        = some st ∧
      st.opt.interpmode = TextureDecls.sample.InterpBilinear := by
  obtain ⟨st, hst, _, _, h3⟩ := C28_interp_option TextureDecls.sample
    (BatchedTextureOptionProvider.create (some sampleScenario)) sampleScenario
    TextureOpt.sample 3 rfl (by decide) (by decide)
    (BatchedTextureOptionProvider.OptionPointee.sample 101 "linear") rfl
  exact ⟨st, hst, h3 (by decide) (by decide) rfl⟩


/-! ## Lane masks: `&`, `|`, `any_off`, double inversion -/

/-- C32.  For every two masks `a`, `b` of the same width `W ≤ 32` and every lane
`i < W`: `(a & b).is_on(i)` holds exactly when `a.is_on(i)` and `b.is_on(i)`,
`(a | b).is_on(i)` exactly when `a.is_on(i)` or `b.is_on(i)`; `a &= b` and
`a |= b` leave in `a` the masks `a & b` and `a | b`; and when neither `a` nor
`b` has a bit at a position `≥ W`, neither `a & b` nor `a | b` has one. -/
theorem C32_and_or (W : Nat) (hW : W ≤ 32) (a b : WideMask W) :
    (∀ i, i < W → ((a.and b).is_on i = true ↔ (a.is_on i = true ∧ b.is_on i = true))) ∧
    (∀ i, i < W → ((a.or b).is_on i = true ↔ (a.is_on i = true ∨ b.is_on i = true))) ∧
    a.andAssign b = a.and b ∧ a.orAssign b = a.or b ∧
    (a.inWidth → b.inWidth → (a.and b).inWidth ∧ (a.or b).inWidth) := by
  refine ⟨?_, ?_, rfl, rfl, ?_⟩
  · intro i hi
    have hi32 : i < 32 := by omega
    rw [WideMask.is_on_eq_testBit _ hi32, WideMask.is_on_eq_testBit _ hi32,
      WideMask.is_on_eq_testBit _ hi32, WideMask.testBit_and_mask, Bool.and_eq_true]
  · intro i hi
    have hi32 : i < 32 := by omega
    rw [WideMask.is_on_eq_testBit _ hi32, WideMask.is_on_eq_testBit _ hi32,
      WideMask.is_on_eq_testBit _ hi32, WideMask.testBit_or_mask, Bool.or_eq_true]
  · intro ha hb
    constructor
    · intro k hk
      rw [WideMask.testBit_and_mask, ha k hk]
      rfl
    · intro k hk
      rw [WideMask.testBit_or_mask, ha k hk, hb k hk]
      rfl

/-- Witness of C32 at width 16: the masks with lanes {0, 2} and {2, 3} on. -/
theorem C32_and_or_witness :
    (((WideMask.fromValue 5 : WideMask 16).and (WideMask.fromValue 12)).is_on 2 = true ↔
      ((WideMask.fromValue 5 : WideMask 16).is_on 2 = true ∧
        (WideMask.fromValue 12 : WideMask 16).is_on 2 = true)) ∧
    (((WideMask.fromValue 5 : WideMask 16).or (WideMask.fromValue 12)).is_on 3 = true ↔
      ((WideMask.fromValue 5 : WideMask 16).is_on 3 = true ∨
        (WideMask.fromValue 12 : WideMask 16).is_on 3 = true)) :=
  ⟨(C32_and_or 16 (by decide) (WideMask.fromValue 5) (WideMask.fromValue 12)).1 2
      (by decide),
   (C32_and_or 16 (by decide) (WideMask.fromValue 5) (WideMask.fromValue 12)).2.1 3
      (by decide)⟩

/-- C33 as stated fails: the width-16 mask built from the raw pattern `0x10000`
has every lane below 16 off, and `any_off()` is false. -/
theorem C33_counterexample :
    (WideMask.fromValue 65536 : WideMask 16).any_off = false ∧
    (WideMask.fromValue 65536 : WideMask 16).is_off 0 = true ∧
    (∃ i, i < 16 ∧ (WideMask.fromValue 65536 : WideMask 16).is_off i = true) :=
  ⟨by decide, by decide, ⟨0, by decide, by decide⟩⟩

/-- C33, as amended.  For every mask `m` of width `1 ≤ W ≤ 32`: `any_off()` is
the negation of `all_on()`; and when `m` has no bit at a position `≥ W`,
`any_off()` is true exactly when some lane `i < W` is off. -/
theorem C33_any_off (W : Nat) (_h1 : 1 ≤ W) (hW : W ≤ 32) (m : WideMask W) :
    m.any_off = !m.all_on ∧
    (m.inWidth → (m.any_off = true ↔ ∃ i, i < W ∧ m.is_off i = true)) := by
  constructor
  · unfold WideMask.any_off WideMask.all_on
    by_cases h : m.m_value < fullMask W
    · have h2 : ¬ m.m_value ≥ fullMask W := by omega
      simp [h, h2]
    · have h2 : m.m_value ≥ fullMask W := by omega
      simp [h, h2]
  · intro hm
    unfold WideMask.any_off
    rw [decide_eq_true_iff, WideMask.lt_fullMask_iff m hW hm]
    constructor
    · rintro ⟨i, hi, hb⟩
      refine ⟨i, hi, ?_⟩
      rw [WideMask.is_off_eq_testBit _ (by omega), hb]
      rfl
    · rintro ⟨i, hi, hoff⟩
      refine ⟨i, hi, ?_⟩
      rw [WideMask.is_off_eq_testBit _ (by omega)] at hoff
      simpa using hoff

/-- Witness of C33 at width 16: the mask with lanes 0 and 2 on has a lane off. -/
theorem C33_any_off_witness :
    (WideMask.fromValue 5 : WideMask 16).any_off
      = !(WideMask.fromValue 5 : WideMask 16).all_on ∧
    ((WideMask.fromValue 5 : WideMask 16).any_off = true ↔
      ∃ i, i < 16 ∧ (WideMask.fromValue 5 : WideMask 16).is_off i = true) :=
  ⟨(C33_any_off 16 (by decide) (by decide) (WideMask.fromValue 5)).1,
   (C33_any_off 16 (by decide) (by decide) (WideMask.fromValue 5)).2
     ((WideMask.inWidth_iff_lt _).mpr (by decide))⟩

/-- C40.  For every mask `m` of width `1 ≤ W ≤ 32`, `m.invert().invert()` is `m`
with every bit at a position `≥ W` cleared, so it is `m` when `m` has no such
bit; and for all masks `a`, `b` of that width `~(a & b) == (~a) | (~b)` and
`~(a | b) == (~a) & (~b)`. -/
theorem C40_double_invert (W : Nat) (_h1 : 1 ≤ W) (hW : W ≤ 32) (m a b : WideMask W) :
    (∀ i, m.invert.invert.m_value.testBit i = (decide (i < W) && m.m_value.testBit i)) ∧
    m.invert.invert.m_value = m.m_value % 2 ^ W ∧
    (m.inWidth → m.invert.invert = m) ∧
    (a.and b).not = (a.not).or (b.not) ∧
    (a.or b).not = (a.not).and (b.not) := by
  refine ⟨WideMask.testBit_invert_invert m hW, ?_, ?_, ?_, ?_⟩
  · apply Nat.eq_of_testBit_eq
    intro i
    rw [WideMask.testBit_invert_invert m hW, Nat.testBit_mod_two_pow]
  · intro hm
    apply WideMask.eq_of_testBit_eq_mask
    intro i
    rw [WideMask.testBit_invert_invert m hW]
    by_cases hi : i < W
    · simp [hi]
    · simp [hi, hm i (Nat.not_lt.mp hi)]
  · apply WideMask.eq_of_testBit_eq_mask
    intro i
    show (a.and b).invert.m_value.testBit i = (a.invert.or b.invert).m_value.testBit i
    rw [WideMask.testBit_invert _ hW, WideMask.testBit_and_mask, WideMask.testBit_or_mask,
      WideMask.testBit_invert _ hW, WideMask.testBit_invert _ hW]
    cases decide (i < W) <;> cases a.m_value.testBit i <;> cases b.m_value.testBit i <;> rfl
  · apply WideMask.eq_of_testBit_eq_mask
    intro i
    show (a.or b).invert.m_value.testBit i = (a.invert.and b.invert).m_value.testBit i
    rw [WideMask.testBit_invert _ hW, WideMask.testBit_or_mask, WideMask.testBit_and_mask,
      WideMask.testBit_invert _ hW, WideMask.testBit_invert _ hW]
    cases decide (i < W) <;> cases a.m_value.testBit i <;> cases b.m_value.testBit i <;> rfl

/-- Witness of C40 at width 16: the mask built from the raw pattern `0x10005`
comes back from two inversions without its bit at position 16. -/
theorem C40_double_invert_witness :
    (WideMask.fromValue 65541 : WideMask 16).invert.invert.m_value = 65541 % 2 ^ 16 ∧
    ((WideMask.fromValue 5 : WideMask 16).and (WideMask.fromValue 12)).not
      = ((WideMask.fromValue 5 : WideMask 16).not).or
          ((WideMask.fromValue 12 : WideMask 16).not) :=
  ⟨(C40_double_invert 16 (by decide) (by decide) (WideMask.fromValue 65541)
      (WideMask.fromValue 5) (WideMask.fromValue 12)).2.1,
   (C40_double_invert 16 (by decide) (by decide) (WideMask.fromValue 65541)
      (WideMask.fromValue 5) (WideMask.fromValue 12)).2.2.2.1⟩


/-! ## Widths of the vector dual, index safety, the null record, the two
bridges, planes, reads through proxies, copies -/

/-- C31, the code at the failing input.  The three sub-storages of
`Wide<Dual2<Vec3>, WidthT>` are declared `Wide<Vec3>`, which is
`Wide<Vec3, SimdLaneCount>`: their width is `SimdLaneCount` for every `WidthT`.
In a storage declared with 32 lanes, `set(20, v)` writes outside the 16-lane
sub-storages, where the scalar dual `Wide<Dual2<float>, 32>`, whose arrays are
`float x[WidthT]`, has lane 20; a storage declared with 8 lanes holds a lane
12. -/
theorem C31_sub_storage_width_at_failing_input :
    (∀ (W : Nat) (s : WideDual2Vec3 W),
      s.width = W ∧ s.x.width = SimdLaneCount ∧ s.dx.width = SimdLaneCount ∧
        s.dy.width = SimdLaneCount) ∧
    (WideDual2Vec3.zero : WideDual2Vec3 32).width = 32 ∧
    (WideDual2Vec3.zero : WideDual2Vec3 32).x.width = 16 ∧
    (WideDual2Vec3.zero : WideDual2Vec3 32).set 20
      ⟨⟨⟨1⟩, ⟨2⟩, ⟨3⟩⟩, ⟨⟨4⟩, ⟨5⟩, ⟨6⟩⟩, ⟨⟨7⟩, ⟨8⟩, ⟨9⟩⟩⟩ = none ∧
    (WideDual2Vec3.zero : WideDual2Vec3 32).get 20 = none ∧
    (∃ r, (WideDual2Float.zero : WideDual2Float 32).set 20 ⟨⟨1⟩, ⟨2⟩, ⟨3⟩⟩ = some r) ∧
    (∃ v, (WideDual2Vec3.zero : WideDual2Vec3 8).get 12 = some v) :=
  ⟨fun _ _ => ⟨rfl, rfl, rfl, rfl⟩, rfl, rfl, rfl, rfl, ⟨_, rfl⟩, ⟨_, rfl⟩⟩

/-- C34.  Index safety of the unpacker: for every option record, whatever the
bit patterns of `active`, `varying` and `type`, every output record and every
lane `l < SimdLaneCount`, `updateOption` returns, and every read of the pointer
array it has made, at an index `j` by the block of the option `i`, has
`j ≤ i < MAX_OPTIONS` (indices are natural numbers, so `0 ≤ j`) and lies inside
the array of `MAX_OPTIONS` pointers. -/
theorem C34_index_safety (decls : TextureDecls) (provider : BatchedTextureOptionProvider)
    (m_opt : BatchedTextureOptionProvider.OptionData) (opt : TextureOpt) (l : Nat)
    (hm : provider.m_opt = some m_opt) (hl : l < SimdLaneCount) :
    ∃ st, BatchedTextureOptionProvider.updateOptionState decls provider opt l = some st ∧
      ∀ i j, (i, j) ∈ st.reads →
        j ≤ i ∧ i < BatchedTextureOptionProvider.MAX_OPTIONS ∧
          j < BatchedTextureOptionProvider.MAX_OPTIONS ∧
          ∃ p, m_opt.options.read j = some p := by
  obtain ⟨st, hst, _, hr, _⟩ :=
    BatchedTextureOptionProvider.updateOptionBlocks_run decls m_opt hl opt
      provider.m_missingcolor
  refine ⟨st, ?_, ?_⟩
  · unfold BatchedTextureOptionProvider.updateOptionState
    rw [hm]
    exact hst
  · intro i j hmem
    rw [hr] at hmem
    obtain ⟨hi, _, hj⟩ := (BatchedTextureOptionProvider.mem_denseReads m_opt _ i j).mp hmem
    have hle : j ≤ i := by
      rw [hj]
      exact BatchedTextureOptionProvider.cursorAt_le m_opt i
    have hlt : j < BatchedTextureOptionProvider.MAX_OPTIONS := Nat.lt_of_le_of_lt hle hi
    exact ⟨hle, hi, hlt, CArray.read_isSome m_opt.options hlt⟩

/-- Witness of C34: the record with every bit of `active`, `varying` and `type`
set, lane 3. -/
theorem C34_index_safety_witness :
    ∃ st, BatchedTextureOptionProvider.updateOptionState TextureDecls.sample
        (BatchedTextureOptionProvider.create
          (some (BatchedTextureOptionProvider.OptionData.sample 4294967295 4294967295
            4294967295)))
        TextureOpt.sample 3 = some st ∧
      ∀ i j, (i, j) ∈ st.reads →
        j ≤ i ∧ i < BatchedTextureOptionProvider.MAX_OPTIONS ∧
          j < BatchedTextureOptionProvider.MAX_OPTIONS ∧
          ∃ p, (BatchedTextureOptionProvider.OptionData.sample 4294967295 4294967295
            4294967295).options.read j = some p :=
  C34_index_safety TextureDecls.sample
    (BatchedTextureOptionProvider.create
      (some (BatchedTextureOptionProvider.OptionData.sample 4294967295 4294967295
        4294967295)))
    (BatchedTextureOptionProvider.OptionData.sample 4294967295 4294967295 4294967295)
    TextureOpt.sample 3 rfl (by decide)

/-- C35.  For the provider constructed with a null option record, every lane `l`
and every output record `opt`: `updateOption(opt, l)` returns, with `opt` and
the provider as they were, having read nothing of a pointer array. -/
theorem C35_null_record (decls : TextureDecls) (opt : TextureOpt) (l : Nat) :
    BatchedTextureOptionProvider.updateOption decls
        (BatchedTextureOptionProvider.create none) opt l
      = some (opt, BatchedTextureOptionProvider.create none) ∧
    (BatchedTextureOptionProvider.updateOptionState decls
        (BatchedTextureOptionProvider.create none) opt l).map (fun st => st.reads)
      = some [] :=
  ⟨rfl, rfl⟩

/-- C36.  The two copies of the type-matching logic agree: for every
descriptor and every static type `T` -- not an array, a fixed array, an
unbounded array -- `MaskedData::is<T>()` and `DataRef::is<T>()` of views built
from the descriptor return the same boolean. -/
theorem C36_is_agree (W : Nat) (type : TypeDesc) (has_derivs has_derivs2 : Bool)
    (mask : Mask) (ptr ptr2 : Nat) (T : StaticType) :
    (MaskedData.create type has_derivs mask ptr : MaskedData W).is T
      = (DataRef.create type has_derivs2 ptr2).is T := by
  cases T with
  | plain E => rfl
  | array E extent =>
    show MaskedData.is_array_unbounded_selector _ E (extent == 0)
      = DataRef.is_array_unbounded_selector _ E (extent == 0)
    cases (extent == 0) <;> rfl

/-- C37 as stated fails: the descriptor of an array of 1431655766 floats is
accepted by `is<float[]>()`; for plane 3 the `int` product
`array_length*derivIndex` overflows and its low 32 bits are 2, so that the
instance addressed for plane 3, position 0 is the instance addressed for plane
0, position 2. -/
theorem C37_counterexample :
    (MaskedData.create (TypeDesc.floatArray 1431655766) true (WideMask.fromBool true) 4096 :
      MaskedData 16).is (.array .float 0) = true ∧
    (((MaskedUnboundArrayAccessor.fromPtr 4096 3 1431655766 (WideMask.fromBool true) :
        MaskedUnboundArrayAccessor 16).subscript 0).subscript 0)
      = some ⟨⟨4096, 2⟩, WideMask.fromBool true, 0⟩ ∧
    (((MaskedUnboundArrayAccessor.fromPtr 4096 0 1431655766 (WideMask.fromBool true) :
        MaskedUnboundArrayAccessor 16).subscript 0).subscript 2)
      = some ⟨⟨4096, 2⟩, WideMask.fromBool true, 0⟩ ∧
    (((MaskedUnboundArrayAccessor.fromPtr 4096 3 1431655766 (WideMask.fromBool true) :
        MaskedUnboundArrayAccessor 16).subscript 0).subscript 0)
      = (((MaskedUnboundArrayAccessor.fromPtr 4096 0 1431655766 (WideMask.fromBool true) :
        MaskedUnboundArrayAccessor 16).subscript 0).subscript 2) ∧
    ((3 : Nat), (0 : Nat)) ≠ (0, 2) :=
  ⟨by decide, by decide, by decide, by decide, by decide⟩

/-- C37, as amended.  Planes never alias where the `int` product does not
overflow: for every view whose descriptor `is<E[]>()` accepts, with array length
`n`, every plane `p` with `n*p` below `2^31` and every position `k < n`, the
bridge returns for the plane `p` the unbounded-array accessor built with plane
index `p`, the instance it addresses at position `k` is `pointer[n*p + k]`, and
so is the instance the fixed-length accessor of extent `n` addresses; and the
instances addressed for `(p, k)` and `(p2, k2)`, `n*p2` below `2^31` and
`k2 < n`, are the same only if `p = p2` and `k = k2`. -/
theorem C37_planes_never_alias (W : Nat) (v : MaskedData W) (E : ElemType) (lane : Nat)
    (p p2 k k2 : Nat) (hv : v.is (.array E 0) = true)
    (hp : v.m_type.arraylen * p < 2147483648) (hp2 : v.m_type.arraylen * p2 < 2147483648)
    (hk : k < v.m_type.arraylen) (hk2 : k2 < v.m_type.arraylen) :
    v.masked_impl (.array E 0) (p : Int) true
      = some (.unboundArrayAccessor
          (MaskedUnboundArrayAccessor.fromPtr v.m_ptr p v.m_type.arraylen v.m_mask)) ∧
    (((MaskedUnboundArrayAccessor.fromPtr v.m_ptr p v.m_type.arraylen v.m_mask :
        MaskedUnboundArrayAccessor W).subscript lane).subscript k)
      = some ⟨⟨v.m_ptr, ((v.m_type.arraylen * p + k : Nat) : Int)⟩, v.m_mask, lane⟩ ∧
    (((MaskedArrayAccessor.fromPtr v.m_ptr p v.m_mask :
        MaskedArrayAccessor v.m_type.arraylen W).subscript lane).subscript k)
      = ⟨⟨v.m_ptr, ((v.m_type.arraylen * p + k : Nat) : Int)⟩, v.m_mask, lane⟩ ∧
    ((((MaskedUnboundArrayAccessor.fromPtr v.m_ptr p v.m_type.arraylen v.m_mask :
        MaskedUnboundArrayAccessor W).subscript lane).subscript k)
      = (((MaskedUnboundArrayAccessor.fromPtr v.m_ptr p2 v.m_type.arraylen v.m_mask :
        MaskedUnboundArrayAccessor W).subscript lane).subscript k2) →
      p = p2 ∧ k = k2) := by
  have hprod : ∀ q : Nat, v.m_type.arraylen * q < 2147483648 →
      toInt32 ((v.m_type.arraylen : Int) * (q : Int)) = ((v.m_type.arraylen * q : Nat) : Int) := by
    intro q hq
    have h1 : ((v.m_type.arraylen : Int) * (q : Int)) = ((v.m_type.arraylen * q : Nat) : Int) := by
      push_cast
      rfl
    rw [h1]
    exact toInt32_of_range (by omega) (by omega)
  have hidx : ∀ (q j : Nat), v.m_type.arraylen * q < 2147483648 → j < v.m_type.arraylen →
      (((MaskedUnboundArrayAccessor.fromPtr v.m_ptr q v.m_type.arraylen v.m_mask :
        MaskedUnboundArrayAccessor W).subscript lane).subscript j)
      = some ⟨⟨v.m_ptr, ((v.m_type.arraylen * q + j : Nat) : Int)⟩, v.m_mask, lane⟩ := by
    intro q j hq hj
    have hlt : (j : Int) < (v.m_type.arraylen : Int) := by exact_mod_cast hj
    show (if (j : Int) < (v.m_type.arraylen : Int) then
      some (MaskedLaneProxyRef.mk
        (WideRef.mk v.m_ptr (toInt32 ((v.m_type.arraylen : Int) * (q : Int)) + (j : Int)))
        v.m_mask lane) else none) = _
    rw [if_pos hlt, hprod q hq]
    push_cast
    rfl
  refine ⟨?_, hidx p k hp hk, ?_, ?_⟩
  · show (if v.is (.array E 0) = true then
      v.masked_array_impl (.array E 0) (p : Int) ((StaticType.array E 0).extent == 0)
      else none) = _
    rw [if_pos hv]
    show (if v.is (.array E 0) = true then _ else none) = _
    rw [if_pos hv]
  · show MaskedLaneProxyRef.mk
      (WideRef.mk v.m_ptr (toInt32 ((v.m_type.arraylen : Int) * (p : Int)) + (k : Int)))
      v.m_mask lane = _
    rw [hprod p hp]
    push_cast
    rfl
  · intro h
    rw [hidx p k hp hk, hidx p2 k2 hp2 hk2] at h
    have h1 : ((v.m_type.arraylen * p + k : Nat) : Int)
        = ((v.m_type.arraylen * p2 + k2 : Nat) : Int) := by
      have := Option.some.inj h
      exact congrArg (fun r => r.m_ref_wide_data.index) this
    have h2 : v.m_type.arraylen * p + k = v.m_type.arraylen * p2 + k2 := by
      exact_mod_cast h1
    have hn : 0 < v.m_type.arraylen := by omega
    have hpp : p = p2 := by
      have e1 : (v.m_type.arraylen * p + k) / v.m_type.arraylen = p := by
        rw [Nat.mul_add_div hn, Nat.div_eq_of_lt hk, Nat.add_zero]
      have e2 : (v.m_type.arraylen * p2 + k2) / v.m_type.arraylen = p2 := by
        rw [Nat.mul_add_div hn, Nat.div_eq_of_lt hk2, Nat.add_zero]
      rw [← e1, ← e2, h2]
    subst hpp
    exact ⟨rfl, by omega⟩

/-- Witness of C37: an array of 3 floats, plane 1 position 2 and plane 2
position 0. -/
theorem C37_planes_never_alias_witness :
    (((MaskedUnboundArrayAccessor.fromPtr 4096 (1 : Nat) (3 : Nat) (WideMask.fromBool true) :
        MaskedUnboundArrayAccessor 16).subscript 0).subscript (2 : Nat))
      = some ⟨⟨4096, ((3 * 1 + 2 : Nat) : Int)⟩, WideMask.fromBool true, 0⟩ ∧
    ((((MaskedUnboundArrayAccessor.fromPtr 4096 (1 : Nat) (3 : Nat) (WideMask.fromBool true) :
        MaskedUnboundArrayAccessor 16).subscript 0).subscript (2 : Nat))
      = (((MaskedUnboundArrayAccessor.fromPtr 4096 (2 : Nat) (3 : Nat)
          (WideMask.fromBool true) :
        MaskedUnboundArrayAccessor 16).subscript 0).subscript (0 : Nat)) →
      1 = 2 ∧ 2 = 0) :=
  ⟨(C37_planes_never_alias 16
      (MaskedData.create (TypeDesc.floatArray 3) true (WideMask.fromBool true) 4096)
      .float 0 1 2 2 0 (by decide) (by decide) (by decide) (by decide) (by decide)).2.1,
   (C37_planes_never_alias 16
      (MaskedData.create (TypeDesc.floatArray 3) true (WideMask.fromBool true) 4096)
      .float 0 1 2 2 0 (by decide) (by decide) (by decide) (by decide) (by decide)).2.2.2⟩

/-- C38.  Reads are not predicated: for wide storage `s` of every logical type
and every width, every mask `m` and every lane `l`, the conversion and `get()`
of the masked lane proxy return what `s.get(l)` returns, whether lane `l` is on
or off in `m`, and so do the conversion and `get()` of the unmasked lane proxy.
For a lane `l < W` what is returned is a value, for float, int, transform
handle, Vec2, Vec3, Vec4, Color3, Matrix44, interned string and `Dual2<float>`;
for `Dual2<Vec3>`, whose sub-storages have `SimdLaneCount` lanes, it is a value
exactly for the lanes `l < SimdLaneCount`. -/
theorem C38_unpredicated_read (W : Nat) :
    (∀ (DataT : Type) [WideSpecialization DataT] (s : Wide DataT W) (m : Mask) (l : Nat),
      ((MaskedAccessor.mk s m).subscript l).toData = WideSpecialization.get s l ∧
      ((MaskedAccessor.mk s m).subscript l).get = WideSpecialization.get s l ∧
      (LaneProxy.mk s l).toData = WideSpecialization.get s l ∧
      (LaneProxy.mk s l).get = WideSpecialization.get s l ∧
      ((MaskedAccessor.mk s m).subscript l).toData = (LaneProxy.mk s l).toData ∧
      ((MaskedAccessor.mk s m).subscript l).get = (LaneProxy.mk s l).get) ∧
    UnpredicatedRead float W ∧ UnpredicatedRead int W ∧
    UnpredicatedRead TransformationPtr W ∧
    UnpredicatedRead Vec2 W ∧ UnpredicatedRead Vec3 W ∧ UnpredicatedRead Vec4 W ∧
    UnpredicatedRead Color3 W ∧ UnpredicatedRead Matrix44 W ∧ UnpredicatedRead ustring W ∧
    UnpredicatedRead (Dual2 float) W ∧
    (∀ (s : Wide (Dual2 Vec3) W) (l : Nat),
      (∃ v, WideSpecialization.get s l = some v) ↔ l < SimdLaneCount) :=
  ⟨fun _ _ _ _ _ => ⟨rfl, rfl, rfl, rfl, rfl, rfl⟩,
   unpredicatedRead_of_isSome (fun s _ hl => WideBuiltin.get_isSome_wideBuiltin s hl),
   unpredicatedRead_of_isSome (fun s _ hl => WideBuiltin.get_isSome_wideBuiltin s hl),
   unpredicatedRead_of_isSome (fun s _ hl => WideBuiltin.get_isSome_wideBuiltin s hl),
   unpredicatedRead_of_isSome (fun s _ hl => WideVec2.get_isSome_wideVec2 s hl),
   unpredicatedRead_of_isSome (fun s _ hl => WideVec3.get_isSome_wideVec3 s hl),
   unpredicatedRead_of_isSome (fun s _ hl => WideVec4.get_isSome_wideVec4 s hl),
   unpredicatedRead_of_isSome (fun s _ hl => WideColor3.get_isSome_wideColor3 s hl),
   unpredicatedRead_of_isSome (fun s _ hl => WideMatrix44.get_isSome_wideMatrix44 s hl),
   unpredicatedRead_of_isSome (fun s _ hl => WideUstring.get_isSome_wideUstring s hl),
   unpredicatedRead_of_isSome
     (fun s _ hl => WideDual2Float.get_isSome_wideDual2Float s hl),
   fun s _ => ⟨fun h => WideDual2Vec3.lt_of_get_isSome s h,
     fun hl => WideDual2Vec3.get_isSome_wideDual2Vec3 s hl⟩⟩

/-- Witness of C38: lane 1 of four `int` lanes holding 7, off in the mask with
lanes 0 and 2 on; and lane 20 of a `Wide<Dual2<Vec3>, 32>` under the mask
`Mask(1u << 20)`. -/
theorem C38_unpredicated_read_witness :
    (∃ v, WideSpecialization.get (sampleInt4 7) 1 = some v ∧
      ((MaskedAccessor.mk (sampleInt4 7) (WideMask.fromValue 5)).subscript 1).toData
        = some v ∧
      ((MaskedAccessor.mk (sampleInt4 7) (WideMask.fromValue 5)).subscript 1).get
        = some v ∧
      (LaneProxy.mk (sampleInt4 7) 1).toData = some v ∧
      (LaneProxy.mk (sampleInt4 7) 1).get = some v) ∧
    ((MaskedAccessor.mk (sampleWideDual2Vec3 32) (WideMask.fromValue 1048576)).subscript
        20).get = (LaneProxy.mk (sampleWideDual2Vec3 32) 20).get :=
  ⟨(C38_unpredicated_read 4).2.2.1 (sampleInt4 7) (WideMask.fromValue 5) 1 (by decide),
   ((C38_unpredicated_read 32).1 (Dual2 Vec3) (sampleWideDual2Vec3 32)
      (WideMask.fromValue 1048576) 20).2.2.2.2.2⟩

/-- C39, the code at the failing input.  The copy constructor of the masked
unbounded-array lane proxy takes the storage array, the mask and the lane from
the proxy it copies, and the length from the name `array_length`, which the
constructor does not declare: the copy of a proxy with carried length 3 reports
whatever that name denotes, 7 here, where the copy constructor of the sibling
`MaskedUnboundArrayAccessor`, which reads `other.m_array_length`, keeps 3. -/
theorem C39_copy_length_at_failing_input :
    (∀ (W : Nat) (p : MaskedUnboundedArrayLaneProxy W) (array_length : Int),
      (p.copy array_length).m_array_of_wide_data = p.m_array_of_wide_data ∧
      (p.copy array_length).m_mask = p.m_mask ∧
      (p.copy array_length).m_index = p.m_index ∧
      (p.copy array_length).length = array_length) ∧
    (MaskedUnboundedArrayLaneProxy.mk ⟨4096, 0⟩ 3 (WideMask.fromBool true) 0 :
      MaskedUnboundedArrayLaneProxy 16).length = 3 ∧
    ((MaskedUnboundedArrayLaneProxy.mk ⟨4096, 0⟩ 3 (WideMask.fromBool true) 0 :
      MaskedUnboundedArrayLaneProxy 16).copy 7).length = 7 ∧
    ((MaskedUnboundArrayAccessor.mk ⟨4096, 0⟩ 3 (WideMask.fromBool true) :
      MaskedUnboundArrayAccessor 16).copy).m_array_length = 3 :=
  ⟨fun _ _ _ => ⟨rfl, rfl, rfl, rfl⟩, rfl, rfl, rfl⟩

end OSL
